import Mathlib

/-!
# pf-trafficAcc: ingestion pipeline

A shallow embedding of the parts of `data-processor/main.go` and
`data-collector/main.go` that normalise, publish, persist and roll up traffic
records and schedule the daily rollup, followed by the properties established
about them.

Conventions of the embedding

* A Go `string` is read as its sequence of runes (what `for _, ch := range s`
  yields); a rune is a `Char`.
* A relational table is the list of its rows in insertion order.
* A statement handed to the relational store either fails (the Go function
  gets a non-nil `err` and the table is left as it was) or is executed; which
  of the two happens is an input of the model (`fault`).
* `NOW()` is an input of the model (`now`), a number of seconds.
* An instant of package `time` is the number of seconds shown by the local
  clock of its location since 1970-01-01 00:00:00; the offset of the location
  does not change.
-/

namespace TrafficAcc

/-! ## data-processor: records and time-string normalisation -/

/-- Incident record as decoded from a stream entry (`RealTimeSMS`). The two
coordinates are `float64` in the source; they are only copied, never computed
with, and are carried as rationals. -/
structure RealTimeSMS where
  AccDate : String
  AccHour : String
  AccPointNM : String
  LinkID : String
  AccInfo : String
  AccType : String
  Latitude : ℚ
  Longitude : ℚ
  RoadNM : String
deriving DecidableEq, Repr

/-- The test `ch >= '0' && ch <= '9'` of `formatDate` and `formatHour`. -/
def isDigitRune (ch : Char) : Bool :=
  decide ('0' ≤ ch) && decide (ch ≤ '9')

/-- The loop `for _, ch := range s { if digit { cleaned += string(ch) } }`:
the accumulator `cleaned` holds ASCII digits only, one byte per rune. -/
def cleanedDigits (s : String) : List Char :=
  s.toList.foldl (fun cleaned ch => if isDigitRune ch then cleaned ++ [ch] else cleaned) []

/-- Source `formatDate`: keep the digits, cut to 8 when there are more. -/
def formatDate (date : String) : String :=
  let cleaned := cleanedDigits date
  if cleaned.length > 8 then String.mk (cleaned.take 8) else String.mk cleaned

/-- Source `formatHour`: keep the digits, return the first 4 when there are at
least 4, otherwise all of them. -/
def formatHour (hour : String) : String :=
  let cleaned := cleanedDigits hour
  if cleaned.length ≥ 4 then String.mk (cleaned.take 4) else String.mk cleaned

/-! ## data-processor: the incident table and its writer -/

/-- One row of table `traffic_accidents`, with the columns that
`insertAccident` names. -/
structure AccidentRow where
  acc_date : String
  acc_hour : String
  acc_point_nm : String
  sms_text : String
  acc_type : String
  latitude : ℚ
  altitude : ℚ
  road_nm : String
  nosun_nm : String
  created_at : Nat
deriving DecidableEq, Repr

/-- Table `traffic_accidents`: its rows, oldest first. -/
abbrev AccidentTable := List AccidentRow

/-- Modelled from the spec: the unique index of `traffic_accidents` (the table
declaration is not part of the sources). The spec gives the natural key as
(occurrence date, occurrence time, location label, description text); these are
also the four columns `isDuplicate` compares. -/
def naturalKey (r : AccidentRow) : String × String × String × String :=
  (r.acc_date, r.acc_hour, r.acc_point_nm, r.sms_text)

/-- The statement
`INSERT INTO traffic_accidents (...) VALUES (...) ON DUPLICATE KEY UPDATE created_at = NOW()`
executed on a table: the row holding the key of the new row gets the new
`created_at`; when no row holds that key the new row is added. -/
def execUpsertAccident : AccidentTable → AccidentRow → AccidentTable
  | [], new => [new]
  | r :: rest, new =>
    if naturalKey r = naturalKey new then
      { r with created_at := new.created_at } :: rest
    else
      r :: execUpsertAccident rest new

/-- The row that `insertAccident` hands to the store: normalised date and hour,
the record's own fields, an empty `nosun_nm`, and `NOW()`. -/
def accidentRowOf (now : Nat) (accident : RealTimeSMS) : AccidentRow :=
  { acc_date := formatDate accident.AccDate
    acc_hour := formatHour accident.AccHour
    acc_point_nm := accident.AccPointNM
    sms_text := accident.AccInfo
    acc_type := accident.AccType
    latitude := accident.Latitude
    altitude := accident.Longitude
    road_nm := accident.RoadNM
    nosun_nm := ""
    created_at := now }

/-- Source `Processor.insertAccident`: returns the table after the call and the
returned `error` (`none` for `nil`). -/
def insertAccident (fault : Option String) (now : Nat) (db : AccidentTable)
    (accident : RealTimeSMS) : AccidentTable × Option String :=
  match fault with
  | some err => (db, some ("failed to insert accident: " ++ err))
  | none => (execUpsertAccident db (accidentRowOf now accident), none)

/-- Source `Processor.isDuplicate`, on a store that answers the query:
`SELECT COUNT(*) ... WHERE acc_date = ? AND acc_hour = ? AND acc_point_nm = ? AND sms_text = ?`
is positive. -/
def isDuplicate (db : AccidentTable) (accident : RealTimeSMS) : Bool :=
  decide ((db.filter (fun r => decide (naturalKey r =
    (formatDate accident.AccDate, formatHour accident.AccHour,
      accident.AccPointNM, accident.AccInfo)))).length > 0)

/-- A row with every column but `created_at`. -/
def withoutCreatedAt (r : AccidentRow) : AccidentRow :=
  { r with created_at := 0 }

/-- No two rows of the table hold the same natural key. -/
def UniqueKeys (db : AccidentTable) : Prop :=
  (db.map naturalKey).Nodup

/-- Number of rows of the table holding the given key. -/
def rowsWithKey (db : AccidentTable) (k : String × String × String × String) : Nat :=
  (db.filter (fun r => decide (naturalKey r = k))).length

/-- The natural key under which `insertAccident` and `isDuplicate` address a
record: normalised date, normalised hour, location label, description. -/
def recordKey (accident : RealTimeSMS) : String × String × String × String :=
  (formatDate accident.AccDate, formatHour accident.AccHour,
    accident.AccPointNM, accident.AccInfo)

/-! ## data-processor: stream entries and `processMessage` -/

/-- A field value of a stream entry (`interface{}` in `msg.Values` and in
`XAddArgs.Values`): a string, an integer, or a value of another dynamic
type. -/
inductive FieldValue where
  | str (s : String)
  | int (n : Int)
  | other
deriving DecidableEq, Repr

/-- Stream entry `redis.XMessage`: its id and its field map. -/
structure XMessage where
  ID : String
  Values : List (String × FieldValue)
deriving DecidableEq, Repr

/-- The map access `msg.Values[name]`. -/
def XMessage.field (msg : XMessage) (name : String) : Option FieldValue :=
  msg.Values.lookup name

/-- What the processor does to the outside world, in the order it does it:
`exec` is the `ExecContext` call of `insertAccident` for the record at position
`index` of entry `msgID` (`failed` tells whether the store returned an error),
`xack` is the `XAck` call for entry `msgID`. -/
inductive Effect where
  | exec (msgID : String) (index : Nat) (accident : RealTimeSMS) (failed : Bool)
  | xack (msgID : String) (failed : Bool)
deriving DecidableEq, Repr

/-- Variables of the loop `for _, accident := range accidents`. -/
structure LoopState where
  db : AccidentTable
  processedCount : Nat
  effects : List Effect

/-- The loop of `processMessage` from position `i` on. `env i` gives, for the
record at position `i`, the fault of its store call (if any) and its `NOW()`.
A failed `insertAccident` is logged and the loop continues with the next
record. -/
def upsertLoop (env : Nat → Option String × Nat) (msgID : String) :
    Nat → List RealTimeSMS → LoopState → LoopState
  | _, [], st => st
  | i, accident :: rest, st =>
    match insertAccident (env i).1 (env i).2 st.db accident with
    | (db1, some _) =>
      upsertLoop env msgID (i + 1) rest
        { db := db1
          processedCount := st.processedCount
          effects := st.effects ++ [Effect.exec msgID i accident true] }
    | (db1, none) =>
      upsertLoop env msgID (i + 1) rest
        { db := db1
          processedCount := st.processedCount + 1
          effects := st.effects ++ [Effect.exec msgID i accident false] }

/-- Outcome of `processMessage`: the table afterwards, the returned `error`,
the store calls made, and the final `processedCount`. -/
structure ProcessResult where
  db : AccidentTable
  err : Option String
  effects : List Effect
  processedCount : Nat

/-- Source `Processor.processMessage`. `unmarshal` stands for
`json.Unmarshal` into `[]RealTimeSMS` (`none` when it returns an error). -/
def processMessage (unmarshal : String → Option (List RealTimeSMS))
    (env : Nat → Option String × Nat) (db : AccidentTable) (msg : XMessage) :
    ProcessResult :=
  match msg.field "data" with
  | some (FieldValue.str dataStr) =>
    match unmarshal dataStr with
    | none =>
      { db := db, err := some "failed to unmarshal accidents", effects := [],
        processedCount := 0 }
    | some accidents =>
      let st := upsertLoop env msg.ID 0 accidents
        { db := db, processedCount := 0, effects := [] }
      { db := st.db, err := none, effects := st.effects,
        processedCount := st.processedCount }
  | _ =>
    { db := db, err := some "invalid message format: missing data field",
      effects := [], processedCount := 0 }

/-- One write operation on the incident table: a direct `insertAccident`, or a
`processMessage` of a stream entry. -/
inductive WriterOp where
  | insert (fault : Option String) (now : Nat) (accident : RealTimeSMS)
  | process (env : Nat → Option String × Nat) (msg : XMessage)

/-- The table after one write operation. -/
def applyOp (unmarshal : String → Option (List RealTimeSMS)) (db : AccidentTable) :
    WriterOp → AccidentTable
  | WriterOp.insert fault now accident => (insertAccident fault now db accident).1
  | WriterOp.process env msg => (processMessage unmarshal env db msg).db

/-- The table after a sequence of write operations, starting from the empty
table. -/
def runOps (unmarshal : String → Option (List RealTimeSMS)) (ops : List WriterOp) :
    AccidentTable :=
  ops.foldl (applyOp unmarshal) []

instance instDecidableUniqueKeys (db : AccidentTable) : Decidable (UniqueKeys db) := by
  unfold UniqueKeys
  infer_instance

/-- Sample record: a stopped vehicle reported at 16:10:23 on 2025.10.28. -/
def sampleAccident : RealTimeSMS :=
  { AccDate := "2025.10.28"
    AccHour := "16:10:23"
    AccPointNM := "Seoul TG"
    LinkID := "L1"
    AccInfo := "stopped vehicle"
    AccType := "breakdown"
    Latitude := 37
    Longitude := 127
    RoadNM := "Gyeongbu" }

/-- Sample table: the sample record already stored, with another type, other
coordinates and another road name, at time 100. -/
def sampleTable : AccidentTable :=
  [ { acc_date := "20251028"
      acc_hour := "1610"
      acc_point_nm := "Seoul TG"
      sms_text := "stopped vehicle"
      acc_type := "accident"
      latitude := 36
      altitude := 128
      road_nm := "Yeongdong"
      nosun_nm := ""
      created_at := 100 } ]

/-- The rows that the loop of `processMessage` hands to the store for the
records of `accidents`, the first of which stands at position `i`. -/
def rowsFrom (env : Nat → Option String × Nat) (i : Nat) (accidents : List RealTimeSMS) :
    List AccidentRow :=
  (accidents.enumFrom i).map (fun p => accidentRowOf (env p.1).2 p.2)

/-- The rows among `rowsFrom` whose store call is executed. -/
def keptRows (env : Nat → Option String × Nat) (i : Nat) (accidents : List RealTimeSMS) :
    List AccidentRow :=
  ((accidents.enumFrom i).filter (fun p => (env p.1).1.isNone)).map
    (fun p => accidentRowOf (env p.1).2 p.2)

/-- Sample record whose date and time hold no digit at all. -/
def undatedAccident : RealTimeSMS :=
  { AccDate := "yesterday"
    AccHour := "noon"
    AccPointNM := "Daejeon IC"
    LinkID := "L2"
    AccInfo := "debris on road"
    AccType := "obstacle"
    Latitude := 36
    Longitude := 127
    RoadNM := "Honam" }

/-- Sample record, well-formed, distinct from `sampleAccident`. -/
def secondAccident : RealTimeSMS :=
  { AccDate := "2025.10.28"
    AccHour := "17:02:41"
    AccPointNM := "Busan TG"
    LinkID := "L3"
    AccInfo := "collision"
    AccType := "accident"
    Latitude := 35
    Longitude := 129
    RoadNM := "Gyeongbu" }

/-- Sample stream entry with a string `data` field. -/
def sampleMessage : XMessage :=
  { ID := "1-0"
    Values := [("data", FieldValue.str "payload"), ("timestamp", FieldValue.other),
      ("source", FieldValue.str "sim")] }

/-- Sample decoder: every payload decodes to the batch
`[sampleAccident, undatedAccident, secondAccident]`. -/
def sampleUnmarshal (_ : String) : Option (List RealTimeSMS) :=
  some [sampleAccident, undatedAccident, secondAccident]

/-- Sample environment in which every store call is executed, at time 50. -/
def calmEnv (_ : Nat) : Option String × Nat := (none, 50)

/-- Sample environment in which the store rejects the call for the record at
position 1 and executes all others, at time 50. -/
def faultAtOne (i : Nat) : Option String × Nat :=
  if i = 1 then (some "Error 1406: Data too long", 50) else (none, 50)

/-! ## data-processor: the reader loop `Start` -/

/-- One stream of an `XReadGroup` reply (`redis.XStream`). -/
structure XStream where
  Stream : String
  Messages : List XMessage
deriving DecidableEq, Repr

/-- Outcome of one `XReadGroup` call: `redis.Nil` (block time elapsed, nothing
new), another error, or the streams read. -/
inductive ReadResult where
  | redisNil
  | failure (err : String)
  | streams (reply : List XStream)
deriving DecidableEq, Repr

/-- State of the reader loop: the incident table, the effects issued so far in
order, and the number of entries handed to `processMessage` so far. -/
structure ReaderState where
  db : AccidentTable
  effects : List Effect
  handled : Nat

/-- Body of `for _, msg := range stream.Messages` in `Start`: run
`processMessage`; on error log and `continue`, otherwise issue `XAck`.
`env n` is the store environment of the n-th entry handled, `ackFault n` the
fault (if any) of its `XAck` call. -/
def handleMessage (unmarshal : String → Option (List RealTimeSMS))
    (env : Nat → Nat → Option String × Nat) (ackFault : Nat → Option String)
    (st : ReaderState) (msg : XMessage) : ReaderState :=
  let res := processMessage unmarshal (env st.handled) st.db msg
  match res.err with
  | some _ =>
    { db := res.db, effects := st.effects ++ res.effects, handled := st.handled + 1 }
  | none =>
    { db := res.db
      effects := st.effects ++ res.effects
        ++ [Effect.xack msg.ID (ackFault st.handled).isSome]
      handled := st.handled + 1 }

/-- One turn of the `for` loop of `Start` after the `ctx.Done()` check, given
the outcome of its `XReadGroup` call. -/
def startIteration (unmarshal : String → Option (List RealTimeSMS))
    (env : Nat → Nat → Option String × Nat) (ackFault : Nat → Option String)
    (st : ReaderState) : ReadResult → ReaderState
  | ReadResult.redisNil => st
  | ReadResult.failure _ => st
  | ReadResult.streams reply =>
    reply.foldl (fun st1 stream =>
      stream.Messages.foldl (handleMessage unmarshal env ackFault) st1) st

/-- Source `Processor.Start`, run until cancelled: the state after the turns
whose reads had the outcomes `reads`, in that order. -/
def Start (unmarshal : String → Option (List RealTimeSMS))
    (env : Nat → Nat → Option String × Nat) (ackFault : Nat → Option String)
    (db : AccidentTable) (reads : List ReadResult) : ReaderState :=
  reads.foldl (startIteration unmarshal env ackFault) { db := db, effects := [], handled := 0 }

/-- The entries delivered by one read. -/
def ReadResult.messages : ReadResult → List XMessage
  | ReadResult.redisNil => []
  | ReadResult.failure _ => []
  | ReadResult.streams reply => reply.flatMap (fun stream => stream.Messages)

/-- The store calls of `processMessage` for a batch: one per record, in
delivery order. -/
def writeAttempts (msgID : String) (accidents : List RealTimeSMS) (failed : Nat → Bool) :
    List Effect :=
  (accidents.enumFrom 0).map (fun p => Effect.exec msgID p.1 p.2 (failed p.1))

/-- The acknowledgement discipline on a sequence of effects, relative to the
entries `delivered`: wherever an `XAck` of entry `id` occurs, the effects right
before it are the write attempts for all records of a delivered entry with that
id whose `data` field decodes. -/
def AckAfterWrites (unmarshal : String → Option (List RealTimeSMS))
    (delivered : List XMessage) (effects : List Effect) : Prop :=
  ∀ (before after : List Effect) (id : String) (ackFailed : Bool),
    effects = before ++ Effect.xack id ackFailed :: after →
    ∃ (msg : XMessage) (dataStr : String) (accidents : List RealTimeSMS)
      (failed : Nat → Bool) (earlier : List Effect),
      msg ∈ delivered ∧ msg.ID = id ∧
      msg.field "data" = some (FieldValue.str dataStr) ∧
      unmarshal dataStr = some accidents ∧
      before = earlier ++ writeAttempts id accidents failed

/-- Sample run of the reader: an empty read, then a read delivering
`sampleMessage`. -/
def sampleReads : List ReadResult :=
  [ReadResult.redisNil,
   ReadResult.streams [{ Stream := "traffic-stream", Messages := [sampleMessage] }]]

/-! ## data-collector: the latest-snapshot rollup `aggregateRouteSummary` -/

/-- One row of table `road_traffic_status`, with the key and measurement
columns that `saveRoadStatus` writes (`std_date`, `std_hour` and `created_at`,
which nothing here reads, are left out). Modelled from the spec: the column types (the table
declaration is not part of the sources): volume, speed, share ratio and time
index are exact numbers, the grade is an integer (0 to 3 in the feed), the
collection timestamp is a number of seconds. -/
structure RoadStatusRow where
  route_no : String
  route_name : String
  conzone_id : String
  conzone_name : String
  vds_id : String
  updown_type_code : String
  traffic_amount : ℚ
  speed : ℚ
  share_ratio : ℚ
  time_avg : ℚ
  grade : Int
  collected_at : Nat
deriving DecidableEq, Repr

/-- One row of table `road_route_summary`, with the columns that
`aggregateRouteSummary` writes. The two averages are `NULL` (`none`) when
`AVG` had no value to average. -/
structure RouteSummaryRow where
  route_no : String
  route_name : String
  total_sections : Nat
  smooth_sections : Nat
  slow_sections : Nat
  congested_sections : Nat
  avg_speed : Option ℚ
  avg_traffic_amount : Option ℚ
  collected_at : Nat
deriving DecidableEq, Repr

/-- The route of a status sample: what the rollup query groups by,
`GROUP BY route_no, route_name`. -/
def RoadStatusRow.route (r : RoadStatusRow) : String × String :=
  (r.route_no, r.route_name)

/-- Modelled from the spec: the unique index of `road_route_summary` (the table
declaration is not part of the sources): one row per route and collection
timestamp, a route being the pair the query groups by. -/
def summaryKey (r : RouteSummaryRow) : (String × String) × Nat :=
  ((r.route_no, r.route_name), r.collected_at)

/-- `SELECT MAX(collected_at) FROM road_traffic_status`: `NULL` on the empty
table. -/
def latestCollectedAt : List RoadStatusRow → Option Nat
  | [] => none
  | r :: rest => some (rest.foldl (fun m x => max m x.collected_at) r.collected_at)

/-- SQL `AVG` over the non-`NULL` values of a group: `NULL` when there is
none, their exact mean otherwise. -/
def sqlAvg (values : List ℚ) : Option ℚ :=
  if values.isEmpty then none else some (values.sum / values.length)

/-- SQL `ROUND(x, 1)` on an exact number: the nearest multiple of one tenth,
halves away from zero. -/
def sqlRound1 (x : ℚ) : ℚ :=
  if 0 ≤ x then (⌊x * 10 + 1 / 2⌋ : ℤ) / 10 else -((⌊-x * 10 + 1 / 2⌋ : ℤ) / 10)

/-- The `WHERE` clause of the rollup query:
`collected_at = ? AND speed >= 0 AND grade > 0`. -/
def passesFilter (latest : Nat) (r : RoadStatusRow) : Bool :=
  decide (r.collected_at = latest) && decide (r.speed ≥ 0) && decide (r.grade > 0)

/-- The select list of the rollup query for one group. -/
def summaryOfGroup (latest : Nat) (route : String × String) (group : List RoadStatusRow) :
    RouteSummaryRow :=
  { route_no := route.1
    route_name := route.2
    total_sections := group.length
    smooth_sections := (group.map (fun r => if r.grade = 1 then 1 else 0)).sum
    slow_sections := (group.map (fun r => if r.grade = 2 then 1 else 0)).sum
    congested_sections := (group.map (fun r => if r.grade = 3 then 1 else 0)).sum
    avg_speed := (sqlAvg (group.filterMap
      (fun r => if r.speed ≥ 0 then some r.speed else none))).map sqlRound1
    avg_traffic_amount := (sqlAvg (group.filterMap
      (fun r => if r.traffic_amount ≥ 0 then some r.traffic_amount else none))).map sqlRound1
    collected_at := latest }

/-- The `SELECT ... FROM road_traffic_status WHERE ... GROUP BY route_no,
route_name` part of the rollup query: one row per group of filtered samples. -/
def selectRouteSummary (status : List RoadStatusRow) (latest : Nat) : List RouteSummaryRow :=
  let rows := status.filter (passesFilter latest)
  (rows.map RoadStatusRow.route).dedup.map
    (fun g => summaryOfGroup latest g (rows.filter (fun r => decide (r.route = g))))

/-- `INSERT ... ON DUPLICATE KEY UPDATE total_sections = VALUES(total_sections),
...` for one selected row: the stored row with the same key gets the six value
columns of the new row; when no row holds that key the new row is added. -/
def execUpsertSummary : List RouteSummaryRow → RouteSummaryRow → List RouteSummaryRow
  | [], new => [new]
  | r :: rest, new =>
    if summaryKey r = summaryKey new then
      { r with
        total_sections := new.total_sections
        smooth_sections := new.smooth_sections
        slow_sections := new.slow_sections
        congested_sections := new.congested_sections
        avg_speed := new.avg_speed
        avg_traffic_amount := new.avg_traffic_amount } :: rest
    else
      r :: execUpsertSummary rest new

/-- Source `Collector.aggregateRouteSummary`: the summary table after the call
and the returned `error`. `queryFault` and `execFault` are the faults (if any)
of its two store calls; scanning a `NULL` maximum into `time.Time` is an
error too. -/
def aggregateRouteSummary (queryFault execFault : Option String)
    (status : List RoadStatusRow) (summary : List RouteSummaryRow) :
    List RouteSummaryRow × Option String :=
  match queryFault with
  | some err => (summary, some ("failed to get latest collected_at: " ++ err))
  | none =>
    match latestCollectedAt status with
    | none => (summary, some "failed to get latest collected_at: converting NULL")
    | some latestCollectedAt =>
      match execFault with
      | some err => (summary, some ("failed to aggregate route summary: " ++ err))
      | none =>
        ((selectRouteSummary status latestCollectedAt).foldl execUpsertSummary summary, none)

/-- The summary row stored for a route at a collection timestamp, if any. -/
def summaryAt (summary : List RouteSummaryRow) (route : String × String) (t : Nat) :
    Option RouteSummaryRow :=
  summary.find? (fun r => decide (summaryKey r = (route, t)))

/-- The samples of a route at a collection timestamp that the rollup counts:
grade above 0 and speed not negative. -/
def countedSamples (status : List RoadStatusRow) (route : String × String) (t : Nat) :
    List RoadStatusRow :=
  status.filter (fun s => decide (s.route = route) && decide (s.collected_at = t)
    && decide (s.grade > 0) && decide (s.speed ≥ 0))

/-- Arithmetic mean of a list of numbers. -/
def mean (values : List ℚ) : ℚ :=
  values.sum / values.length

/-- Sample of route R1 with the given grade, speed and volume at time 1000. -/
def sampleOfR1 (vds : String) (grade : Int) (speed volume : ℚ) : RoadStatusRow :=
  { route_no := "0010"
    route_name := "R1"
    conzone_id := "C1"
    conzone_name := "zone"
    vds_id := vds
    updown_type_code := "S"
    traffic_amount := volume
    speed := speed
    share_ratio := 0
    time_avg := 0
    grade := grade
    collected_at := 1000 }

/-- Sample status table: three samples of route R1 at time 1000 with grades
1, 0, 3 and speeds 80, -1, 40, one older sample of R1, and one sample of route
R2 at time 1000 with grade 0. -/
def sampleStatus : List RoadStatusRow :=
  [ sampleOfR1 "V1" 1 80 100,
    sampleOfR1 "V2" 0 (-1) 0,
    sampleOfR1 "V3" 3 40 300,
    { sampleOfR1 "V1" 2 55 70 with collected_at := 700 },
    { sampleOfR1 "V9" 0 (-1) 0 with route_no := "0020", route_name := "R2" } ]

/-- Sample summary table: a row stored for route R2 at time 1000 by an earlier
rollup, when its sample still had grade 1. -/
def staleSummary : List RouteSummaryRow :=
  [ { route_no := "0020"
      route_name := "R2"
      total_sections := 1
      smooth_sections := 1
      slow_sections := 0
      congested_sections := 0
      avg_speed := some 90
      avg_traffic_amount := some 10
      collected_at := 1000 } ]

/-! ## Package `time`: calendar days on a local clock -/

/-- Modelled from the Go standard library (package `time` is not part of the
sources): the day number, counted from 1970-01-01, of a date of the proleptic
Gregorian calendar. The day of the month enters additively, so a day outside
the month is carried over, as `time.Date` does. -/
def daysFromCivil (year month day : Int) : Int :=
  let y := if month ≤ 2 then year - 1 else year
  let era := y / 400
  let yoe := y - era * 400
  let mp := if month > 2 then month - 3 else month + 9
  let doy := (153 * mp + 2) / 5 + day - 1
  let doe := yoe * 365 + yoe / 4 - yoe / 100 + doy
  era * 146097 + doe - 719468

/-- Modelled from the Go standard library: year, month and day of the month of
a day number counted from 1970-01-01 (what `Time.Date` computes). -/
def civilFromDays (days : Int) : Int × Int × Int :=
  let z := days + 719468
  let era := z / 146097
  let doe := z - era * 146097
  let yoe := (doe - doe / 1460 + doe / 36524 - doe / 146096) / 365
  let y := yoe + era * 400
  let doy := doe - (365 * yoe + yoe / 4 - yoe / 100)
  let mp := (5 * doy + 2) / 153
  let d := doy - (153 * mp + 2) / 5 + 1
  let m := if mp < 10 then mp + 3 else mp - 9
  (if m ≤ 2 then y + 1 else y, m, d)

/-- The calendar day, counted from 1970-01-01, of an instant. An instant
(`time.Time` in a location whose offset does not change) is the number of
seconds shown by the local clock since 1970-01-01 00:00:00. -/
def dayOf (t : Int) : Int := t / 86400

/-- `t.Year()`. -/
def timeYear (t : Int) : Int := (civilFromDays (dayOf t)).1

/-- `t.Month()`. -/
def timeMonth (t : Int) : Int := (civilFromDays (dayOf t)).2.1

/-- `t.Day()`. -/
def timeDay (t : Int) : Int := (civilFromDays (dayOf t)).2.2

/-- `t.Hour()`. -/
def timeHour (t : Int) : Int := t % 86400 / 3600

/-- `t.Minute()`. -/
def timeMinute (t : Int) : Int := t % 3600 / 60

/-- `t.Second()`. -/
def timeSecond (t : Int) : Int := t % 60

/-- `time.Date(year, month, day, hour, min, sec, 0, loc)`: a month outside
1..12 is carried into the year, and day, hour, minute and second outside their
ranges are carried over. -/
def timeDate (year month day hour min sec : Int) : Int :=
  let m := month - 1
  (daysFromCivil (year + m / 12) (m % 12 + 1) 1 + (day - 1)) * 86400
    + hour * 3600 + min * 60 + sec

/-- `t.AddDate(years, months, days)`: `Date` of the shifted year, month and day
with the clock of `t`. -/
def timeAddDate (t years months days : Int) : Int :=
  timeDate (timeYear t + years) (timeMonth t + months) (timeDay t + days)
    (timeHour t) (timeMinute t) (timeSecond t)

/-- The helper `appendInt` of `Time.Format`: decimal digits padded with
zeros on the left to `width`, behind a minus sign for a negative number. -/
def appendInt (x : Int) (width : Nat) : String :=
  let digits := (Nat.toDigits 10 x.natAbs)
  let padded := List.replicate (width - digits.length) '0' ++ digits
  if x < 0 then String.mk ('-' :: padded) else String.mk padded

/-- The rendering `YYYY-MM-DD` of a calendar day given as year, month, day. -/
def renderDate (ymd : Int × Int × Int) : String :=
  appendInt ymd.1 4 ++ "-" ++ appendInt ymd.2.1 2 ++ "-" ++ appendInt ymd.2.2 2

/-- `t.Format("2006-01-02")`. -/
def formatLayoutDate (t : Int) : String :=
  renderDate (timeYear t, timeMonth t, timeDay t)

/-! ## data-processor: the daily rollup -/

/-- One row of table `daily_accident_stats`, with the columns that
`aggregateDailyStats` writes; `stat_date` is held in its rendering
`YYYY-MM-DD`. -/
structure DailyStatRow where
  stat_date : String
  acc_type : String
  accident_count : Nat
  updated_at : Nat
deriving DecidableEq, Repr

/-- Modelled from the spec: the unique index of `daily_accident_stats` (the
table declaration is not part of the sources): one row per (date,
incident type). -/
def statKey (r : DailyStatRow) : String × String :=
  (r.stat_date, r.acc_type)

/-- SQL `DATE(created_at)`, in its rendering `YYYY-MM-DD`; `created_at` counts
the seconds of the store's clock since 1970-01-01 00:00:00. -/
def sqlDate (createdAt : Nat) : String :=
  formatLayoutDate (createdAt : Int)

/-- `INSERT ... ON DUPLICATE KEY UPDATE` of one row into a table with one
unique index: the stored row with the key of the new row is replaced by
`merge stored new`; when no row holds that key the new row is added. -/
def upsertBy {α κ : Type} [DecidableEq κ] (key : α → κ) (merge : α → α → α) :
    List α → α → List α
  | [], new => [new]
  | r :: rest, new =>
    if key r = key new then merge r new :: rest else r :: upsertBy key merge rest new

/-- The update list `accident_count = VALUES(accident_count), updated_at =
CURRENT_TIMESTAMP` of the daily rollup. -/
def mergeDailyStat (stored new : DailyStatRow) : DailyStatRow :=
  { stored with accident_count := new.accident_count, updated_at := new.updated_at }

/-- The `SELECT DATE(created_at), acc_type, COUNT(*) FROM traffic_accidents
WHERE DATE(created_at) = ? GROUP BY DATE(created_at), acc_type` part of the
daily rollup (the date parameter compared in its rendering `YYYY-MM-DD`), each
row stamped with the time of the statement. -/
def selectDailyStats (now : Nat) (accidents : AccidentTable) (date : String) :
    List DailyStatRow :=
  let rows := accidents.filter (fun r => decide (sqlDate r.created_at = date))
  (rows.map (fun r => (sqlDate r.created_at, r.acc_type))).dedup.map
    (fun g =>
      { stat_date := g.1
        acc_type := g.2
        accident_count :=
          (rows.filter (fun r => decide ((sqlDate r.created_at, r.acc_type) = g))).length
        updated_at := now })

/-- Source `Processor.aggregateDailyStats`: the statistics table after the call
and the returned `error`. -/
def aggregateDailyStats (fault : Option String) (now : Nat) (accidents : AccidentTable)
    (stats : List DailyStatRow) (date : String) : List DailyStatRow × Option String :=
  match fault with
  | some err => (stats, some ("failed to aggregate daily stats: " ++ err))
  | none => ((selectDailyStats now accidents date).foldl (upsertBy statKey mergeDailyStat) stats,
      none)

/-- The statistics row stored for a date and an incident type, if any. -/
def statAt (stats : List DailyStatRow) (date accType : String) : Option DailyStatRow :=
  stats.find? (fun r => decide (statKey r = (date, accType)))

/-- The `(date, type, count)` content of a statistics table. -/
def statTriples (stats : List DailyStatRow) : List (String × String × Nat) :=
  stats.map (fun r => (r.stat_date, r.acc_type, r.accident_count))

/-- The incident rows of a type whose ingestion timestamp `created_at` falls on
the date. -/
def ingestedOn (accidents : AccidentTable) (date accType : String) : List AccidentRow :=
  accidents.filter (fun r => decide (sqlDate r.created_at = date) && decide (r.acc_type = accType))

/-- The incident rows of a type whose occurrence date `acc_date` is the date
(given as `YYYY-MM-DD`, compared in the compact form `YYYYMMDD` of the
column). -/
def occurredOn (accidents : AccidentTable) (date accType : String) : List AccidentRow :=
  accidents.filter (fun r => decide (r.acc_date = formatDate date) && decide (r.acc_type = accType))

/-! ## data-processor: the scheduler `runDailyAggregation` -/

/-- `time.Date(now.Year(), now.Month(), now.Day()+1, 0, 0, 0, 0, now.Location())`. -/
def nextMidnight (now : Int) : Int :=
  timeDate (timeYear now) (timeMonth now) (timeDay now + 1) 0 0 0

/-- `nextMidnight.Sub(now)`, in seconds. -/
def durationUntilMidnight (now : Int) : Int :=
  nextMidnight now - now

/-- `time.Now().AddDate(0, 0, -1).Format("2006-01-02")`. -/
def yesterdayOf (now : Int) : String :=
  formatLayoutDate (timeAddDate now 0 0 (-1))

/-- The two `case` branches of the `select` that call `aggregateDailyStats`. -/
inductive AggBranch where
  | timer
  | ticker
deriving DecidableEq, Repr

/-- One call of `aggregateDailyStats` by the scheduler: the instant of the
call, the branch making it, and the date passed. -/
structure AggCall where
  instant : Int
  branch : AggBranch
  date : String
deriving DecidableEq, Repr

/-- The instants at which `timer.C` and `ticker.C` deliver next. -/
structure AggTimers where
  timerAt : Int
  tickerAt : Int
deriving DecidableEq, Repr

/-- The timers as set up at the start of `runDailyAggregation`: the ticker of
period 24 hours started now, the timer set to the duration until midnight. -/
def startTimers (now : Int) : AggTimers :=
  { timerAt := now + durationUntilMidnight now, tickerAt := now + 24 * 3600 }

/-- One turn of the `for { select ... }` loop in which a branch other than
`ctx.Done()` runs. The channel that delivers first is served; when both deliver
at the same instant `select` picks either (`preferTimer`). A branch runs at the
instant its channel delivers and takes no time; the timer branch ends with
`timer.Reset(24 * time.Hour)`, the ticker delivers again one period later. -/
def selectTurn (preferTimer : Bool) (st : AggTimers) : AggCall × AggTimers :=
  if st.timerAt < st.tickerAt ∨ (st.timerAt = st.tickerAt ∧ preferTimer = true) then
    ({ instant := st.timerAt, branch := AggBranch.timer, date := yesterdayOf st.timerAt },
     { st with timerAt := st.timerAt + 24 * 3600 })
  else
    ({ instant := st.tickerAt, branch := AggBranch.ticker, date := yesterdayOf st.tickerAt },
     { st with tickerAt := st.tickerAt + 24 * 3600 })

/-- The calls made by `turns` turns of the loop, from turn number `i` on. -/
def aggregationLoop (prefer : Nat → Bool) : Nat → Nat → AggTimers → List AggCall
  | _, 0, _ => []
  | i, turns + 1, st =>
    (selectTurn (prefer i) st).1 :: aggregationLoop prefer (i + 1) turns (selectTurn (prefer i) st).2

/-- Source `Processor.runDailyAggregation` started at `now` and cancelled after
`turns` turns: the calls of `aggregateDailyStats` it made, in order. -/
def runDailyAggregation (prefer : Nat → Bool) (now : Int) (turns : Nat) : List AggCall :=
  aggregationLoop prefer 0 turns (startTimers now)

/-- Incident row of the given type with the given occurrence date and ingestion
timestamp. -/
def incidentRow (point accType accDate : String) (createdAt : Nat) : AccidentRow :=
  { acc_date := accDate
    acc_hour := "0900"
    acc_point_nm := point
    sms_text := "report"
    acc_type := accType
    latitude := 36
    altitude := 127
    road_nm := "Gyeongbu"
    nosun_nm := ""
    created_at := createdAt }

/-- Sample incident table: three incidents of type A and two of type B, all
ingested on 2025-01-10. -/
def tenthOfJanuary : AccidentTable :=
  [ incidentRow "P1" "A" "20250110" 1736503200,
    incidentRow "P2" "B" "20250110" 1736503260,
    incidentRow "P3" "A" "20250110" 1736506800,
    incidentRow "P4" "A" "20250110" 1736510400,
    incidentRow "P5" "B" "20250110" 1736514000 ]

/-- Sample incident table: an incident of type A that occurred on 2025-01-10
and was last refreshed on 2025-01-11, and an incident of type B that occurred
on 2025-01-09 and was last refreshed on 2025-01-10. -/
def refreshedIncidents : AccidentTable :=
  [ incidentRow "P1" "A" "20250110" 1736557200,
    incidentRow "P2" "B" "20250109" 1736503200 ]

/-! ## data-collector: `publishToStream` -/

/-- Decoded reply of the incident feed (`APIResponse`). -/
structure APIResponse where
  RealTimeSMSList : List RealTimeSMS
deriving DecidableEq, Repr

/-- Source `Collector.publishToStream`: the stream `traffic-stream` (its
entries, oldest first) after the call and the returned `error`. `marshal`
stands for `json.Marshal` (`none` when it returns an error), `xaddFault` is the
fault (if any) of the `XAdd` call, `newID` the id the stream gives the entry,
`unixNow` is `time.Now().Unix()`. -/
def publishToStream (marshal : List RealTimeSMS → Option String)
    (xaddFault : Option String) (newID : String) (unixNow : Int) (dataSourceMode : String)
    (stream : List XMessage) (data : APIResponse) : List XMessage × Option String :=
  if data.RealTimeSMSList.length = 0 then (stream, none)
  else
    match marshal data.RealTimeSMSList with
    | none => (stream, some "failed to marshal data")
    | some jsonData =>
      match xaddFault with
      | some err => (stream, some ("failed to add to stream: " ++ err))
      | none =>
        (stream ++ [{ ID := newID
                      Values := [("data", FieldValue.str jsonData),
                                 ("timestamp", FieldValue.int unixNow),
                                 ("source", FieldValue.str dataSourceMode)] }], none)

/-- Modelled from the behaviour of the stream transport: an entry is delivered
to a reader with every field value as a string, an integer in decimal. -/
def deliver (entry : XMessage) : XMessage :=
  { entry with
    Values := entry.Values.map (fun kv =>
      match kv.2 with
      | FieldValue.int n => (kv.1, FieldValue.str (toString n))
      | v => (kv.1, v)) }

/-- Sample marshaller: every batch is rendered as the text `payload`. -/
def sampleMarshal (_ : List RealTimeSMS) : Option String := some "payload"

/-! ## data-processor: `initConsumerGroup` -/

/-- The error text by which the stream transport reports that the group
exists. -/
def busyGroup : String := "BUSYGROUP Consumer Group name already exists"

/-- Modelled from the behaviour of the stream transport: `XGROUP CREATE ...
MKSTREAM` on the set of existing (stream, group) pairs. It fails with the
injected fault, or reports `busyGroup` when the group exists, or creates the
group. -/
def xGroupCreateMkStream (fault : Option String) (groups : List (String × String))
    (stream group : String) : List (String × String) × Option String :=
  match fault with
  | some err => (groups, some err)
  | none =>
    if (stream, group) ∈ groups then (groups, some busyGroup)
    else (groups ++ [(stream, group)], none)

/-- Source `Processor.initConsumerGroup`: the groups after the call and the
returned `error`. -/
def initConsumerGroup (fault : Option String) (groups : List (String × String))
    (streamKey consumerGroup : String) : List (String × String) × Option String :=
  match xGroupCreateMkStream fault groups streamKey consumerGroup with
  | (groups1, some err) =>
    if err ≠ busyGroup then (groups1, some err) else (groups1, none)
  | (groups1, none) => (groups1, none)

/-! ## data-collector: `saveTollgateTraffic` and `saveRoadStatus` -/

/-- Tollgate record of the feed (`TollgateTraffic`). -/
structure TollgateTraffic where
  ExDivCode : String
  ExDivName : String
  UnitCode : String
  UnitName : String
  InoutType : String
  InoutName : String
  TmType : String
  TmName : String
  TcsType : String
  TcsName : String
  CarType : String
  TrafficAmount : String
  SumDate : String
  SumTm : String
deriving DecidableEq, Repr

/-- One row of table `tollgate_traffic_history`, each column holding the value
bound to its placeholder, and `created_at`. -/
structure TollgateRow where
  ex_div_code : String
  ex_div_name : String
  unit_code : String
  unit_name : String
  inout_type : String
  inout_name : String
  tm_type : String
  tm_name : String
  tcs_type : String
  tcs_name : String
  car_type : String
  traffic_amount : String
  sum_date : String
  sum_tm : String
  collected_at : Nat
  created_at : Nat
deriving DecidableEq, Repr

/-- Modelled from the spec: the unique index of `tollgate_traffic_history` (the
table declaration is not part of the sources): (unit identifier, collection
timestamp). -/
def tollgateKey (r : TollgateRow) : String × Nat :=
  (r.unit_code, r.collected_at)

/-- The update list `traffic_amount = VALUES(traffic_amount), created_at =
CURRENT_TIMESTAMP` of `saveTollgateTraffic`. -/
def mergeTollgate (stored new : TollgateRow) : TollgateRow :=
  { stored with traffic_amount := new.traffic_amount, created_at := new.created_at }

/-- Source `Collector.saveTollgateTraffic`: the table after the call and the
returned `error`. `parseInLocation` stands for
`time.ParseInLocation("20060102 1504", ., loc)` (`none` when it returns an
error). -/
def saveTollgateTraffic (parseInLocation : String → Option Nat) (fault : Option String)
    (now : Nat) (db : List TollgateRow) (traffic : TollgateTraffic) :
    List TollgateRow × Option String :=
  match parseInLocation (traffic.SumDate ++ " " ++ traffic.SumTm) with
  | none => (db, some "failed to parse time")
  | some collectedAt =>
    let trafficAmount := if traffic.TrafficAmount = "" then "0" else traffic.TrafficAmount
    match fault with
    | some err => (db, some ("failed to insert traffic data: " ++ err))
    | none =>
      (upsertBy tollgateKey mergeTollgate db
        { ex_div_code := traffic.ExDivCode
          ex_div_name := traffic.ExDivName
          unit_code := traffic.UnitCode
          unit_name := traffic.UnitName
          inout_type := traffic.InoutType
          inout_name := traffic.InoutName
          tm_type := traffic.TmType
          tm_name := traffic.TmName
          tcs_type := traffic.TcsType
          tcs_name := traffic.TcsName
          car_type := traffic.CarType
          traffic_amount := trafficAmount
          sum_date := traffic.SumDate
          sum_tm := traffic.SumTm
          collected_at := collectedAt
          created_at := now }, none)

/-- Road status record of the feed (`RoadTrafficStatus`). -/
structure RoadTrafficStatus where
  RouteNo : String
  RouteName : String
  ConzoneID : String
  ConzoneName : String
  VdsID : String
  UpdownTypeCode : String
  TrafficAmount : String
  Speed : String
  ShareRatio : String
  TimeAvg : String
  Grade : String
  StdDate : String
  StdHour : String
deriving DecidableEq, Repr

/-- The values that `saveRoadStatus` binds to the five measurement
placeholders, after its handling of empty strings. -/
structure RoadStatusParams where
  trafficAmount : String
  speed : String
  shareRatio : String
  timeAvg : String
  grade : String
deriving DecidableEq, Repr

/-- The block `// Handle empty values` of `saveRoadStatus`. -/
def roadStatusParams (status : RoadTrafficStatus) : RoadStatusParams :=
  { trafficAmount := if status.TrafficAmount = "" then "0" else status.TrafficAmount
    speed := if status.Speed = "" then "0" else status.Speed
    shareRatio := if status.ShareRatio = "" then "0" else status.ShareRatio
    timeAvg := if status.TimeAvg = "" then "0" else status.TimeAvg
    grade := if status.Grade = "" then "0" else status.Grade }

/-- Modelled from the spec: the unique index of `road_traffic_status` (the
table declaration is not part of the sources): (route, sub-zone, direction,
collection timestamp). -/
def roadStatusKey (r : RoadStatusRow) : String × String × String × Nat :=
  (r.route_no, r.conzone_id, r.updown_type_code, r.collected_at)

/-- The update list of `saveRoadStatus`: the five measurement columns take the
new values. -/
def mergeRoadStatus (stored new : RoadStatusRow) : RoadStatusRow :=
  { stored with
    traffic_amount := new.traffic_amount
    speed := new.speed
    share_ratio := new.share_ratio
    time_avg := new.time_avg
    grade := new.grade }

/-- Source `Collector.saveRoadStatus`: the table after the call and the
returned `error`. `toNumber` and `toInteger` stand for the store's conversion
of a bound string to the type of a numeric column. -/
def saveRoadStatus (parseInLocation : String → Option Nat) (toNumber : String → ℚ)
    (toInteger : String → Int) (fault : Option String) (db : List RoadStatusRow)
    (status : RoadTrafficStatus) : List RoadStatusRow × Option String :=
  match parseInLocation (status.StdDate ++ " " ++ status.StdHour) with
  | none => (db, some "failed to parse time")
  | some collectedAt =>
    let params := roadStatusParams status
    match fault with
    | some err => (db, some ("failed to save road status: " ++ err))
    | none =>
      (upsertBy roadStatusKey mergeRoadStatus db
        { route_no := status.RouteNo
          route_name := status.RouteName
          conzone_id := status.ConzoneID
          conzone_name := status.ConzoneName
          vds_id := status.VdsID
          updown_type_code := status.UpdownTypeCode
          traffic_amount := toNumber params.trafficAmount
          speed := toNumber params.speed
          share_ratio := toNumber params.shareRatio
          time_avg := toNumber params.timeAvg
          grade := toInteger params.grade
          collected_at := collectedAt }, none)

/-- Sample tollgate record with an empty traffic amount. -/
def sampleTollgate : TollgateTraffic :=
  { ExDivCode := "00"
    ExDivName := "highway"
    UnitCode := "101"
    UnitName := "Seoul"
    InoutType := "0"
    InoutName := "in"
    TmType := "2"
    TmName := "15min"
    TcsType := "2"
    TcsName := "hipass"
    CarType := "1"
    TrafficAmount := ""
    SumDate := "20250110"
    SumTm := "1000" }

/-- Sample road status record with an empty speed and an empty grade. -/
def sampleRoadStatus : RoadTrafficStatus :=
  { RouteNo := "0010"
    RouteName := "R1"
    ConzoneID := "C1"
    ConzoneName := "zone"
    VdsID := "V1"
    UpdownTypeCode := "S"
    TrafficAmount := "120"
    Speed := ""
    ShareRatio := "3"
    TimeAvg := "40"
    Grade := ""
    StdDate := "20250110"
    StdHour := "1000" }

/-- Sample time parser: every text is read as 2025-01-10 10:00. -/
def sampleParse (_ : String) : Option Nat := some 1736503200

/-- Sample record: `sampleAccident` sighted again 36 seconds later, its date
in compact form, with another type and other coordinates. -/
def resightedAccident : RealTimeSMS :=
  { AccDate := "20251028"
    AccHour := "16:10:59"
    AccPointNM := "Seoul TG"
    LinkID := "L9"
    AccInfo := "stopped vehicle"
    AccType := "accident"
    Latitude := 38
    Longitude := 126
    RoadNM := "Gyeongbu" }

/-- Sample tollgate record: `sampleTollgate` delivered again with a measured
volume. -/
def secondTollgate : TollgateTraffic :=
  { sampleTollgate with TrafficAmount := "37", UnitName := "Seoul TG" }

/-- Sample stream entry without a `data` field. -/
def brokenMessage : XMessage :=
  { ID := "3-0", Values := [("payload", FieldValue.str "payload")] }

/-- Sample environment of the reader in which the store rejects the write of
the record at position 1 of every entry. -/
def readerEnv (_ : Nat) : Nat → Option String × Nat := faultAtOne

/-! ## traffic-simulator: the five-minute window -/

/-- Go's 64-bit `int`: the value in `[-2^63, 2^63)` congruent to `x` modulo
`2^64`, which is what an addition, subtraction or multiplication leaves. -/
def wrapInt (x : Int) : Int :=
  (x + 9223372036854775808) % 18446744073709551616 - 9223372036854775808

/-- The fields of `Simulator` that `getRemainingCount` and `trafficHandler`
read and write; `windowStartTime` is an instant in nanoseconds. -/
structure Simulator where
  currentTarget : Int
  currentCount : Int
  windowStartTime : Nat
deriving DecidableEq, Repr

/-- The table `weights` of `setNewTarget`. -/
def weights : List Int := [2, 2, 2, 3, 3, 3, 3, 4, 4, 4, 5, 5, 6, 7]

/-- `setNewTarget`; `draw` is the value of `s.rand.Intn(len(weights))`, `now`
that of `time.Now()`. -/
def setNewTarget (s : Simulator) (draw : Fin weights.length) (now : Nat) : Simulator :=
  { s with
    currentTarget := weights.get draw
    currentCount := 0
    windowStartTime := now }

/-- The part of `NewSimulator` after the connection is open: the window starts
at `time.Now()` and `setNewTarget` chooses the first target. -/
def NewSimulator (draw : Fin weights.length) (now : Nat) : Simulator :=
  setNewTarget { currentTarget := 0, currentCount := 0, windowStartTime := now } draw now

/-- `5 * time.Minute`, in nanoseconds. -/
def fiveMinutes : Int := 300000000000

/-- `int(elapsed.Seconds())`: the whole seconds of a duration in nanoseconds,
rounded toward zero. (`Seconds` goes through `float64`, which is exact for the
durations below five minutes that reach the division.) -/
def secondsElapsed (elapsed : Int) : Int :=
  elapsed.tdiv 1000000000

/-- `callsRemaining := totalCalls - callsElapsed` with `totalCalls = 10` and
`callsElapsed := secondsElapsed / 30`. -/
def callsRemaining (elapsed : Int) : Int :=
  wrapInt (10 - (secondsElapsed elapsed).tdiv 30)

/-- `avgPerCall := (remaining + callsRemaining - 1) / callsRemaining`. -/
def avgPerCall (remaining calls : Int) : Int :=
  (wrapInt (remaining + calls - 1)).tdiv calls

/-- `count := avgPerCall + variance` with `variance := s.rand.Intn(3) - 1`; the
argument `variance` is the value of `s.rand.Intn(3)`. -/
def unclippedCount (remaining calls : Int) (variance : Fin 3) : Int :=
  wrapInt (avgPerCall remaining calls + wrapInt ((variance.val : Int) - 1))

/-- The two clipping statements at the end of `getRemainingCount`. -/
def clipCount (count remaining : Int) : Int :=
  let count := if count < 0 then 0 else count
  if count > remaining then remaining else count

/-- `getRemainingCount`: `elapsed` is the value of
`time.Since(s.windowStartTime)` in nanoseconds, `draw` and `now` are used by
`setNewTarget` when the window is over, `variance` is the value of
`s.rand.Intn(3)`. Returns the simulator after the call and the count. -/
def getRemainingCount (s : Simulator) (elapsed : Int) (now : Nat)
    (draw : Fin weights.length) (variance : Fin 3) : Simulator × Int :=
  let s := if elapsed ≥ fiveMinutes then setNewTarget s draw now else s
  let remaining := wrapInt (s.currentTarget - s.currentCount)
  if remaining ≤ 0 then (s, 0)
  else
    let calls := callsRemaining elapsed
    if calls ≤ 0 then (s, remaining)
    else
      let avg := avgPerCall remaining calls
      if avg = 0 then (s, 0)
      else (s, clipCount (unclippedCount remaining calls variance) remaining)

/-- A row of `simulator_seed_data` as `rows.Scan` reads it. -/
structure SeedRow where
  acc_point_nm : String
  sms_text : String
  acc_type : String
  latitude : Option ℚ
  altitude : Option ℚ
  road_nm : String
  nosun_nm : Option String
deriving DecidableEq, Repr

/-- The query of `getRandomAccidents`, `ORDER BY RAND() LIMIT ?`: `shuffled` is
the seed table in the order the store drew, of which the first `count` rows are
returned. A row that `rows.Scan` cannot read is `none`. -/
def seedQuery (shuffled : List (Option SeedRow)) (count : Int) : List (Option SeedRow) :=
  shuffled.take count.toNat

/-- `getRandomAccidents`: `store` is `none` when the query fails; rows whose
scan fails are skipped. The date, hour and link id written into each accident
do not change how many there are and are left out. -/
def getRandomAccidents (store : Option (List (Option SeedRow))) (count : Int) :
    Option (List SeedRow) :=
  match store with
  | none => none
  | some shuffled => some ((seedQuery shuffled count).filterMap id)

/-- What one request brings to `trafficHandler`. -/
structure HandlerInput where
  isOptions : Bool
  elapsed : Int
  now : Nat
  draw : Fin weights.length
  variance : Fin 3
  store : Option (List (Option SeedRow))

/-- `trafficHandler` on the simulator state: an `OPTIONS` request returns at
once; a failed query returns after `getRemainingCount` has run; otherwise
`currentCount += len(accidents)`. -/
def trafficHandler (s : Simulator) (req : HandlerInput) : Simulator :=
  if req.isOptions then s
  else
    let r := getRemainingCount s req.elapsed req.now req.draw req.variance
    match getRandomAccidents req.store r.2 with
    | none => r.1
    | some accidents =>
      { r.1 with currentCount := wrapInt (r.1.currentCount + (accidents.length : Int)) }

/-- The simulator after serving `reqs` one after the other. -/
def serve (s : Simulator) (reqs : List HandlerInput) : Simulator :=
  reqs.foldl trafficHandler s

/-- Both counters are of magnitude at most `2^61`, so that no operation of
`getRemainingCount` on them leaves the 64-bit range. -/
def Simulator.inRange (s : Simulator) : Prop :=
  -2305843009213693952 ≤ s.currentTarget ∧ s.currentTarget ≤ 2305843009213693952 ∧
  -2305843009213693952 ≤ s.currentCount ∧ s.currentCount ≤ 2305843009213693952

instance (s : Simulator) : Decidable s.inRange := by
  unfold Simulator.inRange; infer_instance

/-- The invariant of the window of the simulator: the target is one of the weights and the count
has not passed it. -/
def windowInvariant (s : Simulator) : Prop :=
  2 ≤ s.currentTarget ∧ s.currentTarget ≤ 7 ∧
  0 ≤ s.currentCount ∧ s.currentCount ≤ s.currentTarget

/-- Sample seed row. -/
def sampleSeed : SeedRow :=
  { acc_point_nm := "Seoul TG", sms_text := "collision", acc_type := "1",
    latitude := some 37, altitude := none, road_nm := "Gyeongbu", nosun_nm := none }

/-- Sample request: 95 seconds into the window, variance draw 2, a seed table
of four rows one of which does not scan. -/
def sampleRequest : HandlerInput :=
  { isOptions := false, elapsed := 95000000000, now := 95000000000,
    draw := ⟨12, by decide⟩, variance := ⟨2, by decide⟩,
    store := some [some sampleSeed, none, some sampleSeed, some sampleSeed] }

/-! ## openapi-proxy-api: pagination -/

/-- The value of a string of decimal digits, `none` when a character is not a
digit. -/
def digitsValue (cs : List Char) : Option Nat :=
  cs.foldl
    (fun acc c =>
      match acc with
      | none => none
      | some n =>
        if decide ('0' ≤ c) && decide (c ≤ '9') then some (10 * n + (c.toNat - 48)) else none)
    (some 0)

/-- `strconv.Atoi`: an optional sign followed by at least one decimal digit; an
error (`none`) on anything else and on a value outside the 64-bit range. -/
def Atoi (s : String) : Option Int :=
  match s.toList with
  | [] => none
  | c :: cs =>
    if c = '-' then
      if cs = [] then none
      else
        match digitsValue cs with
        | none => none
        | some n => if n ≤ 9223372036854775808 then some (-(n : Int)) else none
    else
      let ds := if c = '+' then cs else c :: cs
      if ds = [] then none
      else
        match digitsValue ds with
        | none => none
        | some n => if n ≤ 9223372036854775807 then some (n : Int) else none

/-- The parsing of `numOfRows` and of `pageNo` in both handlers: `raw` is the
value of `query.Get`, empty when the parameter is absent; the default stays
unless `raw` parses to a positive number. -/
def pageParam (raw : String) (fallback : Int) : Int :=
  if raw ≠ "" then
    match Atoi raw with
    | some num => if num > 0 then num else fallback
    | none => fallback
  else fallback

/-- `offset := (pageNo - 1) * numOfRows` of `getAccidents` and `getTollgate`. -/
def pageOffset (pageNo numOfRows : Int) : Int :=
  wrapInt (wrapInt (pageNo - 1) * numOfRows)

/-- Go's integer division: a run-time panic (`none`) on a zero divisor,
otherwise the quotient rounded toward zero. -/
def goDiv (a b : Int) : Option Int :=
  if b = 0 then none else some (wrapInt (a.tdiv b))

/-- `pageSize := (totalCount + numOfRows - 1) / numOfRows; if pageSize == 0
{ pageSize = 1 }`. -/
def pageSize (totalCount numOfRows : Int) : Option Int :=
  match goDiv (wrapInt (totalCount + numOfRows - 1)) numOfRows with
  | none => none
  | some p => some (if p = 0 then 1 else p)

/-- The cache table as the two queries of a handler see it: `count` is the
result of `SELECT COUNT(*)` and `select limit offset` the scanned rows of the
paginated query (its sorting or filters included), `none` when the store
reports an error. -/
structure CacheStore (ρ : Type) where
  count : Option Int
  select : Int → Int → Option (List ρ)

/-- `getAccidents` and `getTollgate`: the total count, then the page at
`LIMIT numOfRows OFFSET offset`. -/
def getPage {ρ : Type} (store : CacheStore ρ) (numOfRows pageNo : Int) :
    Option (List ρ × Int) :=
  match store.count with
  | none => none
  | some totalCount =>
    match store.select numOfRows (pageOffset pageNo numOfRows) with
    | none => none
    | some rows => some (rows, totalCount)

/-- The query parameters of a request that pagination reads, as `query.Get`
returns them. -/
structure PageQuery where
  numOfRows : String
  pageNo : String
deriving DecidableEq, Repr

/-- The pagination fields of `AccidentAPIResponse` and `TollgateAPIResponse`
and the rows served. -/
structure PageResponse (ρ : Type) where
  Count : Int
  PageNo : Int
  NumOfRows : Int
  PageSize : Int
  list : List ρ
deriving DecidableEq, Repr

/-- How a handler ends: a run-time panic, the status 500, or a response. -/
inductive Served (ρ : Type) where
  | panicked
  | internalError
  | ok (response : PageResponse ρ)
deriving DecidableEq, Repr

/-- The pagination of `handleRealTimeSMS`. -/
def handleRealTimeSMS {ρ : Type} (store : CacheStore ρ) (query : PageQuery) : Served ρ :=
  let numOfRows := pageParam query.numOfRows 100
  let pageNo := pageParam query.pageNo 1
  match getPage store numOfRows pageNo with
  | none => Served.internalError
  | some (accidents, totalCount) =>
    match pageSize totalCount numOfRows with
    | none => Served.panicked
    | some pageSize =>
      Served.ok { Count := totalCount, PageNo := pageNo, NumOfRows := numOfRows,
                  PageSize := pageSize, list := accidents }

/-- The pagination of `handleTollgateTraffic`, the same statements over the
tollgate cache. -/
def handleTollgateTraffic {ρ : Type} (store : CacheStore ρ) (query : PageQuery) : Served ρ :=
  let numOfRows := pageParam query.numOfRows 100
  let pageNo := pageParam query.pageNo 1
  match getPage store numOfRows pageNo with
  | none => Served.internalError
  | some (traffic, totalCount) =>
    match pageSize totalCount numOfRows with
    | none => Served.panicked
    | some pageSize =>
      Served.ok { Count := totalCount, PageNo := pageNo, NumOfRows := numOfRows,
                  PageSize := pageSize, list := traffic }

/-- Sample cache of two rows whose store rejects a negative limit or offset. -/
def sampleCache : CacheStore String :=
  { count := some 2
    select := fun limit offset =>
      if limit < 0 ∨ offset < 0 then none
      else some ((["first", "second"].drop offset.toNat).take limit.toNat) }

/-! ## Properties: time-string normalisation -/

theorem foldl_cleaned (l : List Char) (acc : List Char) :
    l.foldl (fun cleaned ch => if isDigitRune ch then cleaned ++ [ch] else cleaned) acc
      = acc ++ l.filter isDigitRune := by
  induction l generalizing acc with
  | nil => simp
  | cons c cs ih =>
    by_cases hc : isDigitRune c = true
    · simp [List.foldl_cons, hc, ih, List.filter_cons]
    · simp [List.foldl_cons, hc, ih, List.filter_cons]

theorem cleanedDigits_eq_filter (s : String) :
    cleanedDigits s = s.toList.filter isDigitRune := by
  simp [cleanedDigits, foldl_cleaned]

theorem formatDate_toList (s : String) :
    (formatDate s).toList = (s.toList.filter isDigitRune).take 8 := by
  unfold formatDate
  simp only [cleanedDigits_eq_filter]
  split
  · rfl
  · rename_i h
    rw [List.take_of_length_le (by omega)]
    rfl

theorem formatHour_toList (s : String) :
    (formatHour s).toList = (s.toList.filter isDigitRune).take 4 := by
  unfold formatHour
  simp only [cleanedDigits_eq_filter]
  split
  · rfl
  · rename_i h
    rw [List.take_of_length_le (by omega)]
    rfl

theorem string_eq_of_toList (a b : String) (h : a.toList = b.toList) : a = b := by
  cases a; cases b; simp_all [String.toList]

theorem filter_eq_self_of_digits (l : List Char) (h : ∀ c ∈ l, isDigitRune c = true) :
    l.filter isDigitRune = l :=
  List.filter_eq_self.mpr h

/-- C7: an already-compact input is unchanged: a string of exactly eight ASCII
digits is a fixed point of `formatDate`, a string of exactly four ASCII digits
is a fixed point of `formatHour`. -/
theorem format_compact_unchanged (s : String) :
    (s.length = 8 → (∀ c ∈ s.toList, isDigitRune c = true) → formatDate s = s) ∧
    (s.length = 4 → (∀ c ∈ s.toList, isDigitRune c = true) → formatHour s = s) := by
  constructor
  · intro hlen hdig
    apply string_eq_of_toList
    rw [formatDate_toList, filter_eq_self_of_digits _ hdig]
    have hl : s.toList.length = 8 := hlen
    exact List.take_of_length_le (by omega)
  · intro hlen hdig
    apply string_eq_of_toList
    rw [formatHour_toList, filter_eq_self_of_digits _ hdig]
    have hl : s.toList.length = 4 := hlen
    exact List.take_of_length_le (by omega)

theorem format_compact_unchanged_witness :
    formatDate "20250110" = "20250110" ∧ formatHour "0705" = "0705" :=
  ⟨(format_compact_unchanged "20250110").1 (by decide) (by decide),
   (format_compact_unchanged "0705").2 (by decide) (by decide)⟩

/-- C6: a date of the dot-separated form `YYYY.MM.DD` is compressed by
`formatDate` to its eight digits `YYYYMMDD`, a time of the colon-separated form
`HH:MM:SS` is compressed by `formatHour` to the four digits `HHMM`; in
particular `"2025.01.10"` gives `"20250110"` and `"07:05:09"` gives `"0705"`. -/
theorem format_human_forms (y1 y2 y3 y4 m1 m2 d1 d2 h1 h2 n1 n2 s1 s2 : Char)
    (hdate : ∀ c ∈ [y1, y2, y3, y4, m1, m2, d1, d2], isDigitRune c = true)
    (htime : ∀ c ∈ [h1, h2, n1, n2, s1, s2], isDigitRune c = true) :
    formatDate (String.mk [y1, y2, y3, y4, '.', m1, m2, '.', d1, d2])
        = String.mk [y1, y2, y3, y4, m1, m2, d1, d2] ∧
    formatHour (String.mk [h1, h2, ':', n1, n2, ':', s1, s2])
        = String.mk [h1, h2, n1, n2] ∧
    formatDate "2025.01.10" = "20250110" ∧ formatHour "07:05:09" = "0705" := by
  have hdot : isDigitRune '.' = false := by decide
  have hcolon : isDigitRune ':' = false := by decide
  simp only [List.mem_cons, List.mem_singleton, List.not_mem_nil, or_false,
    forall_eq_or_imp, forall_eq] at hdate htime
  obtain ⟨a1, a2, a3, a4, a5, a6, a7, a8⟩ := hdate
  obtain ⟨b1, b2, b3, b4, b5, b6⟩ := htime
  refine ⟨?_, ?_, by decide, by decide⟩
  · apply string_eq_of_toList
    rw [formatDate_toList]
    simp [String.toList, List.filter_cons, a1, a2, a3, a4, a5, a6, a7, a8, hdot]
  · apply string_eq_of_toList
    rw [formatHour_toList]
    simp [String.toList, List.filter_cons, b1, b2, b3, b4, b5, b6, hcolon]

theorem format_human_forms_witness :
    formatDate (String.mk ['1', '9', '9', '9', '.', '1', '2', '.', '3', '1'])
        = String.mk ['1', '9', '9', '9', '1', '2', '3', '1'] ∧
    formatHour (String.mk ['2', '3', ':', '5', '9', ':', '0', '0'])
        = String.mk ['2', '3', '5', '9'] ∧
    formatDate "2025.01.10" = "20250110" ∧ formatHour "07:05:09" = "0705" :=
  format_human_forms '1' '9' '9' '9' '1' '2' '3' '1' '2' '3' '5' '9' '0' '0'
    (by decide) (by decide)

/-- C8, as stated, fails: with fewer digits than the width nothing is padded.
`formatDate "2025.1.1"` is the six digits `"202511"` and `formatHour "7:5"` is
the two digits `"75"`. -/
theorem format_not_fixed_width :
    formatDate "2025.1.1" = "202511" ∧ (formatDate "2025.1.1").length ≠ 8 ∧
    formatHour "7:5" = "75" ∧ (formatHour "7:5").length ≠ 4 := by
  decide

/-- C8, amended: both functions return ASCII digits only, never more than the
width (8 for `formatDate`, 4 for `formatHour`); when the input holds at least
as many digits as the width the result is exactly the first 8 (resp. 4) digits
of the input, i.e. non-digits are stripped and the rest is truncated;
`formatHour` returns the first 4 digits or all of them when there are fewer. -/
theorem format_width (s : String) :
    (∀ c ∈ (formatDate s).toList, isDigitRune c = true) ∧
    (formatDate s).length ≤ 8 ∧
    (8 ≤ (s.toList.filter isDigitRune).length →
      (formatDate s).length = 8 ∧
      (formatDate s).toList = (s.toList.filter isDigitRune).take 8) ∧
    (∀ c ∈ (formatHour s).toList, isDigitRune c = true) ∧
    (formatHour s).length ≤ 4 ∧
    (4 ≤ (s.toList.filter isDigitRune).length → (formatHour s).length = 4) ∧
    (formatHour s).toList = (s.toList.filter isDigitRune).take 4 := by
  have hd : (formatDate s).length = ((s.toList.filter isDigitRune).take 8).length :=
    congrArg List.length (formatDate_toList s)
  have hh : (formatHour s).length = ((s.toList.filter isDigitRune).take 4).length :=
    congrArg List.length (formatHour_toList s)
  rw [List.length_take] at hd hh
  refine ⟨?_, by omega, fun h => ⟨by omega, formatDate_toList s⟩, ?_, by omega,
    fun h => by omega, formatHour_toList s⟩
  · intro c hc
    rw [formatDate_toList] at hc
    exact (List.mem_filter.mp (List.mem_of_mem_take hc)).2
  · intro c hc
    rw [formatHour_toList] at hc
    exact (List.mem_filter.mp (List.mem_of_mem_take hc)).2

theorem format_width_witness :
    (formatDate "2025.10.28 16:10").length = 8 ∧
    (formatDate "2025.10.28 16:10").toList
      = ("2025.10.28 16:10".toList.filter isDigitRune).take 8 ∧
    (formatHour "16:10:23").length = 4 :=
  ⟨((format_width "2025.10.28 16:10").2.2.1 (by decide)).1,
   ((format_width "2025.10.28 16:10").2.2.1 (by decide)).2,
   (format_width "16:10:23").2.2.2.2.2.1 (by decide)⟩

/-! ## Properties: the incident table -/

theorem naturalKey_accidentRowOf (now : Nat) (accident : RealTimeSMS) :
    naturalKey (accidentRowOf now accident) = recordKey accident := rfl

theorem execUpsert_of_mem (db : AccidentTable) (new : AccidentRow)
    (h : naturalKey new ∈ db.map naturalKey) :
    (execUpsertAccident db new).map naturalKey = db.map naturalKey ∧
    (execUpsertAccident db new).map withoutCreatedAt = db.map withoutCreatedAt := by
  induction db with
  | nil => simp at h
  | cons r rest ih =>
    unfold execUpsertAccident
    by_cases hk : naturalKey r = naturalKey new
    · rw [if_pos hk]
      exact ⟨rfl, rfl⟩
    · have hrest : naturalKey new ∈ rest.map naturalKey := by
        simp only [List.map_cons, List.mem_cons] at h
        rcases h with h | h
        · exact absurd h.symm hk
        · exact h
      simp [hk, ih hrest]

theorem execUpsert_of_not_mem (db : AccidentTable) (new : AccidentRow)
    (h : naturalKey new ∉ db.map naturalKey) :
    execUpsertAccident db new = db ++ [new] := by
  induction db with
  | nil => rfl
  | cons r rest ih =>
    unfold execUpsertAccident
    simp only [List.map_cons, List.mem_cons, not_or] at h
    have hk : ¬ naturalKey r = naturalKey new := fun e => h.1 e.symm
    simp [hk, ih h.2]

theorem execUpsert_uniqueKeys (db : AccidentTable) (new : AccidentRow)
    (h : UniqueKeys db) : UniqueKeys (execUpsertAccident db new) := by
  unfold UniqueKeys at *
  by_cases hm : naturalKey new ∈ db.map naturalKey
  · rw [(execUpsert_of_mem db new hm).1]; exact h
  · rw [execUpsert_of_not_mem db new hm, List.map_append]
    refine List.Nodup.append h (by simp) ?_
    intro k hk1 hk2
    simp only [List.map_cons, List.map_nil, List.mem_singleton] at hk2
    exact hm (hk2 ▸ hk1)

theorem execUpsert_key_mem (db : AccidentTable) (new : AccidentRow) :
    naturalKey new ∈ (execUpsertAccident db new).map naturalKey := by
  by_cases hm : naturalKey new ∈ db.map naturalKey
  · rw [(execUpsert_of_mem db new hm).1]; exact hm
  · rw [execUpsert_of_not_mem db new hm]; simp

theorem execUpsert_created_at (db : AccidentTable) (new : AccidentRow)
    (h : UniqueKeys db) :
    ∀ r ∈ execUpsertAccident db new, naturalKey r = naturalKey new →
      r.created_at = new.created_at := by
  induction db with
  | nil =>
    intro r hr _
    simp [execUpsertAccident] at hr
    rw [hr]
  | cons a rest ih =>
    unfold UniqueKeys at h
    simp only [List.map_cons, List.nodup_cons] at h
    intro r hr hkey
    unfold execUpsertAccident at hr
    by_cases hk : naturalKey a = naturalKey new
    · simp only [hk, if_true, List.mem_cons] at hr
      rcases hr with hr | hr
      · rw [hr]
      · exact absurd (List.mem_map_of_mem naturalKey hr) (by rw [hkey, ← hk]; exact h.1)
    · simp only [hk, if_false, List.mem_cons] at hr
      rcases hr with hr | hr
      · exact absurd (hr ▸ hkey) hk
      · exact ih h.2 r hr hkey

theorem rowsWithKey_eq_count (db : AccidentTable) (k : String × String × String × String) :
    rowsWithKey db k = (db.map naturalKey).count k := by
  unfold rowsWithKey
  induction db with
  | nil => rfl
  | cons r rest ih =>
    by_cases hk : naturalKey r = k
    · simp [List.filter_cons, hk, ih]
    · simp [List.filter_cons, hk, ih, List.count_cons]

theorem rowsWithKey_eq_zero (db : AccidentTable) (k : String × String × String × String)
    (h : k ∉ db.map naturalKey) : rowsWithKey db k = 0 := by
  unfold rowsWithKey
  rw [List.length_eq_zero, List.filter_eq_nil_iff]
  intro r hr hk
  exact h (List.mem_map.mpr ⟨r, hr, of_decide_eq_true hk⟩)

theorem rowsWithKey_cons (r : AccidentRow) (db : AccidentTable)
    (k : String × String × String × String) :
    rowsWithKey (r :: db) k = (if naturalKey r = k then 1 else 0) + rowsWithKey db k := by
  unfold rowsWithKey
  by_cases hk : naturalKey r = k
  · simp [List.filter_cons, hk]; omega
  · simp [List.filter_cons, hk]

theorem rowsWithKey_eq_one (db : AccidentTable) (k : String × String × String × String)
    (hu : UniqueKeys db) (hm : k ∈ db.map naturalKey) : rowsWithKey db k = 1 := by
  induction db with
  | nil => simp at hm
  | cons r rest ih =>
    unfold UniqueKeys at hu
    simp only [List.map_cons, List.nodup_cons] at hu
    rw [rowsWithKey_cons]
    by_cases hk : naturalKey r = k
    · rw [if_pos hk, rowsWithKey_eq_zero rest k (hk ▸ hu.1)]
    · simp only [List.map_cons, List.mem_cons] at hm
      rcases hm with hm | hm
      · exact absurd hm.symm hk
      · rw [if_neg hk, ih hu.2 hm]

theorem insertAccident_uniqueKeys (fault : Option String) (now : Nat) (db : AccidentTable)
    (accident : RealTimeSMS) (h : UniqueKeys db) :
    UniqueKeys (insertAccident fault now db accident).1 := by
  cases fault with
  | some e => exact h
  | none => exact execUpsert_uniqueKeys db _ h

theorem isDuplicate_iff (db : AccidentTable) (accident : RealTimeSMS) :
    isDuplicate db accident = true ↔ recordKey accident ∈ db.map naturalKey := by
  have h := rowsWithKey_eq_count db (recordKey accident)
  unfold rowsWithKey recordKey at h
  unfold isDuplicate
  rw [decide_eq_true_iff, h, gt_iff_lt, List.count_pos_iff]
  rfl

/-- C1: on a table that satisfies its unique index, when a row with the
record's natural key is already stored, `insertAccident` adds no row and leaves every column of every row but
`created_at` as it was (a successful call sets `created_at` of that row to the
time of the call); so after two calls for the same record, the first of which
the store executed, exactly one row holds the key and the table differs from
the table after the first call in `created_at` only. -/
theorem insertAccident_resight (db : AccidentTable) (accident : RealTimeSMS)
    (fault fault2 : Option String) (now now2 : Nat) (hdb : UniqueKeys db) :
    (recordKey accident ∈ db.map naturalKey →
      (insertAccident fault now db accident).1.length = db.length ∧
      (insertAccident fault now db accident).1.map withoutCreatedAt
        = db.map withoutCreatedAt ∧
      (fault = none → ∀ r ∈ (insertAccident fault now db accident).1,
        naturalKey r = recordKey accident → r.created_at = now)) ∧
    rowsWithKey
      (insertAccident fault2 now2 (insertAccident none now db accident).1 accident).1
      (recordKey accident) = 1 ∧
    (insertAccident fault2 now2 (insertAccident none now db accident).1 accident).1.map
        withoutCreatedAt
      = (insertAccident none now db accident).1.map withoutCreatedAt := by
  refine ⟨?_, ?_, ?_⟩
  · intro hmem
    cases fault with
    | some e => exact ⟨rfl, rfl, fun h => by cases h⟩
    | none =>
      have h := execUpsert_of_mem db (accidentRowOf now accident) hmem
      refine ⟨?_, h.2, fun _ r hr hk => ?_⟩
      · have := congrArg List.length h.1
        simpa [insertAccident] using this
      · exact execUpsert_created_at db (accidentRowOf now accident) hdb r hr hk
  · have hu := insertAccident_uniqueKeys fault2 now2 _ accident
      (insertAccident_uniqueKeys none now db accident hdb)
    have hm : recordKey accident ∈
        (insertAccident fault2 now2 (insertAccident none now db accident).1 accident).1.map
          naturalKey := by
      have h1 := execUpsert_key_mem db (accidentRowOf now accident)
      cases fault2 with
      | some e => exact h1
      | none => exact execUpsert_key_mem _ (accidentRowOf now2 accident)
    exact rowsWithKey_eq_one _ _ hu hm
  · cases fault2 with
    | some e => rfl
    | none =>
      exact (execUpsert_of_mem _ (accidentRowOf now2 accident)
        (execUpsert_key_mem db (accidentRowOf now accident))).2

theorem insertAccident_resight_witness :
    UniqueKeys sampleTable ∧ recordKey sampleAccident ∈ sampleTable.map naturalKey ∧
    (insertAccident none 200 sampleTable sampleAccident).1.length = 1 ∧
    (insertAccident none 200 sampleTable sampleAccident).1.map withoutCreatedAt
      = sampleTable.map withoutCreatedAt ∧
    rowsWithKey
      (insertAccident none 300 (insertAccident none 200 sampleTable sampleAccident).1
        sampleAccident).1 (recordKey sampleAccident) = 1 :=
  ⟨by decide, by decide,
   ((insertAccident_resight sampleTable sampleAccident none none 200 300
      (by decide)).1 (by decide)).1,
   ((insertAccident_resight sampleTable sampleAccident none none 200 300
      (by decide)).1 (by decide)).2.1,
   (insertAccident_resight sampleTable sampleAccident none none 200 300
      (by decide)).2.1⟩

theorem upsertLoop_uniqueKeys (env : Nat → Option String × Nat) (msgID : String)
    (accidents : List RealTimeSMS) (i : Nat) (st : LoopState) (h : UniqueKeys st.db) :
    UniqueKeys (upsertLoop env msgID i accidents st).db := by
  induction accidents generalizing i st with
  | nil => exact h
  | cons a rest ih =>
    unfold upsertLoop
    have hu := insertAccident_uniqueKeys (env i).1 (env i).2 st.db a h
    split
    · rename_i db1 e heq
      rw [heq] at hu
      exact ih _ _ hu
    · rename_i db1 heq
      rw [heq] at hu
      exact ih _ _ hu

theorem processMessage_uniqueKeys (unmarshal : String → Option (List RealTimeSMS))
    (env : Nat → Option String × Nat) (db : AccidentTable) (msg : XMessage)
    (h : UniqueKeys db) : UniqueKeys (processMessage unmarshal env db msg).db := by
  unfold processMessage
  split
  · split
    · exact h
    · exact upsertLoop_uniqueKeys env msg.ID _ 0 _ h
  · exact h

theorem foldl_applyOp_uniqueKeys (unmarshal : String → Option (List RealTimeSMS))
    (ops : List WriterOp) (db : AccidentTable) (h : UniqueKeys db) :
    UniqueKeys (ops.foldl (applyOp unmarshal) db) := by
  induction ops generalizing db with
  | nil => exact h
  | cons op rest ih =>
    rw [List.foldl_cons]
    apply ih
    cases op with
    | insert fault now accident => exact insertAccident_uniqueKeys fault now db accident h
    | process env msg => exact processMessage_uniqueKeys unmarshal env db msg h

/-- C2: from the empty incident table, after any finite sequence of
`insertAccident` and `processMessage` operations no two rows hold the same
natural key; and a call of `insertAccident` is an insert-or-update on that key:
it adds one row exactly when the store executes it and `isDuplicate` is false,
and otherwise adds none. -/
theorem runOps_uniqueKeys (unmarshal : String → Option (List RealTimeSMS))
    (ops : List WriterOp) :
    UniqueKeys (runOps unmarshal ops) ∧
    ∀ (fault : Option String) (now : Nat) (db : AccidentTable) (accident : RealTimeSMS),
      (insertAccident fault now db accident).1.length
        = if fault.isSome || isDuplicate db accident then db.length else db.length + 1 := by
  refine ⟨foldl_applyOp_uniqueKeys unmarshal ops [] (by simp [UniqueKeys]), ?_⟩
  intro fault now db accident
  cases fault with
  | some e => simp [insertAccident]
  | none =>
    by_cases hd : isDuplicate db accident = true
    · have h := execUpsert_of_mem db (accidentRowOf now accident) ((isDuplicate_iff db accident).mp hd)
      have := congrArg List.length h.1
      simpa [insertAccident, hd] using this
    · have hn : naturalKey (accidentRowOf now accident) ∉ db.map naturalKey :=
        fun hm => hd ((isDuplicate_iff db accident).mpr hm)
      simp [insertAccident, hd, execUpsert_of_not_mem db _ hn]

/-! ## Properties: `processMessage` -/

theorem upsertLoop_cons_fault (env : Nat → Option String × Nat) (msgID : String) (i : Nat)
    (a : RealTimeSMS) (rest : List RealTimeSMS) (st : LoopState)
    (h : (env i).1 ≠ none) :
    upsertLoop env msgID i (a :: rest) st
      = upsertLoop env msgID (i + 1) rest
          { db := st.db
            processedCount := st.processedCount
            effects := st.effects ++ [Effect.exec msgID i a true] } := by
  obtain ⟨e, he⟩ := Option.ne_none_iff_exists'.mp h
  rw [upsertLoop]
  simp [insertAccident, he]

theorem upsertLoop_cons_ok (env : Nat → Option String × Nat) (msgID : String) (i : Nat)
    (a : RealTimeSMS) (rest : List RealTimeSMS) (st : LoopState)
    (h : (env i).1 = none) :
    upsertLoop env msgID i (a :: rest) st
      = upsertLoop env msgID (i + 1) rest
          { db := execUpsertAccident st.db (accidentRowOf (env i).2 a)
            processedCount := st.processedCount + 1
            effects := st.effects ++ [Effect.exec msgID i a false] } := by
  rw [upsertLoop]
  simp [insertAccident, h]

theorem upsertLoop_spec (env : Nat → Option String × Nat) (msgID : String)
    (accidents : List RealTimeSMS) (i : Nat) (st : LoopState) :
    (upsertLoop env msgID i accidents st).db
      = (keptRows env i accidents).foldl execUpsertAccident st.db ∧
    (upsertLoop env msgID i accidents st).processedCount
      = st.processedCount + (keptRows env i accidents).length ∧
    (upsertLoop env msgID i accidents st).effects
      = st.effects ++ (accidents.enumFrom i).map
          (fun p => Effect.exec msgID p.1 p.2 (env p.1).1.isSome) := by
  induction accidents generalizing i st with
  | nil => simp [upsertLoop, keptRows]
  | cons a rest ih =>
    cases hf : (env i).1 with
    | some e =>
      rw [upsertLoop_cons_fault env msgID i a rest st (by simp [hf])]
      obtain ⟨h1, h2, h3⟩ := ih (i + 1) _
      rw [h1, h2, h3]
      simp [keptRows, List.enumFrom_cons, List.filter_cons, hf]
    | none =>
      rw [upsertLoop_cons_ok env msgID i a rest st hf]
      obtain ⟨h1, h2, h3⟩ := ih (i + 1) _
      rw [h1, h2, h3]
      simp [keptRows, List.enumFrom_cons, List.filter_cons, hf]
      omega

theorem keptRows_of_all_ok (env : Nat → Option String × Nat) (i : Nat)
    (l : List RealTimeSMS) (h : ∀ j, i ≤ j → j < i + l.length → (env j).1 = none) :
    keptRows env i l = rowsFrom env i l := by
  unfold keptRows rowsFrom
  congr 1
  apply List.filter_eq_self.mpr
  intro p hp
  have := h p.1 (List.le_fst_of_mem_enumFrom hp) (List.fst_lt_add_of_mem_enumFrom hp)
  simp [this]

theorem keptRows_one_fault (env : Nat → Option String × Nat)
    (pre post : List RealTimeSMS) (bad : RealTimeSMS)
    (hbad : (env pre.length).1 ≠ none)
    (hgood : ∀ i, i < (pre ++ bad :: post).length → i ≠ pre.length → (env i).1 = none) :
    keptRows env 0 (pre ++ bad :: post)
      = rowsFrom env 0 pre ++ rowsFrom env (pre.length + 1) post := by
  have hlen : (pre ++ bad :: post).length = pre.length + post.length + 1 := by
    simp; omega
  have h1 := keptRows_of_all_ok env 0 pre (fun j _ hj => hgood j (by omega) (by omega))
  have h2 := keptRows_of_all_ok env (pre.length + 1) post
    (fun j hj1 hj2 => hgood j (by omega) (by omega))
  rw [← h1, ← h2]
  obtain ⟨e, he⟩ := Option.ne_none_iff_exists'.mp hbad
  simp [keptRows, List.enumFrom_append, List.enumFrom_cons, List.filter_cons, he]

/-- C4, as stated, fails: in the batch `[sampleAccident, undatedAccident,
secondAccident]` exactly the record at position 1 is malformed (its date and
time hold no digit), yet when the store executes the calls all three records
are persisted, the malformed one under an empty date and an empty hour: three
rows, not two. -/
theorem processMessage_persists_malformed :
    (processMessage sampleUnmarshal calmEnv [] sampleMessage).err = none ∧
    (processMessage sampleUnmarshal calmEnv [] sampleMessage).processedCount = 3 ∧
    (processMessage sampleUnmarshal calmEnv [] sampleMessage).db.map naturalKey
      = [("20251028", "1610", "Seoul TG", "stopped vehicle"),
         ("", "", "Daejeon IC", "debris on road"),
         ("20251028", "1702", "Busan TG", "collision")] := by
  decide

/-- C4, amended: in a batch of N records in which exactly the record at
position k has its write rejected by the store, `processMessage` attempts all N
writes in delivery order, persists the other N-1 records in that order, skips
record k, and returns no error: the failure of record k does not abort the
records after it. -/
theorem processMessage_isolates_failed_write
    (unmarshal : String → Option (List RealTimeSMS)) (env : Nat → Option String × Nat)
    (db : AccidentTable) (msg : XMessage) (dataStr : String)
    (pre post : List RealTimeSMS) (bad : RealTimeSMS)
    (hdata : msg.field "data" = some (FieldValue.str dataStr))
    (hjson : unmarshal dataStr = some (pre ++ bad :: post))
    (hbad : (env pre.length).1 ≠ none)
    (hgood : ∀ i, i < (pre ++ bad :: post).length → i ≠ pre.length → (env i).1 = none) :
    (processMessage unmarshal env db msg).err = none ∧
    (processMessage unmarshal env db msg).processedCount = pre.length + post.length ∧
    (processMessage unmarshal env db msg).db
      = (rowsFrom env 0 pre ++ rowsFrom env (pre.length + 1) post).foldl
          execUpsertAccident db ∧
    (processMessage unmarshal env db msg).effects
      = ((pre ++ bad :: post).enumFrom 0).map
          (fun p => Effect.exec msg.ID p.1 p.2 (decide (p.1 = pre.length))) := by
  have hk := keptRows_one_fault env pre post bad hbad hgood
  obtain ⟨h1, h2, h3⟩ := upsertLoop_spec env msg.ID (pre ++ bad :: post) 0
    { db := db, processedCount := 0, effects := [] }
  unfold processMessage
  simp only [hdata, hjson]
  refine ⟨trivial, ?_, ?_, ?_⟩
  · rw [h2, hk]; simp [rowsFrom]
  · rw [h1, hk]
  · rw [h3, List.nil_append]
    apply List.map_congr_left
    intro p hp
    have hlt := List.fst_lt_add_of_mem_enumFrom hp
    by_cases hp1 : p.1 = pre.length
    · obtain ⟨e, he⟩ := Option.ne_none_iff_exists'.mp hbad
      simp [hp1, he]
    · simp [hp1, hgood p.1 (by omega) hp1]

theorem processMessage_isolates_failed_write_witness :
    (processMessage sampleUnmarshal faultAtOne [] sampleMessage).err = none ∧
    (processMessage sampleUnmarshal faultAtOne [] sampleMessage).processedCount = 2 ∧
    (processMessage sampleUnmarshal faultAtOne [] sampleMessage).db
      = (rowsFrom faultAtOne 0 [sampleAccident] ++ rowsFrom faultAtOne 2 [secondAccident]).foldl
          execUpsertAccident [] :=
  have h := processMessage_isolates_failed_write sampleUnmarshal faultAtOne [] sampleMessage
    "payload" [sampleAccident] [secondAccident] undatedAccident (by decide) (by decide)
    (by decide) (by decide)
  ⟨h.1, h.2.1, h.2.2.1⟩

/-- C5, as stated, fails: normalisation has no failure outcome. For the record
`undatedAccident`, whose date and time hold no digit, `formatDate` and
`formatHour` return the empty string, `insertAccident` returns no error and a
row is written under the empty date and hour. -/
theorem insertAccident_writes_undated :
    formatDate undatedAccident.AccDate = "" ∧ formatHour undatedAccident.AccHour = "" ∧
    (insertAccident none 50 [] undatedAccident).2 = none ∧
    (insertAccident none 50 [] undatedAccident).1.map naturalKey
      = [("", "", "Daejeon IC", "debris on road")] ∧
    formatDate "2025.1" = "20251" ∧ formatHour "7h" = "7" := by
  decide

/-- C5, amended: normalisation is total and never fails; whatever the date and
time strings of a record, `insertAccident` returns an error exactly when the
store call fails, in which case the table is left as it was (the record is
skipped), and when the store executes the call a row holding the key
(`formatDate` of the date, `formatHour` of the time, location, description) is
stored afterwards. -/
theorem insertAccident_fails_iff_fault (fault : Option String) (now : Nat)
    (db : AccidentTable) (accident : RealTimeSMS) :
    ((insertAccident fault now db accident).2 ≠ none ↔ fault ≠ none) ∧
    (fault ≠ none → (insertAccident fault now db accident).1 = db) ∧
    (fault = none →
      (formatDate accident.AccDate, formatHour accident.AccHour, accident.AccPointNM,
        accident.AccInfo) ∈ (insertAccident fault now db accident).1.map naturalKey) := by
  cases fault with
  | some e => simp [insertAccident]
  | none =>
    refine ⟨by simp [insertAccident], fun h => absurd rfl h, fun _ => ?_⟩
    exact execUpsert_key_mem db (accidentRowOf now accident)

theorem insertAccident_fails_iff_fault_witness :
    (insertAccident (some "connection refused") 50 sampleTable undatedAccident).1 = sampleTable ∧
    ("", "", "Daejeon IC", "debris on road")
      ∈ (insertAccident none 50 sampleTable undatedAccident).1.map naturalKey :=
  ⟨(insertAccident_fails_iff_fault (some "connection refused") 50 sampleTable
      undatedAccident).2.1 (by decide),
   (insertAccident_fails_iff_fault none 50 sampleTable undatedAccident).2.2 rfl⟩

/-! ## Properties: the reader loop -/

theorem processMessage_effects (unmarshal : String → Option (List RealTimeSMS))
    (env : Nat → Option String × Nat) (db : AccidentTable) (msg : XMessage) :
    ((processMessage unmarshal env db msg).err ≠ none →
      (processMessage unmarshal env db msg).effects = []) ∧
    ((processMessage unmarshal env db msg).err = none →
      ∃ dataStr accidents, msg.field "data" = some (FieldValue.str dataStr) ∧
        unmarshal dataStr = some accidents ∧
        (processMessage unmarshal env db msg).effects
          = writeAttempts msg.ID accidents (fun i => (env i).1.isSome)) := by
  unfold processMessage
  split
  · rename_i dataStr hdata
    split
    · simp
    · rename_i accidents hjson
      refine ⟨fun h => absurd rfl h, fun _ => ⟨dataStr, accidents, hdata, hjson, ?_⟩⟩
      have h3 := (upsertLoop_spec env msg.ID accidents 0
        { db := db, processedCount := 0, effects := [] }).2.2
      simpa [writeAttempts] using h3
  · simp

theorem split_at_xack (old mid before after : List Effect) (id id1 : String)
    (f f1 : Bool) (hmid : ∀ e ∈ mid, ∀ i g, e ≠ Effect.xack i g)
    (h : old ++ mid ++ [Effect.xack id1 f1] = before ++ Effect.xack id f :: after) :
    (∃ after1, old = before ++ Effect.xack id f :: after1) ∨
    (before = old ++ mid ∧ id = id1 ∧ f = f1 ∧ after = []) := by
  rw [List.append_eq_append_iff] at h
  rcases h with ⟨t, h1, h2⟩ | ⟨t, h1, h2⟩
  · cases t with
    | nil =>
      simp only [List.nil_append, List.cons.injEq, Effect.xack.injEq] at h2
      right
      exact ⟨by simpa using h1, h2.1.1.symm, h2.1.2.symm, h2.2.symm⟩
    | cons x xs =>
      simp at h2
  · cases t with
    | nil =>
      simp only [List.nil_append, List.cons.injEq, Effect.xack.injEq] at h2
      right
      exact ⟨by simpa using h1.symm, h2.1.1, h2.1.2, h2.2⟩
    | cons x xs =>
      simp only [List.cons_append, List.cons.injEq] at h2
      obtain ⟨hx, _⟩ := h2
      subst hx
      rw [List.append_eq_append_iff] at h1
      rcases h1 with ⟨u, _, h4⟩ | ⟨u, h3, h4⟩
      · exact absurd rfl (hmid (Effect.xack id f) (by rw [h4]; simp) id f)
      · cases u with
        | nil =>
          simp only [List.nil_append] at h4
          exact absurd rfl (hmid (Effect.xack id f) (by rw [← h4]; simp) id f)
        | cons y ys =>
          simp only [List.cons_append, List.cons.injEq] at h4
          left
          exact ⟨ys, by rw [h3, h4.1]⟩

theorem writeAttempts_no_xack (msgID : String) (accidents : List RealTimeSMS)
    (failed : Nat → Bool) :
    ∀ e ∈ writeAttempts msgID accidents failed, ∀ i g, e ≠ Effect.xack i g := by
  intro e he i g
  unfold writeAttempts at he
  obtain ⟨p, _, hp⟩ := List.mem_map.mp he
  rw [← hp]
  intro h
  cases h

theorem ackAfterWrites_mono (unmarshal : String → Option (List RealTimeSMS))
    (d1 d2 : List XMessage) (effects : List Effect) (hsub : ∀ m ∈ d1, m ∈ d2)
    (h : AckAfterWrites unmarshal d1 effects) : AckAfterWrites unmarshal d2 effects := by
  intro before after id ackFailed heq
  obtain ⟨msg, dataStr, accidents, failed, earlier, h1, h2⟩ := h before after id ackFailed heq
  exact ⟨msg, dataStr, accidents, failed, earlier, hsub msg h1, h2⟩

theorem handleMessage_ackAfterWrites (unmarshal : String → Option (List RealTimeSMS))
    (env : Nat → Nat → Option String × Nat) (ackFault : Nat → Option String)
    (delivered : List XMessage) (st : ReaderState) (msg : XMessage)
    (hmsg : msg ∈ delivered) (h : AckAfterWrites unmarshal delivered st.effects) :
    AckAfterWrites unmarshal delivered
      (handleMessage unmarshal env ackFault st msg).effects := by
  have hp := processMessage_effects unmarshal (env st.handled) st.db msg
  cases herr : (processMessage unmarshal (env st.handled) st.db msg).err with
  | some e =>
    have h0 := hp.1 (by simp [herr])
    simp only [handleMessage, herr, h0, List.append_nil]
    exact h
  | none =>
    obtain ⟨dataStr, accidents, hdata, hjson, heff⟩ := hp.2 herr
    simp only [handleMessage, herr, heff]
    intro before after id ackFailed heq
    rcases split_at_xack _ _ _ _ _ _ _ _
      (writeAttempts_no_xack msg.ID accidents _) heq with ⟨after1, hold⟩ | ⟨hb, hid, _, _⟩
    · obtain ⟨m, d, a, fl, earlier, h1, h2, h3, h4, h5⟩ := h before after1 id ackFailed hold
      exact ⟨m, d, a, fl, earlier, h1, h2, h3, h4, h5⟩
    · exact ⟨msg, dataStr, accidents, _, st.effects, hmsg, hid.symm, hdata, hjson,
        by rw [hb, hid]⟩

theorem foldl_handleMessage_ackAfterWrites (unmarshal : String → Option (List RealTimeSMS))
    (env : Nat → Nat → Option String × Nat) (ackFault : Nat → Option String)
    (delivered : List XMessage) (msgs : List XMessage) (st : ReaderState)
    (hmsgs : ∀ m ∈ msgs, m ∈ delivered)
    (h : AckAfterWrites unmarshal delivered st.effects) :
    AckAfterWrites unmarshal delivered
      (msgs.foldl (handleMessage unmarshal env ackFault) st).effects := by
  induction msgs generalizing st with
  | nil => exact h
  | cons m rest ih =>
    rw [List.foldl_cons]
    exact ih _ (fun x hx => hmsgs x (List.mem_cons_of_mem _ hx))
      (handleMessage_ackAfterWrites unmarshal env ackFault delivered st m
        (hmsgs m (List.mem_cons_self _ _)) h)

theorem foldl_streams_ackAfterWrites (unmarshal : String → Option (List RealTimeSMS))
    (env : Nat → Nat → Option String × Nat) (ackFault : Nat → Option String)
    (delivered : List XMessage) (reply : List XStream) (st : ReaderState)
    (hread : ∀ m, (∃ x ∈ reply, m ∈ x.Messages) → m ∈ delivered)
    (h : AckAfterWrites unmarshal delivered st.effects) :
    AckAfterWrites unmarshal delivered
      (reply.foldl (fun st1 stream =>
        stream.Messages.foldl (handleMessage unmarshal env ackFault) st1) st).effects := by
  induction reply generalizing st with
  | nil => exact h
  | cons stream rest ih =>
    rw [List.foldl_cons]
    apply ih
    · intro m hm
      obtain ⟨x, hx, hmx⟩ := hm
      exact hread m ⟨x, List.mem_cons_of_mem _ hx, hmx⟩
    · exact foldl_handleMessage_ackAfterWrites unmarshal env ackFault delivered _ st
        (fun m hm => hread m ⟨stream, List.mem_cons_self _ _, hm⟩) h

theorem startIteration_ackAfterWrites (unmarshal : String → Option (List RealTimeSMS))
    (env : Nat → Nat → Option String × Nat) (ackFault : Nat → Option String)
    (delivered : List XMessage) (read : ReadResult) (st : ReaderState)
    (hread : ∀ m ∈ read.messages, m ∈ delivered)
    (h : AckAfterWrites unmarshal delivered st.effects) :
    AckAfterWrites unmarshal delivered
      (startIteration unmarshal env ackFault st read).effects := by
  cases read with
  | redisNil => exact h
  | failure e => exact h
  | streams reply =>
    simp only [ReadResult.messages, List.mem_flatMap] at hread
    exact foldl_streams_ackAfterWrites unmarshal env ackFault delivered reply st hread h

theorem foldl_startIteration_ackAfterWrites
    (unmarshal : String → Option (List RealTimeSMS))
    (env : Nat → Nat → Option String × Nat) (ackFault : Nat → Option String)
    (delivered : List XMessage) (reads : List ReadResult) (st : ReaderState)
    (hreads : ∀ r ∈ reads, ∀ m ∈ r.messages, m ∈ delivered)
    (h : AckAfterWrites unmarshal delivered st.effects) :
    AckAfterWrites unmarshal delivered
      (reads.foldl (startIteration unmarshal env ackFault) st).effects := by
  induction reads generalizing st with
  | nil => exact h
  | cons r rest ih =>
    rw [List.foldl_cons]
    exact ih _ (fun x hx => hreads x (List.mem_cons_of_mem _ hx))
      (startIteration_ackAfterWrites unmarshal env ackFault delivered r st
        (hreads r (List.mem_cons_self _ _)) h)

/-- C3: in every run of the reader loop `Start`, wherever an `XAck` of an entry
is issued, the effects issued right before it are the write attempts of
`processMessage` for every record of that delivered entry, in delivery order,
each one completed (with or without error); so no entry is acknowledged before,
or without, its write attempts. -/
theorem Start_acks_after_writes (unmarshal : String → Option (List RealTimeSMS))
    (env : Nat → Nat → Option String × Nat) (ackFault : Nat → Option String)
    (db : AccidentTable) (reads : List ReadResult)
    (before after : List Effect) (id : String) (ackFailed : Bool)
    (hsplit : (Start unmarshal env ackFault db reads).effects
      = before ++ Effect.xack id ackFailed :: after) :
    ∃ (msg : XMessage) (dataStr : String) (accidents : List RealTimeSMS)
      (failed : Nat → Bool) (earlier : List Effect),
      msg ∈ reads.flatMap ReadResult.messages ∧ msg.ID = id ∧
      msg.field "data" = some (FieldValue.str dataStr) ∧
      unmarshal dataStr = some accidents ∧
      before = earlier ++ writeAttempts id accidents failed := by
  have h := foldl_startIteration_ackAfterWrites unmarshal env ackFault
    (reads.flatMap ReadResult.messages) reads { db := db, effects := [], handled := 0 }
    (fun r hr m hm => List.mem_flatMap.mpr ⟨r, hr, hm⟩)
    (by
      intro b a i f hnil
      exact absurd hnil (by simp))
  exact h before after id ackFailed hsplit

theorem Start_acks_after_writes_witness :
    ∃ (msg : XMessage) (dataStr : String) (accidents : List RealTimeSMS)
      (failed : Nat → Bool) (earlier : List Effect),
      msg ∈ sampleReads.flatMap ReadResult.messages ∧ msg.ID = "1-0" ∧
      msg.field "data" = some (FieldValue.str dataStr) ∧
      sampleUnmarshal dataStr = some accidents ∧
      [Effect.exec "1-0" 0 sampleAccident false, Effect.exec "1-0" 1 undatedAccident false,
        Effect.exec "1-0" 2 secondAccident false]
        = earlier ++ writeAttempts "1-0" accidents failed :=
  Start_acks_after_writes sampleUnmarshal (fun _ => calmEnv) (fun _ => none) [] sampleReads
    [Effect.exec "1-0" 0 sampleAccident false, Effect.exec "1-0" 1 undatedAccident false,
      Effect.exec "1-0" 2 secondAccident false]
    [] "1-0" false (by decide)

/-! ## Properties: the latest-snapshot rollup -/

theorem foldl_max_collected (l : List RoadStatusRow) (init : Nat) :
    init ≤ l.foldl (fun m x => max m x.collected_at) init ∧
    (∀ x ∈ l, x.collected_at ≤ l.foldl (fun m x => max m x.collected_at) init) ∧
    (l.foldl (fun m x => max m x.collected_at) init = init ∨
      ∃ x ∈ l, x.collected_at = l.foldl (fun m x => max m x.collected_at) init) := by
  induction l generalizing init with
  | nil => simp
  | cons a rest ih =>
    obtain ⟨h1, h2, h3⟩ := ih (max init a.collected_at)
    simp only [List.foldl_cons]
    refine ⟨le_trans (le_max_left _ _) h1, ?_, ?_⟩
    · intro x hx
      rcases List.mem_cons.mp hx with hx | hx
      · rw [hx]; exact le_trans (le_max_right _ _) h1
      · exact h2 x hx
    · rcases h3 with h3 | ⟨x, hx, hxe⟩
      · rcases le_total init a.collected_at with hle | hle
        · right
          exact ⟨a, List.mem_cons_self _ _, by rw [h3, max_eq_right hle]⟩
        · left
          rw [h3, max_eq_left hle]
      · right
        exact ⟨x, List.mem_cons_of_mem _ hx, hxe⟩

theorem latestCollectedAt_spec (status : List RoadStatusRow) (t : Nat)
    (h : latestCollectedAt status = some t) :
    (∃ s ∈ status, s.collected_at = t) ∧ ∀ s ∈ status, s.collected_at ≤ t := by
  cases status with
  | nil => simp [latestCollectedAt] at h
  | cons a rest =>
    simp only [latestCollectedAt, Option.some.injEq] at h
    obtain ⟨h1, h2, h3⟩ := foldl_max_collected rest a.collected_at
    rw [h] at h1 h2 h3
    constructor
    · rcases h3 with h3 | ⟨x, hx, hxe⟩
      · exact ⟨a, List.mem_cons_self _ _, h3.symm⟩
      · exact ⟨x, List.mem_cons_of_mem _ hx, hxe⟩
    · intro s hs
      rcases List.mem_cons.mp hs with hs | hs
      · rw [hs]; exact h1
      · exact h2 s hs

theorem latestCollectedAt_isSome (status : List RoadStatusRow) (h : status ≠ []) :
    ∃ t, latestCollectedAt status = some t := by
  cases status with
  | nil => exact absurd rfl h
  | cons a rest => exact ⟨_, rfl⟩

theorem upsertSummary_row_eq (r new : RouteSummaryRow) (h : summaryKey r = summaryKey new) :
    { r with
      total_sections := new.total_sections
      smooth_sections := new.smooth_sections
      slow_sections := new.slow_sections
      congested_sections := new.congested_sections
      avg_speed := new.avg_speed
      avg_traffic_amount := new.avg_traffic_amount } = new := by
  cases r
  cases new
  simp only [summaryKey, Prod.mk.injEq] at h
  obtain ⟨⟨h1, h2⟩, h3⟩ := h
  simp [h1, h2, h3]

theorem upsertSummary_find_same (tbl : List RouteSummaryRow) (new : RouteSummaryRow) :
    (execUpsertSummary tbl new).find? (fun r => decide (summaryKey r = summaryKey new))
      = some new := by
  induction tbl with
  | nil => simp [execUpsertSummary]
  | cons r rest ih =>
    unfold execUpsertSummary
    by_cases hk : summaryKey r = summaryKey new
    · rw [if_pos hk, upsertSummary_row_eq r new hk]
      simp
    · rw [if_neg hk]
      simp [List.find?_cons, hk, ih]

theorem upsertSummary_find_other (tbl : List RouteSummaryRow) (new : RouteSummaryRow)
    (k : (String × String) × Nat) (hk : summaryKey new ≠ k) :
    (execUpsertSummary tbl new).find? (fun r => decide (summaryKey r = k))
      = tbl.find? (fun r => decide (summaryKey r = k)) := by
  induction tbl with
  | nil => simp [execUpsertSummary, hk]
  | cons r rest ih =>
    unfold execUpsertSummary
    by_cases hr : summaryKey r = summaryKey new
    · rw [if_pos hr, upsertSummary_row_eq r new hr]
      have hrk : summaryKey r ≠ k := by rw [hr]; exact hk
      simp [List.find?_cons, hk, hrk]
    · rw [if_neg hr]
      by_cases hrk : summaryKey r = k
      · simp [List.find?_cons, hrk]
      · simp [List.find?_cons, hrk, ih]

theorem foldl_upsertSummary_find_other (rows tbl : List RouteSummaryRow)
    (k : (String × String) × Nat) (h : ∀ n ∈ rows, summaryKey n ≠ k) :
    (rows.foldl execUpsertSummary tbl).find? (fun r => decide (summaryKey r = k))
      = tbl.find? (fun r => decide (summaryKey r = k)) := by
  induction rows generalizing tbl with
  | nil => rfl
  | cons n rest ih =>
    rw [List.foldl_cons, ih _ (fun x hx => h x (List.mem_cons_of_mem _ hx)),
      upsertSummary_find_other tbl n k (h n (List.mem_cons_self _ _))]

theorem foldl_upsertSummary_find_mem (rows tbl : List RouteSummaryRow)
    (new : RouteSummaryRow) (hnd : (rows.map summaryKey).Nodup) (hmem : new ∈ rows) :
    (rows.foldl execUpsertSummary tbl).find? (fun r => decide (summaryKey r = summaryKey new))
      = some new := by
  induction rows generalizing tbl with
  | nil => simp at hmem
  | cons n rest ih =>
    simp only [List.map_cons, List.nodup_cons] at hnd
    rw [List.foldl_cons]
    rcases List.mem_cons.mp hmem with hm | hm
    · subst hm
      rw [foldl_upsertSummary_find_other rest _ _
        (fun x hx e => hnd.1 (by rw [← e]; exact List.mem_map_of_mem summaryKey hx))]
      exact upsertSummary_find_same tbl new
    · exact ih _ hnd.2 hm

theorem filter_route_eq_counted (status : List RoadStatusRow) (route : String × String)
    (t : Nat) :
    (status.filter (passesFilter t)).filter (fun r => decide (r.route = route))
      = countedSamples status route t := by
  unfold countedSamples
  rw [List.filter_filter]
  apply List.filter_congr
  intro x _
  unfold passesFilter
  cases decide (x.route = route) <;> cases decide (x.collected_at = t) <;>
    cases decide (x.grade > 0) <;> cases decide (x.speed ≥ 0) <;> rfl

theorem selectRouteSummary_keys (status : List RoadStatusRow) (t : Nat) :
    (selectRouteSummary status t).map summaryKey
      = (((status.filter (passesFilter t)).map RoadStatusRow.route).dedup).map
          (fun g => (g, t)) := by
  unfold selectRouteSummary
  simp only [List.map_map]
  apply List.map_congr_left
  intro g _
  rfl

theorem selectRouteSummary_nodup (status : List RoadStatusRow) (t : Nat) :
    ((selectRouteSummary status t).map summaryKey).Nodup := by
  rw [selectRouteSummary_keys]
  apply List.Nodup.map _ (List.nodup_dedup _)
  intro a b h
  exact (Prod.mk.inj h).1

theorem route_mem_of_counted (status : List RoadStatusRow) (route : String × String)
    (t : Nat) :
    route ∈ ((status.filter (passesFilter t)).map RoadStatusRow.route).dedup
      ↔ countedSamples status route t ≠ [] := by
  rw [List.mem_dedup, ← filter_route_eq_counted, List.mem_map]
  constructor
  · rintro ⟨x, hx, hxr⟩ hnil
    have : x ∈ (status.filter (passesFilter t)).filter (fun r => decide (r.route = route)) :=
      List.mem_filter.mpr ⟨hx, by simp [hxr]⟩
    rw [hnil] at this
    simp at this
  · intro hne
    obtain ⟨x, hx⟩ := List.exists_mem_of_ne_nil _ hne
    obtain ⟨hx1, hx2⟩ := List.mem_filter.mp hx
    exact ⟨x, hx1, of_decide_eq_true hx2⟩

theorem aggregate_summaryAt (status : List RoadStatusRow) (summary : List RouteSummaryRow)
    (t : Nat) (route : String × String) (ht : latestCollectedAt status = some t)
    (hr : countedSamples status route t ≠ []) :
    summaryAt (aggregateRouteSummary none none status summary).1 route t
      = some (summaryOfGroup t route (countedSamples status route t)) := by
  have hmem : summaryOfGroup t route (countedSamples status route t)
      ∈ selectRouteSummary status t := by
    unfold selectRouteSummary
    apply List.mem_map.mpr
    exact ⟨route, (route_mem_of_counted status route t).mpr hr,
      by rw [filter_route_eq_counted]⟩
  have h := foldl_upsertSummary_find_mem (selectRouteSummary status t) summary _
    (selectRouteSummary_nodup status t) hmem
  simp only [aggregateRouteSummary, ht, summaryAt]
  exact h

theorem aggregate_summaryAt_untouched (status : List RoadStatusRow)
    (summary : List RouteSummaryRow) (t t1 : Nat) (route : String × String)
    (ht : latestCollectedAt status = some t)
    (h : t1 ≠ t ∨ countedSamples status route t = []) :
    summaryAt (aggregateRouteSummary none none status summary).1 route t1
      = summaryAt summary route t1 := by
  simp only [aggregateRouteSummary, ht, summaryAt]
  apply foldl_upsertSummary_find_other
  intro n hn hkey
  have hk : summaryKey n ∈ (selectRouteSummary status t).map summaryKey :=
    List.mem_map_of_mem summaryKey hn
  rw [selectRouteSummary_keys, hkey, List.mem_map] at hk
  obtain ⟨g, hg, hge⟩ := hk
  obtain ⟨hg1, hg2⟩ := Prod.mk.inj hge
  rcases h with h | h
  · exact h hg2.symm
  · rw [hg1] at hg
    exact (route_mem_of_counted status route t).mp hg h

theorem sum_grade_indicator (l : List RoadStatusRow) (g : Int) :
    (l.map (fun r => if r.grade = g then 1 else 0)).sum
      = (l.filter (fun r => decide (r.grade = g))).length := by
  induction l with
  | nil => rfl
  | cons a rest ih =>
    by_cases h : a.grade = g
    · simp [List.filter_cons, h, ih]; omega
    · simp [List.filter_cons, h, ih]

theorem filterMap_nonneg (l : List RoadStatusRow) (f : RoadStatusRow → ℚ) :
    l.filterMap (fun r => if f r ≥ 0 then some (f r) else none)
      = (l.filter (fun r => decide (f r ≥ 0))).map f := by
  induction l with
  | nil => rfl
  | cons a rest ih =>
    by_cases h : f a ≥ 0
    · simp [List.filterMap_cons, List.filter_cons, h, ih]
    · simp [List.filterMap_cons, List.filter_cons, h, ih]

theorem counted_speed_nonneg (status : List RoadStatusRow) (route : String × String)
    (t : Nat) :
    (countedSamples status route t).filter (fun r => decide (r.speed ≥ 0))
      = countedSamples status route t := by
  apply List.filter_eq_self.mpr
  intro a ha
  unfold countedSamples at ha
  have := (List.mem_filter.mp ha).2
  simp only [Bool.and_eq_true] at this
  exact this.2

theorem sqlAvg_of_ne_nil (values : List ℚ) (h : values ≠ []) :
    sqlAvg values = some (mean values) := by
  cases values with
  | nil => exact absurd rfl h
  | cons a rest => rfl

theorem sqlRound1_spec (x : ℚ) :
    ∃ n : ℤ, sqlRound1 x = (n : ℚ) / 10 ∧ |sqlRound1 x - x| ≤ 1 / 20 := by
  unfold sqlRound1
  by_cases hx : 0 ≤ x
  · rw [if_pos hx]
    refine ⟨⌊x * 10 + 1 / 2⌋, rfl, ?_⟩
    have h1 := Int.floor_le (x * 10 + 1 / 2)
    have h2 := Int.lt_floor_add_one (x * 10 + 1 / 2)
    rw [abs_le]
    constructor <;> linarith
  · rw [if_neg hx]
    refine ⟨-⌊-x * 10 + 1 / 2⌋, by push_cast; ring, ?_⟩
    have h1 := Int.floor_le (-x * 10 + 1 / 2)
    have h2 := Int.lt_floor_add_one (-x * 10 + 1 / 2)
    rw [abs_le]
    constructor <;> linarith

/-- C9, as stated, fails: a route gets a summary row only when at least one of
its samples at the latest timestamp passes the filter. In `sampleStatus` route
R2 has one sample at the latest timestamp 1000, of grade 0, so none that
counts: on an empty summary table no row is written for R2, and on
`staleSummary` the row stored earlier for R2 at 1000 stays with
`total_sections = 1`. -/
theorem aggregateRouteSummary_skips_route :
    latestCollectedAt sampleStatus = some 1000 ∧
    (sampleStatus.filter (fun s => decide (s.route = ("0020", "R2"))
      && decide (s.collected_at = 1000))).length = 1 ∧
    (countedSamples sampleStatus ("0020", "R2") 1000).length = 0 ∧
    (aggregateRouteSummary none none sampleStatus []).2 = none ∧
    summaryAt (aggregateRouteSummary none none sampleStatus []).1 ("0020", "R2") 1000 = none ∧
    (summaryAt (aggregateRouteSummary none none sampleStatus staleSummary).1
      ("0020", "R2") 1000).map (fun r => r.total_sections) = some 1 := by
  decide

/-- C9, amended: on a non-empty sample table `aggregateRouteSummary` succeeds
(when the store executes its two statements) and, with T the most recent
collection timestamp in the table, stores for each route R that has at least
one sample at T with grade > 0 and speed >= 0 a summary row at T whose
`total_sections` is the number of those samples and whose smooth, slow and
congested counts are the numbers of those samples with grade 1, 2 and 3;
samples at other timestamps or failing the filter enter no count. For a route
with no such sample, and at any other timestamp, the summary table is left as
it was. Grades 1, 0, 3 with speeds 80, -1, 40 for route R1 give
`total_sections = 2`, one smooth and one congested section. -/
theorem aggregateRouteSummary_counts (status : List RoadStatusRow)
    (summary : List RouteSummaryRow) (hne : status ≠ []) :
    (summaryAt (aggregateRouteSummary none none sampleStatus []).1 ("0010", "R1") 1000).map
        (fun r => (r.total_sections, r.smooth_sections, r.slow_sections, r.congested_sections))
      = some (2, 1, 0, 1) ∧
    ∃ t, latestCollectedAt status = some t ∧
      (∃ s ∈ status, s.collected_at = t) ∧ (∀ s ∈ status, s.collected_at ≤ t) ∧
      (aggregateRouteSummary none none status summary).2 = none ∧
      ∀ route : String × String,
        (countedSamples status route t ≠ [] →
          ∃ row, summaryAt (aggregateRouteSummary none none status summary).1 route t
              = some row ∧
            row.total_sections = (countedSamples status route t).length ∧
            row.smooth_sections = ((countedSamples status route t).filter
              (fun s => decide (s.grade = 1))).length ∧
            row.slow_sections = ((countedSamples status route t).filter
              (fun s => decide (s.grade = 2))).length ∧
            row.congested_sections = ((countedSamples status route t).filter
              (fun s => decide (s.grade = 3))).length) ∧
        (countedSamples status route t = [] →
          summaryAt (aggregateRouteSummary none none status summary).1 route t
            = summaryAt summary route t) ∧
        (∀ t1, t1 ≠ t →
          summaryAt (aggregateRouteSummary none none status summary).1 route t1
            = summaryAt summary route t1) := by
  obtain ⟨t, ht⟩ := latestCollectedAt_isSome status hne
  obtain ⟨h1, h2⟩ := latestCollectedAt_spec status t ht
  refine ⟨by decide, t, ht, h1, h2, by simp [aggregateRouteSummary, ht],
    fun route => ⟨?_, ?_, ?_⟩⟩
  · intro hr
    refine ⟨_, aggregate_summaryAt status summary t route ht hr, rfl, ?_, ?_, ?_⟩
    · exact sum_grade_indicator _ 1
    · exact sum_grade_indicator _ 2
    · exact sum_grade_indicator _ 3
  · intro hr
    exact aggregate_summaryAt_untouched status summary t t route ht (Or.inr hr)
  · intro t1 ht1
    exact aggregate_summaryAt_untouched status summary t t1 route ht (Or.inl ht1)

theorem aggregateRouteSummary_counts_witness :
    (summaryAt (aggregateRouteSummary none none sampleStatus []).1 ("0010", "R1") 1000).map
        (fun r => (r.total_sections, r.smooth_sections, r.slow_sections, r.congested_sections))
      = some (2, 1, 0, 1) ∧
    ∃ t, latestCollectedAt sampleStatus = some t ∧
      (∃ s ∈ sampleStatus, s.collected_at = t) ∧ (∀ s ∈ sampleStatus, s.collected_at ≤ t) ∧
      (aggregateRouteSummary none none sampleStatus staleSummary).2 = none ∧
      ∀ route : String × String,
        (countedSamples sampleStatus route t ≠ [] →
          ∃ row, summaryAt (aggregateRouteSummary none none sampleStatus staleSummary).1 route t
              = some row ∧
            row.total_sections = (countedSamples sampleStatus route t).length ∧
            row.smooth_sections = ((countedSamples sampleStatus route t).filter
              (fun s => decide (s.grade = 1))).length ∧
            row.slow_sections = ((countedSamples sampleStatus route t).filter
              (fun s => decide (s.grade = 2))).length ∧
            row.congested_sections = ((countedSamples sampleStatus route t).filter
              (fun s => decide (s.grade = 3))).length) ∧
        (countedSamples sampleStatus route t = [] →
          summaryAt (aggregateRouteSummary none none sampleStatus staleSummary).1 route t
            = summaryAt staleSummary route t) ∧
        (∀ t1, t1 ≠ t →
          summaryAt (aggregateRouteSummary none none sampleStatus staleSummary).1 route t1
            = summaryAt staleSummary route t1) :=
  aggregateRouteSummary_counts sampleStatus staleSummary (by decide)

/-- C10: for every route with at least one sample at the latest timestamp with
grade > 0 and non-negative speed, the `avg_speed` written is the arithmetic
mean of the speeds of exactly those samples, rounded to one decimal place, and
`avg_traffic_amount` is the likewise rounded mean of the volumes of exactly
those of these samples whose volume is not negative (`NULL` when there is
none); rounding yields a multiple of one tenth at most one twentieth away. -/
theorem aggregateRouteSummary_averages (status : List RoadStatusRow)
    (summary : List RouteSummaryRow) (t : Nat) (route : String × String)
    (ht : latestCollectedAt status = some t)
    (hr : countedSamples status route t ≠ []) :
    ∃ row, summaryAt (aggregateRouteSummary none none status summary).1 route t = some row ∧
      row.avg_speed
        = some (sqlRound1 (mean ((countedSamples status route t).map (fun s => s.speed)))) ∧
      row.avg_traffic_amount
        = (if ((countedSamples status route t).filter
              (fun s => decide (s.traffic_amount ≥ 0))) = [] then none
           else some (sqlRound1 (mean (((countedSamples status route t).filter
              (fun s => decide (s.traffic_amount ≥ 0))).map (fun s => s.traffic_amount))))) ∧
      ∀ x : ℚ, ∃ n : ℤ, sqlRound1 x = (n : ℚ) / 10 ∧ |sqlRound1 x - x| ≤ 1 / 20 := by
  refine ⟨_, aggregate_summaryAt status summary t route ht hr, ?_, ?_, sqlRound1_spec⟩
  · simp only [summaryOfGroup]
    rw [filterMap_nonneg _ (fun s => s.speed), counted_speed_nonneg,
      sqlAvg_of_ne_nil _ (by simpa using hr)]
    rfl
  · simp only [summaryOfGroup]
    rw [filterMap_nonneg _ (fun s => s.traffic_amount)]
    split
    · rename_i h
      rw [h]
      rfl
    · rename_i h
      rw [sqlAvg_of_ne_nil _ (by simpa using h)]
      rfl

theorem aggregateRouteSummary_averages_witness :
    ∃ row, summaryAt (aggregateRouteSummary none none sampleStatus []).1 ("0010", "R1") 1000
        = some row ∧ row.avg_speed = some 60 ∧ row.avg_traffic_amount = some 200 := by
  obtain ⟨row, h1, h2, h3, _⟩ := aggregateRouteSummary_averages sampleStatus []
    1000 ("0010", "R1") (by decide) (by decide)
  have hs : (countedSamples sampleStatus ("0010", "R1") 1000).map (fun s => s.speed)
      = [80, 40] := by decide
  have hv : ((countedSamples sampleStatus ("0010", "R1") 1000).filter
      (fun s => decide (s.traffic_amount ≥ 0))).map (fun s => s.traffic_amount)
      = [100, 300] := by decide
  have hv0 : ((countedSamples sampleStatus ("0010", "R1") 1000).filter
      (fun s => decide (s.traffic_amount ≥ 0))) ≠ [] := by decide
  rw [hs] at h2
  rw [if_neg hv0, hv] at h3
  refine ⟨row, h1, ?_, ?_⟩
  · rw [h2]; norm_num [sqlRound1, mean]
  · rw [h3]; norm_num [sqlRound1, mean]

/-! ## Properties: the rollup as an overwrite by key -/

theorem upsertSummary_of_find_same (tbl : List RouteSummaryRow) (new : RouteSummaryRow)
    (h : tbl.find? (fun r => decide (summaryKey r = summaryKey new)) = some new) :
    execUpsertSummary tbl new = tbl := by
  induction tbl with
  | nil => simp at h
  | cons r rest ih =>
    unfold execUpsertSummary
    by_cases hk : summaryKey r = summaryKey new
    · rw [if_pos hk, upsertSummary_row_eq r new hk]
      simp only [List.find?_cons, hk, decide_True, Option.some.injEq] at h
      rw [h]
    · rw [if_neg hk]
      simp only [List.find?_cons, hk, decide_False] at h
      rw [ih h]

theorem foldl_upsertSummary_fixed (rows tbl : List RouteSummaryRow)
    (h : ∀ n ∈ rows, tbl.find? (fun r => decide (summaryKey r = summaryKey n)) = some n) :
    rows.foldl execUpsertSummary tbl = tbl := by
  induction rows with
  | nil => rfl
  | cons n rest ih =>
    rw [List.foldl_cons, upsertSummary_of_find_same tbl n (h n (List.mem_cons_self _ _))]
    exact ih (fun x hx => h x (List.mem_cons_of_mem _ hx))

theorem upsertSummary_keys (tbl : List RouteSummaryRow) (new : RouteSummaryRow) :
    (execUpsertSummary tbl new).map summaryKey
      = if summaryKey new ∈ tbl.map summaryKey then tbl.map summaryKey
        else tbl.map summaryKey ++ [summaryKey new] := by
  induction tbl with
  | nil => simp [execUpsertSummary]
  | cons r rest ih =>
    unfold execUpsertSummary
    by_cases hk : summaryKey r = summaryKey new
    · rw [if_pos hk, upsertSummary_row_eq r new hk]
      simp [hk]
    · rw [if_neg hk, List.map_cons, ih]
      have hk1 : ¬ summaryKey new = summaryKey r := fun e => hk e.symm
      by_cases hm : summaryKey new ∈ rest.map summaryKey
      · simp [hm]
      · simp [hm, hk1]

theorem upsertSummary_nodup (tbl : List RouteSummaryRow) (new : RouteSummaryRow)
    (h : (tbl.map summaryKey).Nodup) : ((execUpsertSummary tbl new).map summaryKey).Nodup := by
  rw [upsertSummary_keys]
  split
  · exact h
  · rename_i hm
    refine List.Nodup.append h (by simp) ?_
    intro k hk1 hk2
    simp only [List.mem_singleton] at hk2
    exact hm (hk2 ▸ hk1)

theorem foldl_upsertSummary_nodup (rows tbl : List RouteSummaryRow)
    (h : (tbl.map summaryKey).Nodup) :
    ((rows.foldl execUpsertSummary tbl).map summaryKey).Nodup := by
  induction rows generalizing tbl with
  | nil => exact h
  | cons n rest ih =>
    rw [List.foldl_cons]
    exact ih _ (upsertSummary_nodup tbl n h)

/-- C11: `aggregateRouteSummary` overwrites by key: running it a second time
on the same sample table (whatever the store does to the second run) leaves the
summary table exactly as the first run left it, and a summary table with at
most one row per (route, collection timestamp) still has at most one row per
(route, collection timestamp) afterwards. -/
theorem aggregateRouteSummary_idempotent (status : List RoadStatusRow)
    (summary : List RouteSummaryRow) (queryFault execFault : Option String) :
    (aggregateRouteSummary queryFault execFault status
        (aggregateRouteSummary none none status summary).1).1
      = (aggregateRouteSummary none none status summary).1 ∧
    ((summary.map summaryKey).Nodup →
      ((aggregateRouteSummary none none status summary).1.map summaryKey).Nodup) ∧
    ((aggregateRouteSummary none none status []).1.map summaryKey).Nodup := by
  have hnd : ∀ tbl : List RouteSummaryRow, (tbl.map summaryKey).Nodup →
      ((aggregateRouteSummary none none status tbl).1.map summaryKey).Nodup := by
    intro tbl h
    unfold aggregateRouteSummary
    cases latestCollectedAt status with
    | none => exact h
    | some t => exact foldl_upsertSummary_nodup _ tbl h
  refine ⟨?_, hnd summary, hnd [] (by simp)⟩
  cases queryFault with
  | some e => rfl
  | none =>
    cases execFault with
    | some e =>
      unfold aggregateRouteSummary
      cases latestCollectedAt status <;> rfl
    | none =>
      unfold aggregateRouteSummary
      cases latestCollectedAt status with
      | none => rfl
      | some t =>
        exact foldl_upsertSummary_fixed _ _ (fun n hn =>
          foldl_upsertSummary_find_mem (selectRouteSummary status t) summary n
            (selectRouteSummary_nodup status t) hn)

theorem aggregateRouteSummary_idempotent_witness :
    (aggregateRouteSummary none none sampleStatus
        (aggregateRouteSummary none none sampleStatus staleSummary).1).1
      = (aggregateRouteSummary none none sampleStatus staleSummary).1 ∧
    ((aggregateRouteSummary none none sampleStatus staleSummary).1.map summaryKey).Nodup :=
  ⟨(aggregateRouteSummary_idempotent sampleStatus staleSummary none none).1,
   (aggregateRouteSummary_idempotent sampleStatus staleSummary none none).2.1 (by decide)⟩

/-! ## Properties: calendar days -/

theorem yoe_bounds (n : Int) (h0 : 0 ≤ n) (h1 : n ≤ 146096) :
    0 ≤ (n - n / 1460 + n / 36524 - n / 146096) / 365 ∧
    (n - n / 1460 + n / 36524 - n / 146096) / 365 ≤ 399 ∧
    0 ≤ n - (365 * ((n - n / 1460 + n / 36524 - n / 146096) / 365)
      + (n - n / 1460 + n / 36524 - n / 146096) / 365 / 4
      - (n - n / 1460 + n / 36524 - n / 146096) / 365 / 100) ∧
    n - (365 * ((n - n / 1460 + n / 36524 - n / 146096) / 365)
      + (n - n / 1460 + n / 36524 - n / 146096) / 365 / 4
      - (n - n / 1460 + n / 36524 - n / 146096) / 365 / 100) ≤ 365 := by
  obtain ⟨e, he⟩ : ∃ e, n / 1460 = e := ⟨_, rfl⟩
  obtain ⟨g, hg⟩ : ∃ g, n / 36524 = g := ⟨_, rfl⟩
  obtain ⟨f, hf⟩ : ∃ f, n / 146096 = f := ⟨_, rfl⟩
  have hn : 1460 * e ≤ n ∧ n ≤ 1460 * e + 1459 := by omega
  have hg0 : 36524 * g ≤ n ∧ n ≤ 36524 * g + 36523 := by omega
  have hf0 : 146096 * f ≤ n ∧ n ≤ 146096 * f + 146095 := by omega
  rw [he, hg, hf]
  clear he hg hf
  have hgc : g = 0 ∨ g = 1 ∨ g = 2 ∨ g = 3 ∨ g = 4 := by omega
  rcases hgc with rfl | rfl | rfl | rfl | rfl
  · have hf : f = 0 := by omega
    have he0 : 0 ≤ e := by omega
    have he1 : e ≤ 25 := by omega
    subst hf
    interval_cases e <;> omega
  · have hf : f = 0 := by omega
    have he0 : 25 ≤ e := by omega
    have he1 : e ≤ 50 := by omega
    subst hf
    interval_cases e <;> omega
  · have hf : f = 0 := by omega
    have he0 : 50 ≤ e := by omega
    have he1 : e ≤ 75 := by omega
    subst hf
    interval_cases e <;> omega
  · have hf : f = 0 := by omega
    have he0 : 75 ≤ e := by omega
    have he1 : e ≤ 100 := by omega
    subst hf
    interval_cases e <;> omega
  · omega

theorem civil_roundtrip (z : Int) :
    daysFromCivil (civilFromDays z).1 (civilFromDays z).2.1 (civilFromDays z).2.2 = z ∧
    1 ≤ (civilFromDays z).2.1 ∧ (civilFromDays z).2.1 ≤ 12 ∧
    1 ≤ (civilFromDays z).2.2 ∧ (civilFromDays z).2.2 ≤ 31 := by
  have hb := yoe_bounds (z + 719468 - (z + 719468) / 146097 * 146097) (by omega) (by omega)
  simp only [daysFromCivil, civilFromDays]
  obtain ⟨hb1, hb2, hb3, hb4⟩ := hb
  generalize hy : (z + 719468 - (z + 719468) / 146097 * 146097
    - (z + 719468 - (z + 719468) / 146097 * 146097) / 1460
    + (z + 719468 - (z + 719468) / 146097 * 146097) / 36524
    - (z + 719468 - (z + 719468) / 146097 * 146097) / 146096) / 365 = yoe at hb1 hb2 hb3 hb4 ⊢
  generalize hd : z + 719468 - (z + 719468) / 146097 * 146097
    - (365 * yoe + yoe / 4 - yoe / 100) = doy at hb3 hb4 ⊢
  have hmp0 : 0 ≤ (5 * doy + 2) / 153 := by omega
  have hmp1 : (5 * doy + 2) / 153 ≤ 11 := by omega
  generalize hm : (5 * doy + 2) / 153 = mp at hmp0 hmp1 ⊢
  have hera : ∀ q : Int, (yoe + q * 400) / 400 = q := by intro q; omega
  have hera1 : ∀ q : Int, (yoe + q * 400 + 1 - 1) / 400 = q := by intro q; omega
  split_ifs <;>
    (try simp only [hera, hera1, add_sub_cancel_right, sub_add_cancel]) <;> omega

theorem daysFromCivil_day (year month day k : Int) :
    daysFromCivil year month (day + k) = daysFromCivil year month day + k := by
  simp only [daysFromCivil]
  omega

theorem timeDate_of_time (t k hour min sec : Int) :
    timeDate (timeYear t) (timeMonth t) (timeDay t + k) hour min sec
      = (dayOf t + k) * 86400 + hour * 3600 + min * 60 + sec := by
  obtain ⟨h1, h2, h3, _, _⟩ := civil_roundtrip (dayOf t)
  unfold timeDate timeYear timeMonth timeDay
  have hq : ((civilFromDays (dayOf t)).2.1 - 1) / 12 = 0 := by omega
  have hr : ((civilFromDays (dayOf t)).2.1 - 1) % 12 + 1 = (civilFromDays (dayOf t)).2.1 := by
    omega
  simp only [hq, hr, add_zero]
  have hd := daysFromCivil_day (civilFromDays (dayOf t)).1 (civilFromDays (dayOf t)).2.1
    (civilFromDays (dayOf t)).2.2 (1 - (civilFromDays (dayOf t)).2.2)
  rw [show (civilFromDays (dayOf t)).2.2 + (1 - (civilFromDays (dayOf t)).2.2) = 1 by ring, h1]
    at hd
  rw [hd]
  ring

theorem nextMidnight_eq (now : Int) : nextMidnight now = (dayOf now + 1) * 86400 := by
  unfold nextMidnight
  rw [timeDate_of_time]
  ring

theorem timeAddDate_days (t k : Int) : timeAddDate t 0 0 k = t + k * 86400 := by
  unfold timeAddDate
  simp only [add_zero]
  rw [timeDate_of_time]
  unfold dayOf timeHour timeMinute timeSecond
  omega

theorem yesterdayOf_eq (now : Int) :
    yesterdayOf now = renderDate (civilFromDays (dayOf now - 1)) := by
  unfold yesterdayOf
  rw [timeAddDate_days]
  unfold formatLayoutDate timeYear timeMonth timeDay
  have : dayOf (now + -1 * 86400) = dayOf now - 1 := by
    unfold dayOf
    omega
  rw [this]

/-- C15: the `nextMidnight` computed from the wall-clock time `now` is
00:00:00 of the calendar day following the day of `now` in the location of
`now`, is strictly later than `now` and at most 24 hours after it, and is where
the timer of the first daily fire is set; started at 2025-01-10 10:00:00 it is
2025-01-11 00:00:00. -/
theorem nextMidnight_spec (now : Int) :
    dayOf (nextMidnight now) = dayOf now + 1 ∧
    civilFromDays (dayOf (nextMidnight now)) = civilFromDays (dayOf now + 1) ∧
    timeHour (nextMidnight now) = 0 ∧ timeMinute (nextMidnight now) = 0 ∧
    timeSecond (nextMidnight now) = 0 ∧
    now < nextMidnight now ∧
    0 < durationUntilMidnight now ∧ durationUntilMidnight now ≤ 24 * 3600 ∧
    (startTimers now).timerAt = nextMidnight now ∧
    nextMidnight 1736503200 = 1736553600 ∧
    formatLayoutDate 1736503200 = "2025-01-10" ∧
    formatLayoutDate 1736553600 = "2025-01-11" := by
  have h := nextMidnight_eq now
  have hday : dayOf (nextMidnight now) = dayOf now + 1 := by
    rw [h]; unfold dayOf; omega
  refine ⟨hday, by rw [hday], ?_, ?_, ?_, ?_, ?_, ?_, ?_, by decide, by decide, by decide⟩
  · rw [h]; unfold timeHour dayOf; omega
  · rw [h]; unfold timeMinute dayOf; omega
  · rw [h]; unfold timeSecond dayOf; omega
  · rw [h]; unfold dayOf; omega
  · unfold durationUntilMidnight; rw [h]; unfold dayOf; omega
  · unfold durationUntilMidnight; rw [h]; unfold dayOf; omega
  · unfold startTimers durationUntilMidnight
    simp

/-! ## Properties: the scheduler -/

theorem selectTurn_date (preferTimer : Bool) (st : AggTimers) :
    (selectTurn preferTimer st).1.date
      = renderDate (civilFromDays (dayOf (selectTurn preferTimer st).1.instant - 1)) := by
  unfold selectTurn
  split <;> exact yesterdayOf_eq _

theorem aggregationLoop_date (prefer : Nat → Bool) (turns i : Nat) (st : AggTimers) :
    ∀ c ∈ aggregationLoop prefer i turns st,
      c.date = renderDate (civilFromDays (dayOf c.instant - 1)) := by
  induction turns generalizing i st with
  | zero => intro c hc; simp [aggregationLoop] at hc
  | succ n ih =>
    intro c hc
    rw [aggregationLoop, List.mem_cons] at hc
    rcases hc with hc | hc
    · rw [hc]; exact selectTurn_date _ _
    · exact ih _ _ c hc

/-- C16: on every call of `aggregateDailyStats` by the scheduler, from the
timer branch and from the ticker branch alike, the date passed is the calendar
day immediately preceding the calendar day of the instant of the call, rendered
as `YYYY-MM-DD`. -/
theorem runDailyAggregation_passes_yesterday (prefer : Nat → Bool) (now : Int) (turns : Nat)
    (c : AggCall) (hc : c ∈ runDailyAggregation prefer now turns) :
    c.date = renderDate (civilFromDays (dayOf c.instant - 1)) ∧
    c.date = yesterdayOf c.instant := by
  have h := aggregationLoop_date prefer turns 0 (startTimers now) c hc
  exact ⟨h, by rw [h, yesterdayOf_eq]⟩

theorem runDailyAggregation_passes_yesterday_witness :
    "2025-01-10" = renderDate (civilFromDays (dayOf 1736589600 - 1)) ∧
    "2025-01-10" = yesterdayOf 1736589600 :=
  runDailyAggregation_passes_yesterday (fun _ => true) 1736503200 2
    { instant := 1736589600, branch := AggBranch.ticker, date := "2025-01-10" } (by decide)

/-- C14, evaluated: started at 2025-01-10 10:00:00 the scheduler calls
`aggregateDailyStats` at midnight 2025-01-11 00:00:00 from the timer branch and
again at 2025-01-11 10:00:00 from the ticker branch, both times for
2025-01-10, and so on every day: two calls per calendar day, the second of
which is not a whole number of days after the first midnight. -/
theorem runDailyAggregation_fires_twice_a_day :
    runDailyAggregation (fun _ => true) 1736503200 4
      = [ { instant := 1736553600, branch := AggBranch.timer, date := "2025-01-10" },
          { instant := 1736589600, branch := AggBranch.ticker, date := "2025-01-10" },
          { instant := 1736640000, branch := AggBranch.timer, date := "2025-01-11" },
          { instant := 1736676000, branch := AggBranch.ticker, date := "2025-01-11" } ] ∧
    nextMidnight 1736503200 = 1736553600 ∧
    (1736589600 - nextMidnight 1736503200) % (24 * 3600) ≠ 0 := by
  decide

theorem runDailyAggregation_first_two (prefer : Nat → Bool) (now : Int) :
    (runDailyAggregation prefer now 2).length = 2 ∧
    (∃ c ∈ runDailyAggregation prefer now 2,
      c.instant = nextMidnight now ∧ c.branch = AggBranch.timer) ∧
    (∃ c ∈ runDailyAggregation prefer now 2,
      c.instant = now + 24 * 3600 ∧ c.branch = AggBranch.ticker) := by
  have h := nextMidnight_eq now
  have hlt : now < nextMidnight now := by rw [h]; unfold dayOf; omega
  have hle : nextMidnight now ≤ now + 24 * 3600 := by rw [h]; unfold dayOf; omega
  have ht : (startTimers now).timerAt = nextMidnight now := by
    unfold startTimers durationUntilMidnight; simp
  have hk : (startTimers now).tickerAt = now + 24 * 3600 := rfl
  simp only [runDailyAggregation, aggregationLoop, List.length_cons, List.length_nil,
    List.mem_cons, List.mem_singleton, List.not_mem_nil, or_false, exists_eq_or_imp,
    exists_eq_left]
  refine ⟨trivial, ?_, ?_⟩
  · unfold selectTurn
    rw [ht, hk]
    split_ifs
    all_goals simp_all
    all_goals omega
  · unfold selectTurn
    rw [ht, hk]
    split_ifs
    all_goals simp_all
    all_goals omega

/-! ## Properties: upsert by key -/

theorem upsertBy_find_same {α κ : Type} [DecidableEq κ] (key : α → κ) (merge : α → α → α)
    (tbl : List α) (new : α) (hkey : ∀ old, key (merge old new) = key old) :
    ∃ x, (upsertBy key merge tbl new).find? (fun r => decide (key r = key new)) = some x ∧
      (x = new ∨ ∃ old ∈ tbl, key old = key new ∧ x = merge old new) := by
  induction tbl with
  | nil => exact ⟨new, by simp [upsertBy], Or.inl rfl⟩
  | cons r rest ih =>
    unfold upsertBy
    by_cases hk : key r = key new
    · rw [if_pos hk]
      refine ⟨merge r new, ?_, Or.inr ⟨r, List.mem_cons_self _ _, hk, rfl⟩⟩
      simp [List.find?_cons, hkey r, hk]
    · rw [if_neg hk]
      obtain ⟨x, hx, hx2⟩ := ih
      refine ⟨x, by simp [List.find?_cons, hk, hx], ?_⟩
      rcases hx2 with hx2 | ⟨old, ho, ho2⟩
      · exact Or.inl hx2
      · exact Or.inr ⟨old, List.mem_cons_of_mem _ ho, ho2⟩

theorem upsertBy_find_other {α κ : Type} [DecidableEq κ] (key : α → κ) (merge : α → α → α)
    (tbl : List α) (new : α) (k : κ) (hkey : ∀ old, key (merge old new) = key old)
    (hk : key new ≠ k) :
    (upsertBy key merge tbl new).find? (fun r => decide (key r = k))
      = tbl.find? (fun r => decide (key r = k)) := by
  induction tbl with
  | nil => simp [upsertBy, hk]
  | cons r rest ih =>
    unfold upsertBy
    by_cases hr : key r = key new
    · rw [if_pos hr]
      have hrk : key r ≠ k := by rw [hr]; exact hk
      simp [List.find?_cons, hkey r, hrk]
    · rw [if_neg hr]
      by_cases hrk : key r = k
      · simp [List.find?_cons, hrk]
      · simp [List.find?_cons, hrk, ih]

theorem upsertBy_keys {α κ : Type} [DecidableEq κ] (key : α → κ) (merge : α → α → α)
    (tbl : List α) (new : α) (hkey : ∀ old, key (merge old new) = key old) :
    (upsertBy key merge tbl new).map key
      = if key new ∈ tbl.map key then tbl.map key else tbl.map key ++ [key new] := by
  induction tbl with
  | nil => simp [upsertBy]
  | cons r rest ih =>
    unfold upsertBy
    by_cases hk : key r = key new
    · rw [if_pos hk]
      simp [hkey r, hk]
    · rw [if_neg hk, List.map_cons, ih]
      have hk1 : ¬ key new = key r := fun e => hk e.symm
      by_cases hm : key new ∈ rest.map key
      · simp [hm]
      · simp [hm, hk1]

theorem upsertBy_nodup {α κ : Type} [DecidableEq κ] (key : α → κ) (merge : α → α → α)
    (tbl : List α) (new : α) (hkey : ∀ old, key (merge old new) = key old)
    (h : (tbl.map key).Nodup) : ((upsertBy key merge tbl new).map key).Nodup := by
  rw [upsertBy_keys key merge tbl new hkey]
  split
  · exact h
  · rename_i hm
    refine List.Nodup.append h (by simp) ?_
    intro k hk1 hk2
    simp only [List.mem_singleton] at hk2
    exact hm (hk2 ▸ hk1)

theorem foldl_upsertBy_find_other {α κ : Type} [DecidableEq κ] (key : α → κ)
    (merge : α → α → α) (rows tbl : List α) (k : κ)
    (hkey : ∀ old new, key (merge old new) = key old) (h : ∀ n ∈ rows, key n ≠ k) :
    (rows.foldl (upsertBy key merge) tbl).find? (fun r => decide (key r = k))
      = tbl.find? (fun r => decide (key r = k)) := by
  induction rows generalizing tbl with
  | nil => rfl
  | cons n rest ih =>
    rw [List.foldl_cons, ih _ (fun x hx => h x (List.mem_cons_of_mem _ hx)),
      upsertBy_find_other key merge tbl n k (fun old => hkey old n)
        (h n (List.mem_cons_self _ _))]

theorem foldl_upsertBy_nodup {α κ : Type} [DecidableEq κ] (key : α → κ)
    (merge : α → α → α) (rows tbl : List α)
    (hkey : ∀ old new, key (merge old new) = key old) (h : (tbl.map key).Nodup) :
    ((rows.foldl (upsertBy key merge) tbl).map key).Nodup := by
  induction rows generalizing tbl with
  | nil => exact h
  | cons n rest ih =>
    rw [List.foldl_cons]
    exact ih _ (upsertBy_nodup key merge tbl n (fun old => hkey old n) h)

theorem foldl_upsertBy_find_mem {α κ : Type} [DecidableEq κ] (key : α → κ)
    (merge : α → α → α) (rows tbl : List α) (new : α)
    (hkey : ∀ old new, key (merge old new) = key old)
    (hnd : (rows.map key).Nodup) (hmem : new ∈ rows) :
    ∃ x, (rows.foldl (upsertBy key merge) tbl).find? (fun r => decide (key r = key new))
        = some x ∧
      (x = new ∨ ∃ old, key old = key new ∧ x = merge old new) := by
  induction rows generalizing tbl with
  | nil => simp at hmem
  | cons n rest ih =>
    simp only [List.map_cons, List.nodup_cons] at hnd
    rw [List.foldl_cons]
    rcases List.mem_cons.mp hmem with hm | hm
    · subst hm
      rw [foldl_upsertBy_find_other key merge rest _ _ hkey
        (fun x hx e => hnd.1 (by rw [← e]; exact List.mem_map_of_mem key hx))]
      obtain ⟨x, hx, hx2⟩ := upsertBy_find_same key merge tbl new (fun old => hkey old new)
      refine ⟨x, hx, ?_⟩
      rcases hx2 with hx2 | ⟨old, _, ho⟩
      · exact Or.inl hx2
      · exact Or.inr ⟨old, ho⟩
    · exact ih _ hnd.2 hm

/-! ## Properties: the daily rollup -/

theorem statKey_merge (old new : DailyStatRow) :
    statKey (mergeDailyStat old new) = statKey old := rfl

theorem mergeDailyStat_eq (old new : DailyStatRow) (h : statKey old = statKey new) :
    mergeDailyStat old new = new := by
  cases old
  cases new
  simp only [statKey, Prod.mk.injEq] at h
  simp [mergeDailyStat, h.1, h.2]

theorem selectDailyStats_keys (now : Nat) (accidents : AccidentTable) (date : String) :
    (selectDailyStats now accidents date).map statKey
      = ((accidents.filter (fun r => decide (sqlDate r.created_at = date))).map
          (fun r => (sqlDate r.created_at, r.acc_type))).dedup := by
  unfold selectDailyStats
  simp only [List.map_map]
  conv_rhs => rw [← List.map_id (List.dedup _)]
  apply List.map_congr_left
  intro g _
  rfl

theorem selectDailyStats_nodup (now : Nat) (accidents : AccidentTable) (date : String) :
    ((selectDailyStats now accidents date).map statKey).Nodup := by
  rw [selectDailyStats_keys]
  exact List.nodup_dedup _

theorem selectDailyStats_key_mem (now : Nat) (accidents : AccidentTable)
    (date d accType : String) :
    (d, accType) ∈ (selectDailyStats now accidents date).map statKey
      ↔ d = date ∧ ingestedOn accidents date accType ≠ [] := by
  rw [selectDailyStats_keys, List.mem_dedup, List.mem_map]
  unfold ingestedOn
  constructor
  · rintro ⟨r, hr, hre⟩
    obtain ⟨hr1, hr2⟩ := List.mem_filter.mp hr
    obtain ⟨h1, h2⟩ := Prod.mk.inj hre
    have hd : sqlDate r.created_at = date := of_decide_eq_true hr2
    refine ⟨by rw [← h1, hd], ?_⟩
    intro hnil
    have : r ∈ accidents.filter (fun r => decide (sqlDate r.created_at = date)
        && decide (r.acc_type = accType)) :=
      List.mem_filter.mpr ⟨hr1, by simp [hd, h2]⟩
    rw [hnil] at this
    simp at this
  · rintro ⟨hd, hne⟩
    obtain ⟨r, hr⟩ := List.exists_mem_of_ne_nil _ hne
    obtain ⟨hr1, hr2⟩ := List.mem_filter.mp hr
    simp only [Bool.and_eq_true, decide_eq_true_eq] at hr2
    exact ⟨r, List.mem_filter.mpr ⟨hr1, by simp [hr2.1]⟩, by rw [hr2.1, hr2.2, hd]⟩

theorem selectDailyStats_row_mem (now : Nat) (accidents : AccidentTable)
    (date accType : String) (h : ingestedOn accidents date accType ≠ []) :
    ({ stat_date := date, acc_type := accType,
       accident_count := (ingestedOn accidents date accType).length,
       updated_at := now } : DailyStatRow) ∈ selectDailyStats now accidents date := by
  have hk := (selectDailyStats_key_mem now accidents date date accType).mpr ⟨rfl, h⟩
  rw [selectDailyStats_keys] at hk
  unfold selectDailyStats
  apply List.mem_map.mpr
  refine ⟨(date, accType), hk, ?_⟩
  have hf : (accidents.filter (fun r => decide (sqlDate r.created_at = date))).filter
      (fun r => decide ((sqlDate r.created_at, r.acc_type) = (date, accType)))
      = ingestedOn accidents date accType := by
    unfold ingestedOn
    rw [List.filter_filter]
    apply List.filter_congr
    intro x _
    by_cases h1 : sqlDate x.created_at = date <;> by_cases h2 : x.acc_type = accType <;>
      simp [h1, h2]
  simp only [hf]

theorem aggregateDailyStats_statAt (now : Nat) (accidents : AccidentTable)
    (stats : List DailyStatRow) (date accType : String)
    (h : ingestedOn accidents date accType ≠ []) :
    statAt (aggregateDailyStats none now accidents stats date).1 date accType
      = some { stat_date := date, acc_type := accType,
               accident_count := (ingestedOn accidents date accType).length,
               updated_at := now } := by
  obtain ⟨x, hx, hx2⟩ := foldl_upsertBy_find_mem statKey mergeDailyStat
    (selectDailyStats now accidents date) stats _ statKey_merge
    (selectDailyStats_nodup now accidents date)
    (selectDailyStats_row_mem now accidents date accType h)
  have hxe : x = (⟨date, accType, (ingestedOn accidents date accType).length, now⟩ :
      DailyStatRow) := by
    rcases hx2 with hx2 | ⟨old, ho, ho2⟩
    · exact hx2
    · rw [ho2, mergeDailyStat_eq old _ ho]
  rw [hxe] at hx
  exact hx

theorem aggregateDailyStats_untouched (now : Nat) (accidents : AccidentTable)
    (stats : List DailyStatRow) (date d accType : String)
    (h : d ≠ date ∨ ingestedOn accidents date accType = []) :
    statAt (aggregateDailyStats none now accidents stats date).1 d accType
      = statAt stats d accType := by
  simp only [aggregateDailyStats, statAt]
  apply foldl_upsertBy_find_other statKey mergeDailyStat _ _ _ statKey_merge
  intro n hn hkey
  have hk : (d, accType) ∈ (selectDailyStats now accidents date).map statKey := by
    rw [← hkey]; exact List.mem_map_of_mem statKey hn
  obtain ⟨h1, h2⟩ := (selectDailyStats_key_mem now accidents date d accType).mp hk
  rcases h with h | h
  · exact h h1
  · exact h2 h

/-- C12, as stated, fails: the rollup counts by the date of the ingestion
timestamp `created_at`, not by the occurrence date. In `refreshedIncidents` the
only incident that occurred on 2025-01-10 is of type A, yet the rollup for
2025-01-10 on an empty statistics table stores no row for type A and stores the
row (2025-01-10, B, 1) for a type with no incident of that occurrence date. -/
theorem aggregateDailyStats_counts_by_ingestion :
    (occurredOn refreshedIncidents "2025-01-10" "A").length = 1 ∧
    (occurredOn refreshedIncidents "2025-01-10" "B").length = 0 ∧
    (aggregateDailyStats none 1736553600 refreshedIncidents [] "2025-01-10").2 = none ∧
    statAt (aggregateDailyStats none 1736553600 refreshedIncidents [] "2025-01-10").1
      "2025-01-10" "A" = none ∧
    statTriples (aggregateDailyStats none 1736553600 refreshedIncidents [] "2025-01-10").1
      = [("2025-01-10", "B", 1)] := by
  decide

/-- C12, amended: after `aggregateDailyStats(D)` (executed by the store) the
daily statistics hold, for each incident type t with at least one incident row
whose ingestion timestamp `created_at` falls on D, the row (D, t, n) where n is
the number of incident rows of type t whose `created_at` falls on D; the rows
for D of every other type, and the rows of every other date, are left as they
were, so with no prior row for D there is no row for D with any other type.
Incidents ingested on 2025-01-10 with types A (3) and B (2) and no prior rows
yield exactly (2025-01-10, A, 3) and (2025-01-10, B, 2). -/
theorem aggregateDailyStats_counts (now : Nat) (accidents : AccidentTable)
    (stats : List DailyStatRow) (date accType : String) :
    (aggregateDailyStats none now accidents stats date).2 = none ∧
    (ingestedOn accidents date accType ≠ [] →
      statAt (aggregateDailyStats none now accidents stats date).1 date accType
        = some { stat_date := date, acc_type := accType,
                 accident_count := (ingestedOn accidents date accType).length,
                 updated_at := now }) ∧
    (ingestedOn accidents date accType = [] →
      statAt (aggregateDailyStats none now accidents stats date).1 date accType
        = statAt stats date accType) ∧
    (∀ d, d ≠ date →
      statAt (aggregateDailyStats none now accidents stats date).1 d accType
        = statAt stats d accType) ∧
    statTriples (aggregateDailyStats none 1736553600 tenthOfJanuary [] "2025-01-10").1
      = [("2025-01-10", "A", 3), ("2025-01-10", "B", 2)] :=
  ⟨rfl, aggregateDailyStats_statAt now accidents stats date accType,
    fun h => aggregateDailyStats_untouched now accidents stats date date accType (Or.inr h),
    fun d hd => aggregateDailyStats_untouched now accidents stats date d accType (Or.inl hd),
    by decide⟩

theorem aggregateDailyStats_counts_witness :
    statAt (aggregateDailyStats none 1736553600 tenthOfJanuary [] "2025-01-10").1
        "2025-01-10" "A"
      = some { stat_date := "2025-01-10", acc_type := "A",
               accident_count := (ingestedOn tenthOfJanuary "2025-01-10" "A").length,
               updated_at := 1736553600 } ∧
    statAt (aggregateDailyStats none 1736553600 tenthOfJanuary [] "2025-01-10").1
        "2025-01-10" "C" = statAt [] "2025-01-10" "C" ∧
    statAt (aggregateDailyStats none 1736553600 tenthOfJanuary [] "2025-01-10").1
        "2025-01-09" "A" = statAt [] "2025-01-09" "A" :=
  ⟨(aggregateDailyStats_counts 1736553600 tenthOfJanuary [] "2025-01-10" "A").2.1 (by decide),
   (aggregateDailyStats_counts 1736553600 tenthOfJanuary [] "2025-01-10" "C").2.2.1 (by decide),
   (aggregateDailyStats_counts 1736553600 tenthOfJanuary [] "2025-01-10" "A").2.2.2.1
     "2025-01-09" (by decide)⟩

theorem upsertDailyStat_triples (tbl : List DailyStatRow) (new old : DailyStatRow)
    (hf : tbl.find? (fun r => decide (statKey r = statKey new)) = some old)
    (hc : old.accident_count = new.accident_count) :
    statTriples (upsertBy statKey mergeDailyStat tbl new) = statTriples tbl := by
  induction tbl with
  | nil => simp at hf
  | cons r rest ih =>
    unfold upsertBy
    by_cases hk : statKey r = statKey new
    · rw [if_pos hk]
      simp only [List.find?_cons, hk, decide_True, Option.some.injEq] at hf
      subst hf
      simp [statTriples, mergeDailyStat, hc]
    · rw [if_neg hk]
      simp only [List.find?_cons, hk, decide_False] at hf
      have := ih hf
      simp only [statTriples, List.map_cons] at this ⊢
      rw [this]

theorem foldl_upsertDailyStat_triples (rows tbl : List DailyStatRow)
    (hnd : (rows.map statKey).Nodup)
    (h : ∀ n ∈ rows, ∃ old, tbl.find? (fun r => decide (statKey r = statKey n)) = some old ∧
      old.accident_count = n.accident_count) :
    statTriples (rows.foldl (upsertBy statKey mergeDailyStat) tbl) = statTriples tbl := by
  induction rows generalizing tbl with
  | nil => rfl
  | cons n rest ih =>
    simp only [List.map_cons, List.nodup_cons] at hnd
    obtain ⟨old, ho, hc⟩ := h n (List.mem_cons_self _ _)
    rw [List.foldl_cons, ih _ hnd.2, upsertDailyStat_triples tbl n old ho hc]
    intro m hm
    have hne : statKey n ≠ statKey m := fun e =>
      hnd.1 (by rw [e]; exact List.mem_map_of_mem statKey hm)
    rw [upsertBy_find_other statKey mergeDailyStat tbl n (statKey m)
      (fun old => statKey_merge old n) hne]
    exact h m (List.mem_cons_of_mem _ hm)

theorem selectDailyStats_other_now (now1 now2 : Nat) (accidents : AccidentTable)
    (date : String) :
    ∀ m ∈ selectDailyStats now2 accidents date, ∃ n ∈ selectDailyStats now1 accidents date,
      statKey n = statKey m ∧ n.accident_count = m.accident_count := by
  intro m hm
  unfold selectDailyStats at hm ⊢
  obtain ⟨g, hg, hge⟩ := List.mem_map.mp hm
  exact ⟨_, List.mem_map.mpr ⟨g, hg, rfl⟩, by rw [← hge]; rfl, by rw [← hge]⟩

/-- C13: the daily rollup is idempotent per date: running
`aggregateDailyStats(D)` a second time on the same incident table (whatever the
store does to the second run) leaves the same (date, type, count) rows as the
first run left, in the same order, and a statistics table with one row per
(date, type) still has one row per (date, type). -/
theorem aggregateDailyStats_idempotent (now1 now2 : Nat) (fault2 : Option String)
    (accidents : AccidentTable) (stats : List DailyStatRow) (date : String) :
    statTriples (aggregateDailyStats fault2 now2 accidents
        (aggregateDailyStats none now1 accidents stats date).1 date).1
      = statTriples (aggregateDailyStats none now1 accidents stats date).1 ∧
    ((stats.map statKey).Nodup →
      ((aggregateDailyStats none now1 accidents stats date).1.map statKey).Nodup) ∧
    ((aggregateDailyStats none now1 accidents [] date).1.map statKey).Nodup := by
  refine ⟨?_, fun h => foldl_upsertBy_nodup statKey mergeDailyStat _ stats statKey_merge h,
    foldl_upsertBy_nodup statKey mergeDailyStat _ [] statKey_merge (by simp)⟩
  cases fault2 with
  | some e => rfl
  | none =>
    simp only [aggregateDailyStats]
    apply foldl_upsertDailyStat_triples _ _ (selectDailyStats_nodup now2 accidents date)
    intro m hm
    obtain ⟨n, hn, hk, hc⟩ := selectDailyStats_other_now now1 now2 accidents date m hm
    obtain ⟨x, hx, hx2⟩ := foldl_upsertBy_find_mem statKey mergeDailyStat
      (selectDailyStats now1 accidents date) stats n statKey_merge
      (selectDailyStats_nodup now1 accidents date) hn
    refine ⟨x, by rw [← hk]; exact hx, ?_⟩
    rcases hx2 with hx2 | ⟨old, _, ho2⟩
    · rw [hx2]; exact hc
    · rw [ho2]; exact hc

theorem aggregateDailyStats_idempotent_witness :
    statTriples (aggregateDailyStats none 1736640000 tenthOfJanuary
        (aggregateDailyStats none 1736553600 tenthOfJanuary [] "2025-01-10").1
        "2025-01-10").1
      = [("2025-01-10", "A", 3), ("2025-01-10", "B", 2)] ∧
    ((aggregateDailyStats none 1736553600 tenthOfJanuary [] "2025-01-10").1.map
      statKey).Nodup :=
  ⟨((aggregateDailyStats_idempotent 1736553600 1736640000 none tenthOfJanuary []
      "2025-01-10").1).trans (by decide),
   (aggregateDailyStats_idempotent 1736553600 1736640000 none tenthOfJanuary []
      "2025-01-10").2.1 (by decide)⟩

/-! ## Properties: `publishToStream` -/

theorem publishToStream_of_ok (marshal : List RealTimeSMS → Option String)
    (newID : String) (unixNow : Int) (dataSourceMode : String) (stream : List XMessage)
    (data : APIResponse) (jsonData : String) (hne : data.RealTimeSMSList ≠ [])
    (hjson : marshal data.RealTimeSMSList = some jsonData) :
    publishToStream marshal none newID unixNow dataSourceMode stream data
      = (stream ++ [{ ID := newID
                      Values := [("data", FieldValue.str jsonData),
                                 ("timestamp", FieldValue.int unixNow),
                                 ("source", FieldValue.str dataSourceMode)] }], none) := by
  unfold publishToStream
  have hl : ¬ data.RealTimeSMSList.length = 0 := by
    rw [List.length_eq_zero]; exact hne
  simp only [hl, if_false, hjson]

/-- C17: `publishToStream` with an empty batch appends nothing and returns no
error; with a non-empty batch whose serialisation and append succeed it appends
exactly one entry, whose `data` field carries the serialisation of the whole
batch, and returns no error; whenever it returns an error the stream is left as
it was. -/
theorem publishToStream_spec (marshal : List RealTimeSMS → Option String)
    (xaddFault : Option String) (newID : String) (unixNow : Int) (dataSourceMode : String)
    (stream : List XMessage) (data : APIResponse) :
    (data.RealTimeSMSList = [] →
      publishToStream marshal xaddFault newID unixNow dataSourceMode stream data
        = (stream, none)) ∧
    (data.RealTimeSMSList ≠ [] → xaddFault = none →
      ∀ jsonData, marshal data.RealTimeSMSList = some jsonData →
        ∃ entry,
          publishToStream marshal xaddFault newID unixNow dataSourceMode stream data
            = (stream ++ [entry], none) ∧
          entry.ID = newID ∧ entry.field "data" = some (FieldValue.str jsonData)) ∧
    ((publishToStream marshal xaddFault newID unixNow dataSourceMode stream data).2 ≠ none →
      (publishToStream marshal xaddFault newID unixNow dataSourceMode stream data).1
        = stream) := by
  refine ⟨?_, ?_, ?_⟩
  · intro h
    simp [publishToStream, h]
  · intro hne hf jsonData hjson
    subst hf
    exact ⟨_, publishToStream_of_ok marshal newID unixNow dataSourceMode stream data
      jsonData hne hjson, rfl, by simp [XMessage.field, List.lookup]⟩
  · unfold publishToStream
    split
    · intro h; exact absurd rfl h
    · split
      · intro _; rfl
      · split
        · intro _; rfl
        · intro h; exact absurd rfl h

theorem publishToStream_spec_witness :
    publishToStream sampleMarshal none "2-0" 1736503200 "sim" [sampleMessage]
        { RealTimeSMSList := [] } = ([sampleMessage], none) ∧
    (∃ entry,
      publishToStream sampleMarshal none "2-0" 1736503200 "sim" [sampleMessage]
          { RealTimeSMSList := [sampleAccident, secondAccident] }
        = ([sampleMessage] ++ [entry], none) ∧
      entry.ID = "2-0" ∧ entry.field "data" = some (FieldValue.str "payload")) ∧
    (publishToStream sampleMarshal (some "connection reset") "2-0" 1736503200 "sim"
        [sampleMessage] { RealTimeSMSList := [sampleAccident] }).1 = [sampleMessage] :=
  ⟨(publishToStream_spec sampleMarshal none "2-0" 1736503200 "sim" [sampleMessage]
      { RealTimeSMSList := [] }).1 rfl,
   (publishToStream_spec sampleMarshal none "2-0" 1736503200 "sim" [sampleMessage]
      { RealTimeSMSList := [sampleAccident, secondAccident] }).2.1 (by decide) rfl
      "payload" rfl,
   (publishToStream_spec sampleMarshal (some "connection reset") "2-0" 1736503200 "sim"
      [sampleMessage] { RealTimeSMSList := [sampleAccident] }).2.2 (by decide)⟩

/-- C18, as stated, fails: the entry appended by `publishToStream` has the
fields `data`, `timestamp` and `source`; it has no field `payload` and no field
`published_at`. -/
theorem publishToStream_field_names :
    (publishToStream sampleMarshal none "2-0" 1736503200 "sim" []
        { RealTimeSMSList := [sampleAccident] }).1.map
      (fun entry => (entry.Values.map (fun kv => kv.1), entry.field "payload",
        entry.field "published_at"))
      = [(["data", "timestamp", "source"], none, none)] := by
  decide

/-- C18, amended: every stream entry appended by `publishToStream` has exactly
the three fields named `data` (the serialised batch of records), `timestamp`
(integer epoch seconds) and `source` (the source tag), and `processMessage`
reads the batch from the field `data` of the delivered entry: when the payload
decodes to the batch, it returns no error after one write attempt per record of
the batch, in order. -/
theorem publishToStream_entry_format (marshal : List RealTimeSMS → Option String)
    (unmarshal : String → Option (List RealTimeSMS)) (env : Nat → Option String × Nat)
    (db : AccidentTable) (newID : String) (unixNow : Int) (dataSourceMode : String)
    (stream : List XMessage) (data : APIResponse) (jsonData : String)
    (hne : data.RealTimeSMSList ≠ [])
    (hjson : marshal data.RealTimeSMSList = some jsonData)
    (hback : unmarshal jsonData = some data.RealTimeSMSList) :
    ∃ entry,
      (publishToStream marshal none newID unixNow dataSourceMode stream data).1
        = stream ++ [entry] ∧
      entry.Values = [("data", FieldValue.str jsonData), ("timestamp", FieldValue.int unixNow),
        ("source", FieldValue.str dataSourceMode)] ∧
      (processMessage unmarshal env db (deliver entry)).err = none ∧
      (processMessage unmarshal env db (deliver entry)).effects
        = writeAttempts newID data.RealTimeSMSList (fun i => (env i).1.isSome) := by
  refine ⟨_, by rw [publishToStream_of_ok marshal newID unixNow dataSourceMode stream data
    jsonData hne hjson], rfl, ?_, ?_⟩
  · have hfield : (deliver { ID := newID, Values := [("data", FieldValue.str jsonData),
        ("timestamp", FieldValue.int unixNow),
        ("source", FieldValue.str dataSourceMode)] }).field "data"
        = some (FieldValue.str jsonData) := by
      simp [deliver, XMessage.field, List.lookup]
    unfold processMessage
    simp only [hfield, hback]
  · have hfield : (deliver { ID := newID, Values := [("data", FieldValue.str jsonData),
        ("timestamp", FieldValue.int unixNow),
        ("source", FieldValue.str dataSourceMode)] }).field "data"
        = some (FieldValue.str jsonData) := by
      simp [deliver, XMessage.field, List.lookup]
    have h3 := (upsertLoop_spec env newID data.RealTimeSMSList 0
      { db := db, processedCount := 0, effects := [] }).2.2
    unfold processMessage
    simp only [hfield, hback]
    simpa [writeAttempts, deliver] using h3

theorem publishToStream_entry_format_witness :
    ∃ entry,
      (publishToStream sampleMarshal none "2-0" 1736503200 "sim" []
          { RealTimeSMSList := [sampleAccident, undatedAccident, secondAccident] }).1
        = [] ++ [entry] ∧
      entry.Values = [("data", FieldValue.str "payload"),
        ("timestamp", FieldValue.int 1736503200), ("source", FieldValue.str "sim")] ∧
      (processMessage sampleUnmarshal calmEnv [] (deliver entry)).err = none ∧
      (processMessage sampleUnmarshal calmEnv [] (deliver entry)).effects
        = writeAttempts "2-0" [sampleAccident, undatedAccident, secondAccident]
            (fun i => (calmEnv i).1.isSome) :=
  publishToStream_entry_format sampleMarshal sampleUnmarshal calmEnv [] "2-0" 1736503200
    "sim" [] { RealTimeSMSList := [sampleAccident, undatedAccident, secondAccident] }
    "payload" (by decide) rfl rfl

/-! ## Properties: `initConsumerGroup` -/

/-- C19: `initConsumerGroup` returns no error when the group-create call
succeeds and also when that call reports that the group already exists, and
returns the error of every other failure of the call; so, absent a fault, a
second call succeeds like the first and leaves the groups as they were. -/
theorem initConsumerGroup_spec (fault : Option String) (groups : List (String × String))
    (streamKey consumerGroup : String) :
    (fault = none →
      (initConsumerGroup fault groups streamKey consumerGroup).2 = none ∧
      (streamKey, consumerGroup)
        ∈ (initConsumerGroup fault groups streamKey consumerGroup).1) ∧
    (fault = some busyGroup →
      (initConsumerGroup fault groups streamKey consumerGroup).2 = none) ∧
    (∀ err, fault = some err → err ≠ busyGroup →
      (initConsumerGroup fault groups streamKey consumerGroup).2 = some err) ∧
    initConsumerGroup none (initConsumerGroup none groups streamKey consumerGroup).1
        streamKey consumerGroup
      = ((initConsumerGroup none groups streamKey consumerGroup).1, none) := by
  have hnone : (initConsumerGroup none groups streamKey consumerGroup).2 = none ∧
      (streamKey, consumerGroup)
        ∈ (initConsumerGroup none groups streamKey consumerGroup).1 := by
    unfold initConsumerGroup xGroupCreateMkStream
    by_cases hm : (streamKey, consumerGroup) ∈ groups
    · simp [hm]
    · simp [hm]
  refine ⟨fun h => by subst h; exact hnone, ?_, ?_, ?_⟩
  · intro h
    subst h
    simp [initConsumerGroup, xGroupCreateMkStream]
  · intro err h hne
    subst h
    simp [initConsumerGroup, xGroupCreateMkStream, hne]
  · have hm := hnone.2
    generalize (initConsumerGroup none groups streamKey consumerGroup).1 = g1 at hm ⊢
    simp [initConsumerGroup, xGroupCreateMkStream, hm]

theorem initConsumerGroup_spec_witness :
    ((initConsumerGroup none [("traffic-stream", "processor-group")] "traffic-stream"
        "processor-group").2 = none ∧
      ("traffic-stream", "processor-group")
        ∈ (initConsumerGroup none [("traffic-stream", "processor-group")] "traffic-stream"
            "processor-group").1) ∧
    (initConsumerGroup (some busyGroup) [] "traffic-stream" "processor-group").2 = none ∧
    (initConsumerGroup (some "NOAUTH Authentication required") [] "traffic-stream"
        "processor-group").2 = some "NOAUTH Authentication required" :=
  ⟨(initConsumerGroup_spec none [("traffic-stream", "processor-group")] "traffic-stream"
      "processor-group").1 rfl,
   (initConsumerGroup_spec (some busyGroup) [] "traffic-stream" "processor-group").2.1 rfl,
   (initConsumerGroup_spec (some "NOAUTH Authentication required") [] "traffic-stream"
      "processor-group").2.2.1 "NOAUTH Authentication required" rfl (by decide)⟩

/-! ## Properties: empty numeric fields -/

theorem roadStatusKey_merge (old new : RoadStatusRow) :
    roadStatusKey (mergeRoadStatus old new) = roadStatusKey old := rfl

theorem tollgateKey_merge (old new : TollgateRow) :
    tollgateKey (mergeTollgate old new) = tollgateKey old := rfl

/-- C20: empty-string numeric fields are stored as zero. When the reported
date and time parse and the store executes the statement, the row that
`saveRoadStatus` leaves under the record's key holds, for each of traffic
amount, speed, share ratio, time average and grade, the store's reading of
`"0"` when the reported string is empty and of the reported string unchanged
otherwise (these are the values bound to the statement), and the row that
`saveTollgateTraffic` leaves under the record's key holds `"0"` as traffic
amount when the reported string is empty and the reported string unchanged
otherwise. -/
theorem save_empty_as_zero (parseInLocation : String → Option Nat) (toNumber : String → ℚ)
    (toInteger : String → Int) (now : Nat) (roadDb : List RoadStatusRow)
    (status : RoadTrafficStatus) (tollDb : List TollgateRow) (traffic : TollgateTraffic)
    (t1 t2 : Nat)
    (hp1 : parseInLocation (status.StdDate ++ " " ++ status.StdHour) = some t1)
    (hp2 : parseInLocation (traffic.SumDate ++ " " ++ traffic.SumTm) = some t2) :
    (roadStatusParams status).trafficAmount
      = (if status.TrafficAmount = "" then "0" else status.TrafficAmount) ∧
    (roadStatusParams status).speed = (if status.Speed = "" then "0" else status.Speed) ∧
    (roadStatusParams status).shareRatio
      = (if status.ShareRatio = "" then "0" else status.ShareRatio) ∧
    (roadStatusParams status).timeAvg
      = (if status.TimeAvg = "" then "0" else status.TimeAvg) ∧
    (roadStatusParams status).grade = (if status.Grade = "" then "0" else status.Grade) ∧
    (∃ row,
      (saveRoadStatus parseInLocation toNumber toInteger none roadDb status).1.find?
          (fun r => decide (roadStatusKey r
            = (status.RouteNo, status.ConzoneID, status.UpdownTypeCode, t1))) = some row ∧
      row.traffic_amount
        = toNumber (if status.TrafficAmount = "" then "0" else status.TrafficAmount) ∧
      row.speed = toNumber (if status.Speed = "" then "0" else status.Speed) ∧
      row.share_ratio = toNumber (if status.ShareRatio = "" then "0" else status.ShareRatio) ∧
      row.time_avg = toNumber (if status.TimeAvg = "" then "0" else status.TimeAvg) ∧
      row.grade = toInteger (if status.Grade = "" then "0" else status.Grade)) ∧
    (∃ row,
      (saveTollgateTraffic parseInLocation none now tollDb traffic).1.find?
          (fun r => decide (tollgateKey r = (traffic.UnitCode, t2))) = some row ∧
      row.traffic_amount
        = (if traffic.TrafficAmount = "" then "0" else traffic.TrafficAmount)) := by
  refine ⟨rfl, rfl, rfl, rfl, rfl, ?_, ?_⟩
  · simp only [saveRoadStatus, hp1]
    obtain ⟨x, hx, hx2⟩ := upsertBy_find_same roadStatusKey mergeRoadStatus roadDb
      { route_no := status.RouteNo
        route_name := status.RouteName
        conzone_id := status.ConzoneID
        conzone_name := status.ConzoneName
        vds_id := status.VdsID
        updown_type_code := status.UpdownTypeCode
        traffic_amount := toNumber (roadStatusParams status).trafficAmount
        speed := toNumber (roadStatusParams status).speed
        share_ratio := toNumber (roadStatusParams status).shareRatio
        time_avg := toNumber (roadStatusParams status).timeAvg
        grade := toInteger (roadStatusParams status).grade
        collected_at := t1 } (fun old => roadStatusKey_merge old _)
    refine ⟨x, hx, ?_⟩
    rcases hx2 with hx2 | ⟨old, _, _, hx2⟩
    · rw [hx2]; exact ⟨rfl, rfl, rfl, rfl, rfl⟩
    · rw [hx2]; exact ⟨rfl, rfl, rfl, rfl, rfl⟩
  · simp only [saveTollgateTraffic, hp2]
    obtain ⟨x, hx, hx2⟩ := upsertBy_find_same tollgateKey mergeTollgate tollDb
      { ex_div_code := traffic.ExDivCode
        ex_div_name := traffic.ExDivName
        unit_code := traffic.UnitCode
        unit_name := traffic.UnitName
        inout_type := traffic.InoutType
        inout_name := traffic.InoutName
        tm_type := traffic.TmType
        tm_name := traffic.TmName
        tcs_type := traffic.TcsType
        tcs_name := traffic.TcsName
        car_type := traffic.CarType
        traffic_amount := if traffic.TrafficAmount = "" then "0" else traffic.TrafficAmount
        sum_date := traffic.SumDate
        sum_tm := traffic.SumTm
        collected_at := t2
        created_at := now } (fun old => tollgateKey_merge old _)
    refine ⟨x, hx, ?_⟩
    rcases hx2 with hx2 | ⟨old, _, _, hx2⟩
    · rw [hx2]
    · rw [hx2]; rfl

theorem save_empty_as_zero_witness :
    (roadStatusParams sampleRoadStatus).speed = "0" ∧
    (roadStatusParams sampleRoadStatus).trafficAmount = "120" ∧
    (∃ row,
      (saveTollgateTraffic sampleParse none 50 [] sampleTollgate).1.find?
          (fun r => decide (tollgateKey r = ("101", 1736503200))) = some row ∧
      row.traffic_amount = "0") := by
  have h := save_empty_as_zero sampleParse (fun _ => 0) (fun _ => 0) 50 [] sampleRoadStatus
    [] sampleTollgate 1736503200 1736503200 rfl rfl
  exact ⟨h.2.1, h.1, h.2.2.2.2.2.2⟩

/-! ## Properties: normalisation as a digit prefix -/

theorem filter_take_digits (l : List Char) (n : Nat) :
    ((l.filter isDigitRune).take n).filter isDigitRune = (l.filter isDigitRune).take n := by
  apply List.filter_eq_self.mpr
  intro c hc
  exact (List.mem_filter.mp (List.mem_of_mem_take hc)).2

/-- C23: for every string, `formatDate` returns ASCII digits only, namely the
first min(8, n) characters of the subsequence of the ASCII digits of the input
taken in order, n being their number, and `formatHour` likewise the first
min(4, n); the result is a subsequence of the input, so every other character
(non-ASCII ones included) is removed and no digit is reordered or invented. -/
theorem format_digit_prefix (s : String) :
    (∀ c ∈ (formatDate s).toList, isDigitRune c = true) ∧
    (formatDate s).toList
      = (s.toList.filter isDigitRune).take (min 8 (s.toList.filter isDigitRune).length) ∧
    (formatDate s).length = min 8 (s.toList.filter isDigitRune).length ∧
    (formatDate s).toList.Sublist s.toList ∧
    (∀ c ∈ (formatHour s).toList, isDigitRune c = true) ∧
    (formatHour s).toList
      = (s.toList.filter isDigitRune).take (min 4 (s.toList.filter isDigitRune).length) ∧
    (formatHour s).length = min 4 (s.toList.filter isDigitRune).length ∧
    (formatHour s).toList.Sublist s.toList ∧
    formatDate "2025年01月10日 ２５" = "20250110" ∧ formatHour "7時5分" = "75" := by
  have hd := formatDate_toList s
  have hh := formatHour_toList s
  have hdl : (formatDate s).length = ((s.toList.filter isDigitRune).take 8).length :=
    congrArg List.length hd
  have hhl : (formatHour s).length = ((s.toList.filter isDigitRune).take 4).length :=
    congrArg List.length hh
  rw [List.length_take] at hdl hhl
  refine ⟨?_, ?_, hdl, ?_, ?_, ?_, hhl, ?_, by decide, by decide⟩
  · intro c hc
    rw [hd] at hc
    exact (List.mem_filter.mp (List.mem_of_mem_take hc)).2
  · rw [hd, List.take_eq_take]
    simp
  · rw [hd]
    exact (List.take_sublist _ _).trans (List.filter_sublist _)
  · intro c hc
    rw [hh] at hc
    exact (List.mem_filter.mp (List.mem_of_mem_take hc)).2
  · rw [hh, List.take_eq_take]
    simp
  · rw [hh]
    exact (List.take_sublist _ _).trans (List.filter_sublist _)

/-- C25: `formatDate` and `formatHour` are idempotent. -/
theorem format_idempotent (s : String) :
    formatDate (formatDate s) = formatDate s ∧ formatHour (formatHour s) = formatHour s := by
  constructor
  · apply string_eq_of_toList
    rw [formatDate_toList (formatDate s), formatDate_toList s, filter_take_digits,
      List.take_take]
    simp
  · apply string_eq_of_toList
    rw [formatHour_toList (formatHour s), formatHour_toList s, filter_take_digits,
      List.take_take]
    simp

/-- C24: the natural key is computed from the normalised date and time, so two
records with the same location label and description whose date strings have
the same first 8 digits and whose time strings have the same first 4 digits
have the same natural key, and the second, written after the first, is a
re-sight: `isDuplicate` holds for it and `insertAccident` adds no row and
changes `created_at` only. Times `07:05:09` and `07:05:45` normalise alike, as
do dates `2025.01.10` and `20250110`. -/
theorem same_key_of_same_digits (a b : RealTimeSMS) (db : AccidentTable) (now1 now2 : Nat)
    (hpoint : a.AccPointNM = b.AccPointNM) (hinfo : a.AccInfo = b.AccInfo)
    (hdate : (a.AccDate.toList.filter isDigitRune).take 8
      = (b.AccDate.toList.filter isDigitRune).take 8)
    (hhour : (a.AccHour.toList.filter isDigitRune).take 4
      = (b.AccHour.toList.filter isDigitRune).take 4) :
    recordKey a = recordKey b ∧
    isDuplicate (insertAccident none now1 db a).1 b = true ∧
    (insertAccident none now2 (insertAccident none now1 db a).1 b).1.length
      = (insertAccident none now1 db a).1.length ∧
    (insertAccident none now2 (insertAccident none now1 db a).1 b).1.map withoutCreatedAt
      = (insertAccident none now1 db a).1.map withoutCreatedAt ∧
    formatHour "07:05:09" = formatHour "07:05:45" ∧
    formatDate "2025.01.10" = formatDate "20250110" := by
  have hd : formatDate a.AccDate = formatDate b.AccDate :=
    string_eq_of_toList _ _ (by rw [formatDate_toList, formatDate_toList, hdate])
  have hh : formatHour a.AccHour = formatHour b.AccHour :=
    string_eq_of_toList _ _ (by rw [formatHour_toList, formatHour_toList, hhour])
  have hkey : recordKey a = recordKey b := by
    unfold recordKey
    rw [hd, hh, hpoint, hinfo]
  have hmem : recordKey b ∈ (insertAccident none now1 db a).1.map naturalKey := by
    rw [← hkey]
    exact execUpsert_key_mem db (accidentRowOf now1 a)
  have hup := execUpsert_of_mem (insertAccident none now1 db a).1 (accidentRowOf now2 b) hmem
  refine ⟨hkey, (isDuplicate_iff _ b).mpr hmem, ?_, hup.2, by decide, by decide⟩
  have := congrArg List.length hup.1
  simpa [insertAccident] using this

theorem same_key_of_same_digits_witness :
    recordKey sampleAccident = recordKey resightedAccident ∧
    isDuplicate (insertAccident none 100 [] sampleAccident).1 resightedAccident = true ∧
    (insertAccident none 200 (insertAccident none 100 [] sampleAccident).1
        resightedAccident).1.length
      = (insertAccident none 100 [] sampleAccident).1.length :=
  have h := same_key_of_same_digits sampleAccident resightedAccident [] 100 200
    (by decide) (by decide) (by decide) (by decide)
  ⟨h.1, h.2.1, h.2.2.1⟩

/-! ## Properties: last write wins -/

theorem filter_key_length_one {α κ : Type} [DecidableEq κ] (key : α → κ) (tbl : List α)
    (k : κ) (hnd : (tbl.map key).Nodup) (hm : k ∈ tbl.map key) :
    (tbl.filter (fun r => decide (key r = k))).length = 1 := by
  induction tbl with
  | nil => simp at hm
  | cons r rest ih =>
    simp only [List.map_cons, List.nodup_cons] at hnd
    by_cases hk : key r = k
    · have hnil : rest.filter (fun r => decide (key r = k)) = [] := by
        rw [List.filter_eq_nil_iff]
        intro x hx hxk
        exact hnd.1 (by rw [hk, ← of_decide_eq_true hxk]; exact List.mem_map_of_mem key hx)
      simp [List.filter_cons, hk, hnil]
    · simp only [List.map_cons, List.mem_cons] at hm
      rcases hm with hm | hm
      · exact absurd hm.symm hk
      · simp [List.filter_cons, hk, ih hnd.2 hm]

theorem upsertBy_key_mem {α κ : Type} [DecidableEq κ] (key : α → κ) (merge : α → α → α)
    (tbl : List α) (new : α) (hkey : ∀ old, key (merge old new) = key old) :
    key new ∈ (upsertBy key merge tbl new).map key := by
  rw [upsertBy_keys key merge tbl new hkey]
  split
  · assumption
  · simp

theorem upsertBy_find_value {α κ : Type} [DecidableEq κ] (key : α → κ) (merge : α → α → α)
    (tbl : List α) (new : α) (hkey : ∀ old, key (merge old new) = key old)
    (P : α → Prop) (hnew : P new) (hmerge : ∀ old, P (merge old new)) :
    ∃ x, (upsertBy key merge tbl new).find? (fun r => decide (key r = key new)) = some x ∧
      P x := by
  obtain ⟨x, hx, hx2⟩ := upsertBy_find_same key merge tbl new hkey
  refine ⟨x, hx, ?_⟩
  rcases hx2 with hx2 | ⟨old, _, _, hx2⟩
  · rw [hx2]; exact hnew
  · rw [hx2]; exact hmerge old

/-- The row that `saveTollgateTraffic` hands to the store. -/
theorem saveTollgateTraffic_of_ok (parseInLocation : String → Option Nat) (now t : Nat)
    (db : List TollgateRow) (traffic : TollgateTraffic)
    (hp : parseInLocation (traffic.SumDate ++ " " ++ traffic.SumTm) = some t) :
    ∃ new : TollgateRow,
      saveTollgateTraffic parseInLocation none now db traffic
        = (upsertBy tollgateKey mergeTollgate db new, none) ∧
      tollgateKey new = (traffic.UnitCode, t) ∧
      new.traffic_amount
        = (if traffic.TrafficAmount = "" then "0" else traffic.TrafficAmount) := by
  simp only [saveTollgateTraffic, hp]
  exact ⟨_, rfl, rfl, rfl⟩

/-- C21: traffic measurements are last-write-wins per natural key: when two
measurements with the same unit identifier and the same collection timestamp
(parsed from the reported date and time) are saved in sequence by
`saveTollgateTraffic`, on a table that satisfies its unique index, the table
holds exactly one row for that key and its traffic amount is that of the second
measurement. -/
theorem saveTollgateTraffic_last_write_wins (parseInLocation : String → Option Nat)
    (now1 now2 t : Nat) (db : List TollgateRow) (first second : TollgateTraffic)
    (hdb : (db.map tollgateKey).Nodup)
    (hunit : first.UnitCode = second.UnitCode)
    (hp1 : parseInLocation (first.SumDate ++ " " ++ first.SumTm) = some t)
    (hp2 : parseInLocation (second.SumDate ++ " " ++ second.SumTm) = some t) :
    (saveTollgateTraffic parseInLocation none now1 db first).2 = none ∧
    (saveTollgateTraffic parseInLocation none now2
      (saveTollgateTraffic parseInLocation none now1 db first).1 second).2 = none ∧
    ((saveTollgateTraffic parseInLocation none now2
      (saveTollgateTraffic parseInLocation none now1 db first).1 second).1.filter
        (fun r => decide (tollgateKey r = (first.UnitCode, t)))).length = 1 ∧
    ∃ row,
      (saveTollgateTraffic parseInLocation none now2
        (saveTollgateTraffic parseInLocation none now1 db first).1 second).1.find?
          (fun r => decide (tollgateKey r = (first.UnitCode, t))) = some row ∧
      row.traffic_amount
        = (if second.TrafficAmount = "" then "0" else second.TrafficAmount) := by
  obtain ⟨n1, h1, _, _⟩ := saveTollgateTraffic_of_ok parseInLocation now1 t db first hp1
  rw [h1]
  obtain ⟨n2, h2, hk2, hv2⟩ := saveTollgateTraffic_of_ok parseInLocation now2 t
    (upsertBy tollgateKey mergeTollgate db n1) second hp2
  rw [h2]
  have hnd := upsertBy_nodup tollgateKey mergeTollgate _ n2 (fun old => tollgateKey_merge old n2)
    (upsertBy_nodup tollgateKey mergeTollgate db n1 (fun old => tollgateKey_merge old n1) hdb)
  have hm := upsertBy_key_mem tollgateKey mergeTollgate
    (upsertBy tollgateKey mergeTollgate db n1) n2 (fun old => tollgateKey_merge old n2)
  refine ⟨rfl, rfl, ?_, ?_⟩
  · rw [hunit, ← hk2]
    exact filter_key_length_one tollgateKey _ _ hnd hm
  · rw [hunit, ← hk2, ← hv2]
    exact upsertBy_find_value tollgateKey mergeTollgate _ n2
      (fun old => tollgateKey_merge old n2) (fun x => x.traffic_amount = n2.traffic_amount)
      rfl (fun _ => rfl)

theorem saveTollgateTraffic_last_write_wins_witness :
    ((saveTollgateTraffic sampleParse none 60
      (saveTollgateTraffic sampleParse none 50 [] sampleTollgate).1 secondTollgate).1.filter
        (fun r => decide (tollgateKey r = ("101", 1736503200)))).length = 1 ∧
    ∃ row,
      (saveTollgateTraffic sampleParse none 60
        (saveTollgateTraffic sampleParse none 50 [] sampleTollgate).1 secondTollgate).1.find?
          (fun r => decide (tollgateKey r = ("101", 1736503200))) = some row ∧
      row.traffic_amount = "37" :=
  have h := saveTollgateTraffic_last_write_wins sampleParse 50 60 1736503200 []
    sampleTollgate secondTollgate (by decide) rfl rfl rfl
  ⟨h.2.2.1, h.2.2.2⟩

/-! ## Properties: acknowledgement and errors -/

/-- C22: the reader issues the `XAck` of an entry exactly when `processMessage`
returns no error; `processMessage` returns an error if and only if the `data`
field of the entry is missing, is not a string, or does not decode; in that
case nothing is written and no `XAck` is issued, while in the other case the
`XAck` follows the write attempts whatever number of them failed. -/
theorem handleMessage_ack_iff (unmarshal : String → Option (List RealTimeSMS))
    (env : Nat → Nat → Option String × Nat) (ackFault : Nat → Option String)
    (st : ReaderState) (msg : XMessage) :
    ((processMessage unmarshal (env st.handled) st.db msg).err ≠ none ↔
      (msg.field "data" = none ∨
       (∃ v, msg.field "data" = some v ∧ ∀ dataStr, v ≠ FieldValue.str dataStr) ∨
       (∃ dataStr, msg.field "data" = some (FieldValue.str dataStr) ∧
         unmarshal dataStr = none))) ∧
    ((processMessage unmarshal (env st.handled) st.db msg).err ≠ none →
      (handleMessage unmarshal env ackFault st msg).db = st.db ∧
      (handleMessage unmarshal env ackFault st msg).effects = st.effects) ∧
    ((processMessage unmarshal (env st.handled) st.db msg).err = none →
      ∃ dataStr accidents, msg.field "data" = some (FieldValue.str dataStr) ∧
        unmarshal dataStr = some accidents ∧
        (handleMessage unmarshal env ackFault st msg).effects
          = st.effects
            ++ writeAttempts msg.ID accidents (fun i => (env st.handled i).1.isSome)
            ++ [Effect.xack msg.ID (ackFault st.handled).isSome]) := by
  have hp := processMessage_effects unmarshal (env st.handled) st.db msg
  refine ⟨?_, ?_, ?_⟩
  · unfold processMessage
    cases hf : msg.field "data" with
    | none => simp
    | some v =>
      cases v with
      | str dataStr =>
        cases hu : unmarshal dataStr with
        | none => simp [hu]
        | some accidents => simp [hu]
      | int n => simp
      | other => simp
  · intro herr
    obtain ⟨e, he⟩ := Option.ne_none_iff_exists'.mp herr
    have h0 := hp.1 herr
    have hdb : (processMessage unmarshal (env st.handled) st.db msg).db = st.db := by
      revert he
      unfold processMessage
      split
      · split
        · intro _; rfl
        · intro h; simp at h
      · intro _; rfl
    simp only [handleMessage, he, h0, List.append_nil, hdb, and_self]
  · intro herr
    obtain ⟨dataStr, accidents, hdata, hjson, heff⟩ := hp.2 herr
    exact ⟨dataStr, accidents, hdata, hjson, by simp only [handleMessage, herr, heff]⟩

theorem handleMessage_ack_iff_witness :
    ((handleMessage sampleUnmarshal readerEnv (fun _ => none)
        { db := [], effects := [], handled := 0 } brokenMessage).db = [] ∧
      (handleMessage sampleUnmarshal readerEnv (fun _ => none)
        { db := [], effects := [], handled := 0 } brokenMessage).effects = []) ∧
    ∃ dataStr accidents, sampleMessage.field "data" = some (FieldValue.str dataStr) ∧
      sampleUnmarshal dataStr = some accidents ∧
      (handleMessage sampleUnmarshal readerEnv (fun _ => none)
          { db := [], effects := [], handled := 0 } sampleMessage).effects
        = [] ++ writeAttempts sampleMessage.ID accidents (fun i => (readerEnv 0 i).1.isSome)
          ++ [Effect.xack sampleMessage.ID false] :=
  ⟨(handleMessage_ack_iff sampleUnmarshal readerEnv (fun _ => none)
      { db := [], effects := [], handled := 0 } brokenMessage).2.1 (by decide),
   (handleMessage_ack_iff sampleUnmarshal readerEnv (fun _ => none)
      { db := [], effects := [], handled := 0 } sampleMessage).2.2 (by decide)⟩

/-! ## Properties: the simulator -/

theorem wrapInt_of_range (x : Int) (h0 : -9223372036854775808 ≤ x)
    (h1 : x < 9223372036854775808) : wrapInt x = x := by
  unfold wrapInt; omega

theorem wrapInt_bounds (x : Int) :
    -9223372036854775808 ≤ wrapInt x ∧ wrapInt x < 9223372036854775808 := by
  unfold wrapInt; omega

theorem tdiv_of_pos (a b : Int) (hb : 0 < b) :
    a.tdiv b = if 0 ≤ a then a / b else -((-a) / b) := by
  split
  · exact Int.tdiv_eq_ediv (by assumption) (le_of_lt hb)
  · rw [← Int.tdiv_eq_ediv (by omega) (le_of_lt hb), Int.neg_tdiv, neg_neg]

theorem weights_bounds (draw : Fin weights.length) :
    2 ≤ weights.get draw ∧ weights.get draw ≤ 7 := by
  revert draw
  decide

theorem clipCount_bounds (count remaining : Int) (h : 0 ≤ remaining) :
    0 ≤ clipCount count remaining ∧ clipCount count remaining ≤ remaining := by
  unfold clipCount
  dsimp only
  constructor <;> split_ifs <;> omega

theorem clipCount_eq (count remaining : Int) :
    clipCount count remaining = min (max count 0) remaining := by
  unfold clipCount
  dsimp only
  split_ifs <;> omega

theorem callsRemaining_cases (elapsed : Int) (h0 : -9223372036854775808 ≤ elapsed)
    (h1 : elapsed < 9223372036854775808) :
    (fiveMinutes ≤ elapsed ∧ callsRemaining elapsed ≤ 0) ∨
    (elapsed < fiveMinutes ∧ 1 ≤ callsRemaining elapsed ∧
      callsRemaining elapsed ≤ 400000000) := by
  unfold callsRemaining secondsElapsed fiveMinutes wrapInt
  simp only [tdiv_of_pos _ _ (show (0 : Int) < 30 by norm_num),
    tdiv_of_pos _ _ (show (0 : Int) < 1000000000 by norm_num)]
  split_ifs <;> omega

theorem avgPerCall_eq_ceil (remaining calls : Int) (hr : 0 < remaining) (hc : 0 < calls)
    (hfit : remaining + calls - 1 < 9223372036854775808) :
    avgPerCall remaining calls = ⌈(remaining : ℚ) / (calls : ℚ)⌉ ∧
    1 ≤ avgPerCall remaining calls ∧ avgPerCall remaining calls ≤ remaining := by
  unfold avgPerCall
  rw [wrapInt_of_range _ (by omega) hfit, Int.tdiv_eq_ediv (by omega) (by omega)]
  have hcq : (0 : ℚ) < calls := by exact_mod_cast hc
  have h1 := Int.ediv_add_emod (remaining + calls - 1) calls
  have h2 := Int.emod_nonneg (remaining + calls - 1) (ne_of_gt hc)
  have h3 := Int.emod_lt_of_pos (remaining + calls - 1) hc
  generalize (remaining + calls - 1) / calls = q at h1 ⊢
  generalize (remaining + calls - 1) % calls = r at h1 h2 h3
  have hlo : (q - 1) * calls < remaining := by nlinarith
  have hhi : remaining ≤ q * calls := by nlinarith
  refine ⟨?_, ?_, ?_⟩
  · symm
    rw [Int.ceil_eq_iff]
    constructor
    · rw [lt_div_iff₀ hcq]
      exact_mod_cast hlo
    · rw [div_le_iff₀ hcq]
      exact_mod_cast hhi
  · by_contra hq
    have : q ≤ 0 := by omega
    nlinarith
  · by_contra hq
    have : remaining + 1 ≤ q := by omega
    nlinarith

theorem getRemainingCount_fst (s : Simulator) (elapsed : Int) (now : Nat)
    (draw : Fin weights.length) (variance : Fin 3) :
    (getRemainingCount s elapsed now draw variance).1
      = if elapsed ≥ fiveMinutes then setNewTarget s draw now else s := by
  unfold getRemainingCount
  dsimp only
  split_ifs <;> rfl

theorem getRemainingCount_snd_bounds (s : Simulator) (elapsed : Int) (now : Nat)
    (draw : Fin weights.length) (variance : Fin 3) :
    0 ≤ (getRemainingCount s elapsed now draw variance).2 ∧
    (getRemainingCount s elapsed now draw variance).2
      ≤ max 0 (wrapInt ((getRemainingCount s elapsed now draw variance).1.currentTarget
          - (getRemainingCount s elapsed now draw variance).1.currentCount)) := by
  unfold getRemainingCount
  dsimp only
  generalize (if elapsed ≥ fiveMinutes then setNewTarget s draw now else s) = s1
  split_ifs with h1 h2 h3
  all_goals dsimp only
  all_goals generalize wrapInt (s1.currentTarget - s1.currentCount) = remaining at *
  · omega
  · omega
  · omega
  · have hb := clipCount_bounds (unclippedCount remaining (callsRemaining elapsed) variance)
      remaining (by omega)
    omega

theorem getRemainingCount_no_reset (s : Simulator) (elapsed : Int) (now : Nat)
    (draw : Fin weights.length) (variance : Fin 3)
    (hrem : 0 < s.currentTarget - s.currentCount)
    (hfit : s.currentTarget - s.currentCount < 9223372036854775808)
    (he : elapsed < fiveMinutes) (hc : 1 ≤ callsRemaining elapsed)
    (hcfit : s.currentTarget - s.currentCount + callsRemaining elapsed - 1
      < 9223372036854775808) :
    getRemainingCount s elapsed now draw variance
      = (s, clipCount (unclippedCount (s.currentTarget - s.currentCount)
          (callsRemaining elapsed) variance) (s.currentTarget - s.currentCount)) := by
  have havg := avgPerCall_eq_ceil (s.currentTarget - s.currentCount) (callsRemaining elapsed)
    hrem (by omega) hcfit
  unfold getRemainingCount
  dsimp only
  rw [if_neg (not_le.mpr he), wrapInt_of_range _ (by omega) hfit,
    if_neg (not_le.mpr hrem),
    if_neg (show ¬ callsRemaining elapsed ≤ 0 by omega),
    if_neg (show ¬ avgPerCall (s.currentTarget - s.currentCount) (callsRemaining elapsed) = 0
      by omega)]

theorem unclippedCount_near_ceil (remaining calls : Int) (variance : Fin 3)
    (hr : 0 < remaining) (hc : 0 < calls)
    (hfit : remaining + calls < 9223372036854775808) :
    unclippedCount remaining calls variance
      = ⌈(remaining : ℚ) / (calls : ℚ)⌉ + ((variance.val : Int) - 1) := by
  obtain ⟨h1, h2, h3⟩ := avgPerCall_eq_ceil remaining calls hr hc (by omega)
  unfold unclippedCount
  have hv := variance.isLt
  rw [wrapInt_of_range ((variance.val : Int) - 1) (by omega) (by omega),
    wrapInt_of_range _ (by omega) (by omega), h1]

theorem setNewTarget_invariant (s : Simulator) (draw : Fin weights.length) (now : Nat) :
    windowInvariant (setNewTarget s draw now) := by
  have h := weights_bounds draw
  simp only [windowInvariant, setNewTarget]
  omega

theorem getRemainingCount_invariant (s : Simulator) (elapsed : Int) (now : Nat)
    (draw : Fin weights.length) (variance : Fin 3) (h : windowInvariant s) :
    windowInvariant (getRemainingCount s elapsed now draw variance).1 := by
  rw [getRemainingCount_fst]
  split
  · exact setNewTarget_invariant s draw now
  · exact h

theorem getRandomAccidents_length (store : Option (List (Option SeedRow))) (count : Int)
    (accidents : List SeedRow) (hc : 0 ≤ count)
    (h : getRandomAccidents store count = some accidents) :
    (accidents.length : Int) ≤ count := by
  cases store with
  | none => simp [getRandomAccidents] at h
  | some shuffled =>
    simp only [getRandomAccidents, Option.some.injEq] at h
    subst h
    have h1 := List.length_filterMap_le id (seedQuery shuffled count)
    have h2 : (seedQuery shuffled count).length ≤ count.toNat := by
      unfold seedQuery
      exact List.length_take_le _ _
    omega

theorem trafficHandler_invariant (s : Simulator) (req : HandlerInput)
    (h : windowInvariant s) : windowInvariant (trafficHandler s req) := by
  unfold trafficHandler
  split
  · exact h
  · have hinv := getRemainingCount_invariant s req.elapsed req.now req.draw req.variance h
    have hb := getRemainingCount_snd_bounds s req.elapsed req.now req.draw req.variance
    dsimp only
    split
    · exact hinv
    · rename_i accidents hacc
      have hlen := getRandomAccidents_length _ _ _ hb.1 hacc
      unfold windowInvariant at hinv ⊢
      rw [wrapInt_of_range _ (by omega) (by omega)] at hb
      dsimp only
      rw [wrapInt_of_range _ (by omega) (by omega)]
      omega

theorem serve_invariant_of (reqs : List HandlerInput) (s : Simulator)
    (h : windowInvariant s) : windowInvariant (serve s reqs) := by
  induction reqs generalizing s with
  | nil => exact h
  | cons req rest ih => exact ih _ (trafficHandler_invariant s req h)

/-- C26: for every simulator state, elapsed time and random draw the count
returned by `getRemainingCount` lies between 0 and the remaining amount of the
window it leaves (as Go computes the difference, and as an integer difference
when the counters are within `inRange`); and when at least one call of the
window remains and something remains to be generated, the count before clipping
is the per-call average `ceil(remaining / callsRemaining)` plus -1, 0 or 1. -/
theorem getRemainingCount_within_remaining (s : Simulator) (elapsed : Int) (now : Nat)
    (draw : Fin weights.length) (variance : Fin 3) :
    (0 ≤ (getRemainingCount s elapsed now draw variance).2 ∧
      (getRemainingCount s elapsed now draw variance).2
        ≤ max 0 (wrapInt ((getRemainingCount s elapsed now draw variance).1.currentTarget
            - (getRemainingCount s elapsed now draw variance).1.currentCount))) ∧
    (s.inRange →
      (getRemainingCount s elapsed now draw variance).2
        ≤ max 0 ((getRemainingCount s elapsed now draw variance).1.currentTarget
            - (getRemainingCount s elapsed now draw variance).1.currentCount)) ∧
    (s.inRange → -9223372036854775808 ≤ elapsed → elapsed < 9223372036854775808 →
      1 ≤ callsRemaining elapsed → 0 < s.currentTarget - s.currentCount →
      getRemainingCount s elapsed now draw variance
        = (s, clipCount (unclippedCount (s.currentTarget - s.currentCount)
            (callsRemaining elapsed) variance) (s.currentTarget - s.currentCount)) ∧
      |unclippedCount (s.currentTarget - s.currentCount) (callsRemaining elapsed) variance
        - ⌈((s.currentTarget - s.currentCount : Int) : ℚ)
            / ((callsRemaining elapsed : Int) : ℚ)⌉| ≤ 1) := by
  have hb := getRemainingCount_snd_bounds s elapsed now draw variance
  refine ⟨hb, ?_, ?_⟩
  · intro hs
    have hfst := getRemainingCount_fst s elapsed now draw variance
    unfold Simulator.inRange at hs
    have hw : wrapInt ((getRemainingCount s elapsed now draw variance).1.currentTarget
          - (getRemainingCount s elapsed now draw variance).1.currentCount)
        = (getRemainingCount s elapsed now draw variance).1.currentTarget
          - (getRemainingCount s elapsed now draw variance).1.currentCount := by
      rw [hfst]
      split
      · have h := setNewTarget_invariant s draw now
        unfold windowInvariant at h
        exact wrapInt_of_range _ (by omega) (by omega)
      · exact wrapInt_of_range _ (by omega) (by omega)
    rw [hw] at hb
    exact hb.2
  · intro hs h0 h1 hc hrem
    unfold Simulator.inRange at hs
    rcases callsRemaining_cases elapsed h0 h1 with ⟨_, h⟩ | ⟨he, _, hcu⟩
    · omega
    · refine ⟨getRemainingCount_no_reset s elapsed now draw variance hrem (by omega) he hc
        (by omega), ?_⟩
      rw [unclippedCount_near_ceil _ _ variance hrem (by omega) (by omega)]
      have hv := variance.isLt
      rw [abs_le]
      constructor <;> omega

theorem getRemainingCount_within_remaining_witness :
    getRemainingCount (NewSimulator ⟨12, by decide⟩ 0) 95000000000 95000000000
        ⟨0, by decide⟩ ⟨2, by decide⟩
      = (NewSimulator ⟨12, by decide⟩ 0,
          clipCount (unclippedCount 6 (callsRemaining 95000000000) ⟨2, by decide⟩) 6) ∧
    |unclippedCount 6 (callsRemaining 95000000000) ⟨2, by decide⟩
      - ⌈((6 : Int) : ℚ) / ((callsRemaining 95000000000 : Int) : ℚ)⌉| ≤ 1 :=
  (getRemainingCount_within_remaining (NewSimulator ⟨12, by decide⟩ 0) 95000000000
    95000000000 ⟨0, by decide⟩ ⟨2, by decide⟩).2.2 (by decide) (by decide) (by decide)
    (by decide) (by decide)

/-- C27: in every state reached from `NewSimulator` by `trafficHandler` steps
(the seed query returning at most the requested number of rows) the target is
between 2 and 7 and the count between 0 and the target. -/
theorem serve_invariant (draw : Fin weights.length) (now : Nat) (reqs : List HandlerInput) :
    2 ≤ (serve (NewSimulator draw now) reqs).currentTarget ∧
    (serve (NewSimulator draw now) reqs).currentTarget ≤ 7 ∧
    0 ≤ (serve (NewSimulator draw now) reqs).currentCount ∧
    (serve (NewSimulator draw now) reqs).currentCount
      ≤ (serve (NewSimulator draw now) reqs).currentTarget :=
  serve_invariant_of reqs _ (setNewTarget_invariant _ draw now)

/-- C28: a call of `getRemainingCount` made five minutes or more after
`windowStartTime` starts a new window (new target, count 0, start at the
current instant) and returns the whole new target, whereas a call at the start
of that window returns at most 2. -/
theorem getRemainingCount_after_window (s : Simulator) (elapsed : Int) (now : Nat)
    (draw : Fin weights.length) (variance variance2 : Fin 3)
    (h : fiveMinutes ≤ elapsed) (h1 : elapsed < 9223372036854775808) :
    getRemainingCount s elapsed now draw variance
      = ((⟨weights.get draw, 0, now⟩ : Simulator), weights.get draw) ∧
    (getRemainingCount (⟨weights.get draw, 0, now⟩ : Simulator) 0 now draw variance2).2
      ≤ 2 := by
  have hw := weights_bounds draw
  constructor
  · have hc : callsRemaining elapsed ≤ 0 := by
      unfold fiveMinutes at h
      rcases callsRemaining_cases elapsed (by omega) h1 with ⟨_, hc⟩ | ⟨he, _⟩
      · exact hc
      · unfold fiveMinutes at he; omega
    unfold getRemainingCount
    dsimp only
    rw [if_pos h]
    simp only [setNewTarget, sub_zero]
    rw [wrapInt_of_range _ (by omega) (by omega), if_neg (by omega), if_pos hc]
  · have hcr : callsRemaining 0 = 10 := by decide
    have hshare : ∀ (d : Fin weights.length) (v : Fin 3),
        clipCount (unclippedCount (weights.get d) 10 v) (weights.get d) ≤ 2 := by decide
    have hs := getRemainingCount_no_reset (⟨weights.get draw, 0, now⟩ : Simulator) 0 now draw
      variance2 (by dsimp only; omega) (by dsimp only; omega) (by decide) (by decide)
      (by dsimp only; rw [hcr]; omega)
    rw [hs]
    simp only [sub_zero, hcr]
    exact hshare draw variance2

theorem getRemainingCount_after_window_witness :
    getRemainingCount (NewSimulator ⟨0, by decide⟩ 0) 300000000000 300000000000
        ⟨13, by decide⟩ ⟨0, by decide⟩
      = ((⟨7, 0, 300000000000⟩ : Simulator), 7) :=
  (getRemainingCount_after_window (NewSimulator ⟨0, by decide⟩ 0) 300000000000 300000000000
    ⟨13, by decide⟩ ⟨0, by decide⟩ ⟨0, by decide⟩ (by decide) (by decide)).1

/-- C29 (as stated, refuted): the first entry of `weights` gives a window target
of 2, which is not between 8 and 12. -/
theorem setNewTarget_below_eight :
    (setNewTarget (NewSimulator ⟨0, by decide⟩ 0) ⟨0, by decide⟩ 0).currentTarget = 2 ∧
    ¬ ∀ (s : Simulator) (draw : Fin weights.length) (now : Nat),
        8 ≤ (setNewTarget s draw now).currentTarget ∧
        (setNewTarget s draw now).currentTarget ≤ 12 := by
  refine ⟨by decide, fun h => ?_⟩
  have h2 := (h (NewSimulator ⟨0, by decide⟩ 0) ⟨0, by decide⟩ 0).1
  revert h2
  decide

/-- C29 (amended): every window target chosen by `setNewTarget` lies between 2
and 7 inclusive, both ends being chosen by some draw. -/
theorem setNewTarget_range (s : Simulator) (draw : Fin weights.length) (now : Nat) :
    (2 ≤ (setNewTarget s draw now).currentTarget ∧
      (setNewTarget s draw now).currentTarget ≤ 7) ∧
    (setNewTarget s ⟨0, by decide⟩ now).currentTarget = 2 ∧
    (setNewTarget s ⟨13, by decide⟩ now).currentTarget = 7 :=
  ⟨weights_bounds draw, rfl, rfl⟩

/-! ## Properties: pagination -/

theorem Atoi_range (s : String) (n : Int) (h : Atoi s = some n) :
    -9223372036854775808 ≤ n ∧ n ≤ 9223372036854775807 := by
  unfold Atoi at h
  split at h
  · simp at h
  · dsimp only at h
    split_ifs at h
    all_goals
      split at h
      · simp at h
      · split_ifs at h
        simp only [Option.some.injEq] at h
        omega

theorem pageParam_pos (raw : String) (fallback : Int) (hd : 1 ≤ fallback) :
    1 ≤ pageParam raw fallback ∧ pageParam raw fallback ≤ max fallback 9223372036854775807 := by
  unfold pageParam
  split
  · split
    · rename_i num hnum
      have hr := Atoi_range raw num hnum
      split <;> omega
    · omega
  · omega

theorem pageParam_fallback (raw : String) (fallback : Int)
    (h : raw = "" ∨ Atoi raw = none ∨ ∃ num, Atoi raw = some num ∧ num ≤ 0) :
    pageParam raw fallback = fallback := by
  unfold pageParam
  rcases h with h | h | ⟨num, h, hle⟩
  · simp [h]
  · simp [h]
  · simp only [h]
    split_ifs <;> first | rfl | omega

theorem pageSize_ne_none (totalCount numOfRows : Int) (h : 1 ≤ numOfRows) :
    ∃ p, pageSize totalCount numOfRows = some p := by
  unfold pageSize goDiv
  rw [if_neg (by omega)]
  exact ⟨_, rfl⟩

/-- Where the sum `totalCount + numOfRows - 1` stays within 64 bits the page
count is `max(1, ceil(totalCount / numOfRows))`. -/
theorem pageSize_of_fit (totalCount numOfRows : Int) (h0 : 0 ≤ totalCount)
    (hn : 1 ≤ numOfRows) (hfit : totalCount + numOfRows - 1 < 9223372036854775808) :
    pageSize totalCount numOfRows
      = some (max 1 ⌈(totalCount : ℚ) / (numOfRows : ℚ)⌉) := by
  have hnq : (0 : ℚ) < numOfRows := by exact_mod_cast (show (0 : Int) < numOfRows by omega)
  have h1 := Int.ediv_add_emod (totalCount + numOfRows - 1) numOfRows
  have h2 := Int.emod_nonneg (totalCount + numOfRows - 1) (show numOfRows ≠ 0 by omega)
  have h3 := Int.emod_lt_of_pos (totalCount + numOfRows - 1) (show 0 < numOfRows by omega)
  have hq0 : 0 ≤ (totalCount + numOfRows - 1) / numOfRows :=
    Int.ediv_nonneg (by omega) (by omega)
  have hqle : (totalCount + numOfRows - 1) / numOfRows ≤ totalCount + numOfRows - 1 :=
    Int.ediv_le_self _ (by omega)
  have hceil : ⌈(totalCount : ℚ) / (numOfRows : ℚ)⌉
      = (totalCount + numOfRows - 1) / numOfRows := by
    rw [Int.ceil_eq_iff]
    generalize (totalCount + numOfRows - 1) / numOfRows = q at h1
    generalize (totalCount + numOfRows - 1) % numOfRows = r at h1 h2 h3
    have hlo : (q - 1) * numOfRows < totalCount := by nlinarith
    have hhi : totalCount ≤ q * numOfRows := by nlinarith
    constructor
    · rw [lt_div_iff₀ hnq]
      exact_mod_cast hlo
    · rw [div_le_iff₀ hnq]
      exact_mod_cast hhi
  unfold pageSize goDiv
  rw [if_neg (by omega), wrapInt_of_range _ (by omega) hfit,
    Int.tdiv_eq_ediv (by omega) (by omega), wrapInt_of_range _ (by omega) (by omega), hceil]
  dsimp only
  congr 1
  split_ifs <;> omega

/-- Where the product `(pageNo - 1) * numOfRows` stays within 64 bits the
offset is that product and is not negative. -/
theorem pageOffset_of_fit (pageNo numOfRows : Int) (hp : 1 ≤ pageNo)
    (hp2 : pageNo ≤ 9223372036854775807) (hn : 1 ≤ numOfRows)
    (hfit : (pageNo - 1) * numOfRows < 9223372036854775808) :
    pageOffset pageNo numOfRows = (pageNo - 1) * numOfRows ∧
    0 ≤ pageOffset pageNo numOfRows := by
  have h0 : 0 ≤ (pageNo - 1) * numOfRows := mul_nonneg (by omega) (by omega)
  unfold pageOffset
  rw [wrapInt_of_range (pageNo - 1) (by omega) (by omega),
    wrapInt_of_range _ (by omega) hfit]
  exact ⟨rfl, h0⟩

/-- C30 (divergence): both handlers keep `numOfRows` and `pageNo` at 1 or more
and never divide by zero, but a `numOfRows` near the top of the 64-bit range
makes the sum `totalCount + numOfRows - 1` wrap around, so that the request
`numOfRows=9223372036854775807` on a cache of two rows is answered with
`pageSize` -1, and a large `pageNo` makes the offset wrap to a negative number. -/
theorem pagination_wraps_around :
    (∀ raw : String, 1 ≤ pageParam raw 100 ∧ 1 ≤ pageParam raw 1) ∧
    (∀ (totalCount : Int) (raw : String),
      ∃ p, pageSize totalCount (pageParam raw 100) = some p) ∧
    handleRealTimeSMS sampleCache ⟨"9223372036854775807", ""⟩
      = Served.ok ⟨2, 1, 9223372036854775807, -1, ["first", "second"]⟩ ∧
    handleTollgateTraffic sampleCache ⟨"9223372036854775807", ""⟩
      = Served.ok ⟨2, 1, 9223372036854775807, -1, ["first", "second"]⟩ ∧
    pageOffset (pageParam "4611686018427387905" 1) (pageParam "2" 100)
      = -9223372036854775808 ∧
    handleRealTimeSMS sampleCache ⟨"2", "4611686018427387905"⟩ = Served.internalError ∧
    handleTollgateTraffic sampleCache ⟨"2", "4611686018427387905"⟩
      = Served.internalError := by
  refine ⟨fun raw => ⟨(pageParam_pos raw 100 (by omega)).1, (pageParam_pos raw 1 (by omega)).1⟩,
    fun totalCount raw => pageSize_ne_none totalCount _ (pageParam_pos raw 100 (by omega)).1,
    ?_, ?_, ?_, ?_, ?_⟩ <;> decide

end TrafficAcc
